import Mathlib

/-!
Verification development for the `sky_monitoring` repository.

The Python sources are shallowly embedded below:

* `planes_opensky.py` — the `OpenSkyPlaneTracker` geofence state machine
  (`tick`, the ENTER enrichment cascade, OVERHEAD cooldown, EXIT hysteresis),
  with network I/O (OpenSky fetch and the three enrichment providers)
  abstracted as oracles passed to `tick`, and the floating-point haversine
  distance abstracted as the `distM` field carried on each snapshot record.
* `enrichment_airlabs.py` — `normalize_flight_code`.
* `sats_skyfield.py` — the allow-list loader `_load_space_objects_allowlist`,
  the fail-safe hot reloader `_reload_space_objects_if_needed`, and the
  satellite `tick` scan, with the Skyfield elevation/azimuth/range
  computation abstracted as an observation oracle and file/network I/O
  abstracted as explicit inputs.

Times and distances are rationals (the source uses Python floats); machine
wall-clock timestamps (`utc_now_iso`, the `ts` event field) are unconstrained
by any property studied here and are omitted from the event record.
Python `round(x, n)` is modelled with round-half-up (the source's ties-to-even
behaviour at exact half-way points is not distinguished by any property here).
-/

namespace SkyMon

/-! ## Generic helpers: Python dict / truthiness modelling -/

/-- Python `a or b` on strings: first operand unless it is falsy (empty). -/
def pyOr (a b : String) : String := if a = "" then b else a

/-- Association-list lookup (Python `d.get(k)`); keys are unique in source dicts. -/
def alookup {κ α : Type} [DecidableEq κ] (k : κ) : List (κ × α) → Option α
  | [] => none
  | (k', v) :: rest => if k' = k then some v else alookup k rest

/-- Python `d[k] = v` on an insertion-ordered dict: replace in place, else append. -/
def pyInsert {κ α : Type} [DecidableEq κ] (k : κ) (v : α) : List (κ × α) → List (κ × α)
  | [] => [(k, v)]
  | (k', v') :: rest => if k' = k then (k, v) :: rest else (k', v') :: pyInsert k v rest

/-- Python `d.pop(k, None)` on an assoc list (removes every binding of `k`). -/
def aerase {κ α : Type} [DecidableEq κ] (k : κ) : List (κ × α) → List (κ × α)
  | [] => []
  | (k', v) :: rest => if k' = k then aerase k rest else (k', v) :: aerase k rest

/-- Functional map update (Python `d[k] = v` for dicts we never iterate). -/
def fupd {κ α : Type} [DecidableEq κ] (f : κ → Option α) (k : κ) (v : α) : κ → Option α :=
  fun x => if x = k then some v else f x

/-- Functional map deletion (Python `d.pop(k, None)`). -/
def fdel {κ α : Type} [DecidableEq κ] (f : κ → Option α) (k : κ) : κ → Option α :=
  fun x => if x = k then none else f x

/-- The keys of an assoc list are pairwise distinct (true of every Python dict). -/
def keysND {κ α : Type} (l : List (κ × α)) : Prop := (l.map Prod.fst).Nodup

/-- Python `round(x, 1)` on a rational (half-up at ties). -/
def round1 (q : ℚ) : ℚ := ((round (q * 10) : ℤ) : ℚ) / 10

/-- Python `round(x, 3)` on a rational (half-up at ties). -/
def round3 (q : ℚ) : ℚ := ((round (q * 1000) : ℤ) : ℚ) / 1000

/-! ## String normalization

`planes_opensky.normalize_callsign` and
`enrichment_airlabs.normalize_flight_code`.  Python `str.strip()` is modelled
by dropping whitespace characters from both ends of the character list. -/

/-- Python `str.strip()` at the character-list level. -/
def pyStripList (l : List Char) : List Char :=
  ((l.dropWhile Char.isWhitespace).reverse.dropWhile Char.isWhitespace).reverse

/-- `planes_opensky.normalize_callsign`:
`(cs or "").strip().upper().replace(" ", "")`. -/
def normalize_callsign (cs : String) : String :=
  String.mk (((pyStripList cs.toList).map Char.toUpper).filter (fun c => decide (c ≠ ' ')))

/-- Membership in the regex class `[A-Z0-9]` of `enrichment_airlabs._FLIGHT_RE`. -/
def isUpperAlnum (c : Char) : Bool :=
  (decide ('A' ≤ c) && decide (c ≤ 'Z')) || (decide ('0' ≤ c) && decide (c ≤ '9'))

/-- `enrichment_airlabs.normalize_flight_code`:
`""` on falsy input, else strip/upper then delete every `[^A-Z0-9]` character. -/
def normalize_flight_code (code : Option String) : String :=
  match code with
  | none => ""
  | some c =>
      if c = "" then ""
      else String.mk (((pyStripList c.toList).map Char.toUpper).filter isUpperAlnum)

/-- Spec-side definition for claim C8: the upper-cased alphanumeric core of a
string — two inputs "differing only in case and non-alphanumeric characters"
are exactly two inputs with the same core. -/
def upperAlnumCore (c : String) : List Char :=
  (c.toList.map Char.toUpper).filter isUpperAlnum

/-! ## Plane tracker data model (`planes_opensky.py`)

A snapshot record as produced by `OpenSkyPlaneTracker._fetch` (records missing
id or position are already dropped there).  `distM` carries the value of
`haversine_m(home_lat, home_lon, p.lat, p.lon)` that `tick` computes for the
record — the floating-point spherical trigonometry itself is abstracted. -/

structure PlaneObs where
  icao24 : String
  callsign : String
  country : String
  pos : ℚ × ℚ
  distM : ℚ
  altM : Option ℚ
  velMs : Option ℚ
  trackDeg : Option ℚ
  onGround : Bool
deriving DecidableEq, Repr

/-- `alt_ft`: metres → rounded feet. -/
def alt_ft (altM : Option ℚ) : Option ℤ :=
  altM.map (fun v => round (v * (328084 / 100000 : ℚ)))

/-- `spd_kt`: m/s → rounded knots. -/
def spd_kt (velMs : Option ℚ) : Option ℤ :=
  velMs.map (fun v => round (v * (194384 / 100000 : ℚ)))

/-- `trk_deg`: rounded track. -/
def trk_deg (track : Option ℚ) : Option ℤ :=
  track.map (fun v => round v)

/-- The normalized ADSBDB `route` dict (`enrichment_adsbdb.enrich_callsign_adsbdb`). -/
structure RouteObj where
  fromCode : Option String := none
  toCode : Option String := none
  fromKind : Option String := none
  toKind : Option String := none
  fromName : Option String := none
  toName : Option String := none
  fromCity : Option String := none
  toCity : Option String := none
  fromCountry : Option String := none
  toCountry : Option String := none
deriving DecidableEq, Repr

/-- The normalized ADSBDB `airline` dict. -/
structure Airline where
  name : Option String := none
  icao : Option String := none
  iata : Option String := none
  callsign : Option String := none
  country : Option String := none
  countryIso : Option String := none
deriving DecidableEq, Repr

/-- The normalized ADSBDB result (`enrich_callsign_adsbdb`, success case: both
route endpoints present). -/
structure AdsbdbNorm where
  route : RouteObj
  airline : Airline
  callsignIata : Option String := none
  callsignIcao : Option String := none
deriving DecidableEq, Repr

/-- The normalized AirLabs / aviationstack enrichment record
(`normalize_airlabs` / `normalize_aviationstack`): only the fields read by
`planes_opensky.py` are carried. -/
structure Enriched where
  company : Option String := none
  airlineIcao : Option String := none
  airlineIata : Option String := none
  flightIata : Option String := none
  flightIcao : Option String := none
  flightNumber : Option String := none
  routeStr : Option String := none
  depIata : Option String := none
  depIcao : Option String := none
  arrIata : Option String := none
  arrIcao : Option String := none
deriving DecidableEq, Repr

/-- `planes_opensky._route_is_present`: a dict with non-blank `from` and `to`. -/
def route_is_present (o : Option RouteObj) : Bool :=
  match o with
  | some r => !((r.fromCode.getD "").trim.isEmpty) && !((r.toCode.getD "").trim.isEmpty)
  | none => false

/-- The per-event metadata dict of the plane tracker, with one optional field
per key the source ever writes (an absent key is `none`; for keys whose value
the source only ever reads through `is not None` / truthiness checks, a key
present with value `None` is identified with an absent key). -/
structure EventMeta where
  country : Option String := none
  altFt : Option ℤ := none
  spdKt : Option ℤ := none
  trkDeg : Option ℤ := none
  distM : Option ℚ := none
  distKm : Option ℚ := none
  pos : Option (ℚ × ℚ) := none
  lastPos : Option (ℚ × ℚ) := none
  lastDistM : Option ℚ := none
  radiusM : Option ℚ := none
  radiusExitM : Option ℚ := none
  exitConfirmPolls : Option ℕ := none
  outsidePolls : Option ℕ := none
  overheadRadiusM : Option ℚ := none
  cooldownS : Option ℚ := none
  reason : Option String := none
  display : Option String := none
  route : Option RouteObj := none
  airline : Option Airline := none
  adsbdbRaw : Option String := none
  adsbdbStatus : Option String := none
  enriched : Option Enriched := none
  airlabsStatus : Option String := none
  aviationstackStatus : Option String := none
  enrichSource : Option String := none
  callsignIata : Option String := none
  callsignIcao : Option String := none
deriving DecidableEq, Repr

inductive EvKind where
  | ENTER | EXIT | OVERHEAD | INFO | WARN
deriving DecidableEq, Repr

/-- The `event_writer.Event` envelope (the wall-clock `ts` string is omitted:
no studied property constrains it). -/
structure Event (μ : Type) where
  event : EvKind
  kind : String
  id : String
  label : String
  meta : μ
deriving DecidableEq, Repr

/-- `planes_opensky._safe_str` on an optional string. -/
def safe_str (x : Option String) : String :=
  match x with
  | some s => s.trim
  | none => ""

/-- Python truthiness of an optional string (`None` and `""` are falsy). -/
def truthyStr (x : Option String) : Bool :=
  match x with
  | some s => !s.isEmpty
  | none => false

/-- First truthy value of a Python `a or b or ...` chain over optional strings. -/
def pyOrChain (xs : List (Option String)) : Option String :=
  match xs with
  | [] => none
  | x :: rest => if truthyStr x then x else pyOrChain rest

/-- `planes_opensky._stable_display_from_meta`: the stable
`"Company Flight  DEP→ARR"` string computed once on ENTER. -/
def stable_display_from_meta (meta : EventMeta) (fallbackLabel : String) : String :=
  let company0 := "Unknown"
  let company1 :=
    match meta.airline with
    | some a =>
        match a.name with
        | some nm => if !nm.trim.isEmpty then nm.trim else
            (match pyOrChain [a.icao, a.iata] with
             | some code => if !code.trim.isEmpty then code.trim.toUpper else company0
             | none => company0)
        | none =>
            (match pyOrChain [a.icao, a.iata] with
             | some code => if !code.trim.isEmpty then code.trim.toUpper else company0
             | none => company0)
    | none => company0
  let company :=
    match meta.enriched with
    | some e =>
        match e.company with
        | some c => if !c.trim.isEmpty then c.trim else
            (if company1 = "Unknown" then
               (match pyOrChain [e.airlineIcao, e.airlineIata] with
                | some code => if !code.trim.isEmpty then code.trim.toUpper else company1
                | none => company1)
             else company1)
        | none =>
            (if company1 = "Unknown" then
               (match pyOrChain [e.airlineIcao, e.airlineIata] with
                | some code => if !code.trim.isEmpty then code.trim.toUpper else company1
                | none => company1)
             else company1)
    | none => company1
  let flight :=
    pyOrChain [meta.callsignIata, meta.callsignIcao,
      (match meta.enriched with | some e => e.flightIata | none => none),
      (match meta.enriched with | some e => e.flightIcao | none => none),
      (match meta.enriched with | some e => e.flightNumber | none => none),
      some fallbackLabel]
  let flightS0 := String.mk ((safe_str (match flight with
      | some f => some f
      | none => some "UNK")).toList.filter (fun c => decide (c ≠ ' ')))
  let flightS := if flightS0 = "" then "UNK" else flightS0
  let route1 :=
    match meta.route with
    | some r =>
        let a := safe_str r.fromCode
        let b := safe_str r.toCode
        if a ≠ "" ∧ b ≠ "" then a ++ "→" ++ b else ""
    | none => ""
  let route2 :=
    if route1 = "" then
      match meta.enriched with
      | some e =>
          match e.routeStr with
          | some rt =>
              if !rt.trim.isEmpty ∧ ¬ rt.contains '?' then rt.trim
              else
                (match pyOrChain [e.depIata, e.depIcao], pyOrChain [e.arrIata, e.arrIcao] with
                 | some dep, some arr => safe_str (some dep) ++ "→" ++ safe_str (some arr)
                 | _, _ => "")
          | none =>
              (match pyOrChain [e.depIata, e.depIcao], pyOrChain [e.arrIata, e.arrIcao] with
               | some dep, some arr => safe_str (some dep) ++ "→" ++ safe_str (some arr)
               | _, _ => "")
      | none => ""
    else route1
  let route := if route2 = "" then "???" ++ "→" ++ "???" else route2
  company ++ " " ++ flightS ++ "  " ++ route

/-! ## Tracker configuration, state, and oracles -/

/-- The `OpenSkyPlaneTracker.__init__` attributes that `tick` reads.  The
source hardcodes `exit_buffer_m = 750`, `exit_confirm_polls = 2`,
`overhead_radius_m = 1500`, `overhead_cooldown_seconds = 1800`,
`adsbdb_cache_ttl_s = 21600`; they are attributes of the object and are kept
as fields here, with theorems stated for the general values. -/
structure Config where
  radius_m : ℚ
  exit_buffer_m : ℚ := 750
  exit_confirm_polls : ℕ := 2
  disappear_grace_seconds : ℚ
  overhead_radius_m : ℚ := 1500
  overhead_cooldown_seconds : ℚ := 1800
  adsbdb_cache_ttl_s : ℚ := 21600
  airlabs_enabled : Bool
  aviationstack_enabled : Bool
deriving Repr

/-- `radius_exit_m = radius_m + exit_buffer_m`. -/
def Config.radius_exit_m (cfg : Config) : ℚ := cfg.radius_m + cfg.exit_buffer_m

/-- The enrichment providers as oracles: the value each provider call would
return on this tick.  `airlabs` takes (hex, flight_icao-or-None) and models
`enrichment_airlabs.enrich_plane`; `aviationstack` models
`enrichment_aviationstack.enrich_plane_aviationstack`; a `.error e` value
models the call raising an exception `e` (caught by `tick`). -/
structure Oracles where
  adsbdb : String → Option AdsbdbNorm × Option String × String
  airlabs : String → Option String → Except String (Option Enriched × String)
  aviationstack : String → Except String (Option Enriched × String)

/-- One entry of `OpenSkyPlaneTracker._plane_cache` (a per-aircraft dict).
Fields that the source stores with a possibly-`None` value *and* later reads
through `.get(key, default)` keep the inner `Option` (`altFt`, `spdKt`,
`trkDeg`); fields only read through `is not None`-guarded copies are
flattened. -/
structure CacheEntry where
  callsign : Option String := none
  label : Option String := none
  country : Option String := none
  altFt : Option (Option ℤ) := none
  spdKt : Option (Option ℤ) := none
  trkDeg : Option (Option ℤ) := none
  adsbdbStatus : Option String := none
  adsbdbRaw : Option String := none
  route : Option RouteObj := none
  airline : Option Airline := none
  callsignIata : Option String := none
  callsignIcao : Option String := none
  enrichSource : Option String := none
  enriched : Option Enriched := none
  airlabsStatus : Option String := none
  aviationstackStatus : Option String := none
  display : Option String := none
deriving DecidableEq, Repr

/-- The mutable tracking state of `OpenSkyPlaneTracker`.  `inside` is kept as
an insertion-ordered association list because the source iterates it; the
other dicts are only ever looked up by key and are functional maps. -/
structure TrackerState where
  inside : List (String × ℚ)
  lastSeenAny : String → Option ℚ
  lastDistM : String → Option ℚ
  lastPosition : String → Option (ℚ × ℚ)
  outsidePolls : String → Option ℕ
  planeCache : String → Option CacheEntry
  lastOverheadSent : String → Option ℚ
  adsbdbCache : String → Option (ℚ × Option AdsbdbNorm × Option String)

/-- The consecutive-outside counter with Python's `.get(icao24, 0)` default. -/
def counterD (s : TrackerState) (id : String) : ℕ := (s.outsidePolls id).getD 0

/-- Keys of the `_inside` dict. -/
def insideKeys (s : TrackerState) : List String := s.inside.map Prod.fst

/-- `OpenSkyPlaneTracker._can_send_overhead`. -/
def can_send_overhead (cfg : Config) (lastOverheadSent : String → Option ℚ)
    (icao24 : String) (now : ℚ) : Bool :=
  decide (cfg.overhead_cooldown_seconds ≤ now - (lastOverheadSent icao24).getD 0)

/-- `OpenSkyPlaneTracker._adsbdb_lookup_cached` (state-passing on the cache
map).  Returns the updated cache and `(norm, raw, status)`. -/
def adsbdb_lookup_cached (cfg : Config) (orc : Oracles)
    (cache : String → Option (ℚ × Option AdsbdbNorm × Option String))
    (callsign : String) (now : ℚ) :
    (String → Option (ℚ × Option AdsbdbNorm × Option String)) ×
      Option AdsbdbNorm × Option String × String :=
  let cs := normalize_callsign callsign
  if cs = "" then (cache, none, none, "adsbdb:skip:empty")
  else
    match cache cs with
    | some (cachedAt, norm, raw) =>
        if now - cachedAt < cfg.adsbdb_cache_ttl_s then (cache, norm, raw, "adsbdb:cache")
        else
          let (norm', raw', status) := orc.adsbdb cs
          (fupd cache cs (now, norm', raw'), norm', raw', status)
    | none =>
        let (norm', raw', status) := orc.adsbdb cs
        (fupd cache cs (now, norm', raw'), norm', raw', status)

/-! ## The ENTER enrichment cascade (`tick`, lines 487–556)

Each phase threads the plane cache, the ADSBDB cache and the meta dict being
built for the ENTER event.  `PCMap` / `ACMap` abbreviate the two cache maps. -/

abbrev PCMap := String → Option CacheEntry

abbrev ACMap := String → Option (ℚ × Option AdsbdbNorm × Option String)

/-- `OpenSkyPlaneTracker._cache_plane_live_meta`. -/
def cache_plane_live_meta (pc : PCMap) (p : PlaneObs) : PCMap :=
  let c := (pc p.icao24).getD {}
  fupd pc p.icao24
    { c with
      callsign := some p.callsign
      label := some (pyOr (normalize_callsign p.callsign) p.callsign)
      country := some p.country
      altFt := some (alt_ft p.altM)
      spdKt := some (spd_kt p.velMs)
      trkDeg := some (trk_deg p.trackDeg) }

/-- Cascade step 1: ADSBDB first (`tick` lines 487–513). -/
def enterAdsbdb (cfg : Config) (orc : Oracles) (now : ℚ) (pc : PCMap) (ac : ACMap)
    (icao24 : String) (p : PlaneObs) (meta : EventMeta) :
    PCMap × ACMap × EventMeta :=
  let cs := normalize_callsign p.callsign
  if cs = "" then (pc, ac, { meta with adsbdbStatus := some "adsbdb:skip" })
  else
    let (ac', norm, raw, status) := adsbdb_lookup_cached cfg orc ac cs now
    let meta := { meta with
      adsbdbStatus := some status
      adsbdbRaw := if raw.isSome then raw else meta.adsbdbRaw }
    match norm with
    | none => (pc, ac', meta)
    | some n =>
        let meta := { meta with
          route := some n.route
          airline := some n.airline
          callsignIata := n.callsignIata
          callsignIcao := n.callsignIcao
          enrichSource := some "adsbdb" }
        let c := (pc icao24).getD {}
        let c := { c with
          adsbdbStatus := some status
          adsbdbRaw := raw
          route := meta.route
          airline := meta.airline
          callsignIata := meta.callsignIata
          callsignIcao := meta.callsignIcao
          enrichSource := some "adsbdb" }
        (fupd pc icao24 c, ac', meta)

/-- Cascade step 2: AirLabs fallback (`tick` lines 515–531). -/
def enterAirlabs (cfg : Config) (orc : Oracles) (pc : PCMap)
    (icao24 : String) (p : PlaneObs) (meta : EventMeta) : PCMap × EventMeta :=
  if !route_is_present meta.route && cfg.airlabs_enabled then
    let flightIcao := normalize_callsign p.callsign
    match orc.airlabs icao24 (if flightIcao = "" then none else some flightIcao) with
    | Except.error e =>
        (pc, { meta with airlabsStatus := some ("airlabs:error:" ++ e) })
    | Except.ok (enriched, status) =>
        let meta := { meta with airlabsStatus := some status }
        match enriched with
        | none => (pc, meta)
        | some e =>
            let meta := { meta with enriched := some e, enrichSource := some "airlabs" }
            let c := (pc icao24).getD {}
            let c := { c with
              airlabsStatus := some status
              enriched := some e
              enrichSource := some "airlabs" }
            (fupd pc icao24 c, meta)
  else (pc, meta)

/-- Cascade step 3: aviationstack fallback (`tick` lines 533–556). -/
def enterAviationstack (cfg : Config) (orc : Oracles) (pc : PCMap)
    (icao24 : String) (p : PlaneObs) (meta : EventMeta) : PCMap × EventMeta :=
  if !route_is_present meta.route && cfg.aviationstack_enabled
      && decide ((meta.airlabsStatus.getD "") = "airlabs:no_match") then
    let flightIcao := normalize_callsign p.callsign
    if flightIcao = "" then
      (pc, { meta with aviationstackStatus := some "aviationstack:skip:empty_callsign" })
    else
      match orc.aviationstack flightIcao with
      | Except.error e =>
          (pc, { meta with aviationstackStatus := some ("aviationstack:error:" ++ e) })
      | Except.ok (aEnriched, aStatus) =>
          let meta := { meta with aviationstackStatus := some aStatus }
          match aEnriched with
          | none => (pc, meta)
          | some e =>
              let meta := { meta with enriched := some e, enrichSource := some "aviationstack" }
              let c := (pc icao24).getD {}
              let c := { c with
                aviationstackStatus := some aStatus
                enriched := some e
                enrichSource := some "aviationstack" }
              (fupd pc icao24 c, meta)
  else (pc, meta)

/-- Final ENTER step (`tick` lines 558–577): compute the stable display label
once, cache it, attach it to the meta, and build the ENTER event. -/
def enterFinish (pc : PCMap) (icao24 : String) (p : PlaneObs) (meta : EventMeta) :
    PCMap × Event EventMeta :=
  let c := (pc icao24).getD {}
  let stableLabel :=
    pyOr (c.label.getD "") (pyOr (normalize_callsign p.callsign) (pyOr p.callsign icao24))
  let display := stable_display_from_meta meta stableLabel
  let meta := { meta with display := some display }
  let c := { c with display := some display, label := some stableLabel }
  (fupd pc icao24 c,
   { event := EvKind.ENTER, kind := "plane", id := icao24, label := stableLabel, meta := meta })

/-- The initial ENTER meta (`tick` lines 476–485). -/
def enterMeta0 (cfg : Config) (lastDistM : String → Option ℚ)
    (icao24 : String) (p : PlaneObs) : EventMeta :=
  { country := some p.country
    altFt := alt_ft p.altM
    spdKt := spd_kt p.velMs
    trkDeg := trk_deg p.trackDeg
    distM := some (round1 ((lastDistM icao24).getD 0))
    radiusM := some (round1 cfg.radius_m)
    radiusExitM := some (round1 cfg.radius_exit_m)
    exitConfirmPolls := some cfg.exit_confirm_polls }

/-- The full ENTER processing for a newly-inside aircraft: cascade, display,
event. -/
def enterProcess (cfg : Config) (orc : Oracles) (now : ℚ) (pc : PCMap) (ac : ACMap)
    (lastDistM : String → Option ℚ) (icao24 : String) (p : PlaneObs) :
    PCMap × ACMap × Event EventMeta :=
  let meta := enterMeta0 cfg lastDistM icao24 p
  let (pc, ac, meta) := enterAdsbdb cfg orc now pc ac icao24 p meta
  let (pc, meta) := enterAirlabs cfg orc pc icao24 p meta
  let (pc, meta) := enterAviationstack cfg orc pc icao24 p meta
  let (pc, ev) := enterFinish pc icao24 p meta
  (pc, ac, ev)

/-- The `if isinstance(cached.get("display"), str) and cached.get("display")`
guard: attach a cached display string only when present and non-empty. -/
def displayFilter (o : Option String) : Option String :=
  match o with
  | some d => if d ≠ "" then some d else none
  | none => none

/-- The OVERHEAD step for an inside aircraft (`tick` lines 579–628): emits at
most one OVERHEAD event and stamps the cooldown clock. -/
def overheadStep (cfg : Config) (now : ℚ) (s : TrackerState) (pc : PCMap)
    (icao24 : String) (p : PlaneObs) :
    (String → Option ℚ) × List (Event EventMeta) :=
  let distM := (s.lastDistM icao24).getD 9000000000
  if decide (distM ≤ cfg.overhead_radius_m)
      && can_send_overhead cfg s.lastOverheadSent icao24 now then
    let c := (pc icao24).getD {}
    let label :=
      pyOr (c.label.getD "")
        (pyOr (normalize_callsign (c.callsign.getD "")) (pyOr p.callsign icao24))
    let meta : EventMeta :=
      { country := some ((c.country).getD p.country)
        altFt := c.altFt.getD (alt_ft p.altM)
        spdKt := c.spdKt.getD (spd_kt p.velMs)
        trkDeg := c.trkDeg.getD (trk_deg p.trackDeg)
        distM := some (round1 distM)
        distKm := some (round3 (distM / 1000))
        pos := s.lastPosition icao24
        overheadRadiusM := some cfg.overhead_radius_m
        cooldownS := some cfg.overhead_cooldown_seconds
        display := displayFilter c.display
        route := c.route
        airline := c.airline
        adsbdbRaw := c.adsbdbRaw
        adsbdbStatus := c.adsbdbStatus
        enriched := c.enriched
        airlabsStatus := c.airlabsStatus
        aviationstackStatus := c.aviationstackStatus
        enrichSource := c.enrichSource
        callsignIata := c.callsignIata
        callsignIcao := c.callsignIcao }
    (fupd s.lastOverheadSent icao24 now,
     [{ event := EvKind.OVERHEAD, kind := "plane", id := icao24, label := label, meta := meta }])
  else (s.lastOverheadSent, [])

/-- Processing of one `currently_inside` aircraft (`tick` lines 467–628):
mark inside, reset the outside counter, refresh live cache meta, run the
ENTER cascade for a newly-seen aircraft, then the OVERHEAD check. -/
def processInsideOne (cfg : Config) (orc : Oracles) (now : ℚ)
    (acc : TrackerState × List (Event EventMeta)) (entry : String × PlaneObs) :
    TrackerState × List (Event EventMeta) :=
  let s := acc.1
  let icao24 := entry.1
  let p := entry.2
  let isNew := (alookup icao24 s.inside).isNone
  let inside' := pyInsert icao24 now s.inside
  let polls' := fupd s.outsidePolls icao24 0
  let pc1 := cache_plane_live_meta s.planeCache p
  let (pc2, ac2, enterEvs) :=
    if isNew then
      let (pc, ac, ev) := enterProcess cfg orc now pc1 s.adsbdbCache s.lastDistM icao24 p
      (pc, ac, [ev])
    else (pc1, s.adsbdbCache, ([] : List (Event EventMeta)))
  let s1 : TrackerState :=
    { s with inside := inside', outsidePolls := polls', planeCache := pc2, adsbdbCache := ac2 }
  let (los', ovhEvs) := overheadStep cfg now s1 pc2 icao24 p
  ({ s1 with lastOverheadSent := los' }, acc.2 ++ enterEvs ++ ovhEvs)

/-! ## Snapshot scan and EXIT processing -/

/-- One step of the first loop of `tick` (lines 454–464). -/
def scanStep (cfg : Config) (now : ℚ)
    (acc : (String → Option ℚ) × (String → Option ℚ) × (String → Option (ℚ × ℚ)) ×
      (String → Option PlaneObs) × List (String × PlaneObs)) (p : PlaneObs) :
    (String → Option ℚ) × (String → Option ℚ) × (String → Option (ℚ × ℚ)) ×
      (String → Option PlaneObs) × List (String × PlaneObs) :=
  (fupd acc.1 p.icao24 now,
   fupd acc.2.1 p.icao24 p.distM,
   fupd acc.2.2.1 p.icao24 p.pos,
   fupd acc.2.2.2.1 p.icao24 p,
   if decide (p.distM ≤ cfg.radius_m) then pyInsert p.icao24 p acc.2.2.2.2
   else acc.2.2.2.2)

/-- First loop of `tick` (lines 454–464): update last-seen / last-distance /
last-position maps and build `seen_now` and `currently_inside`. -/
def scanPlanes (cfg : Config) (now : ℚ) (planes : List PlaneObs)
    (lsa ldm : String → Option ℚ) (lpos : String → Option (ℚ × ℚ)) :
    (String → Option ℚ) × (String → Option ℚ) × (String → Option (ℚ × ℚ)) ×
      (String → Option PlaneObs) × List (String × PlaneObs) :=
  planes.foldl (scanStep cfg now) (lsa, ldm, lpos, (fun _ => none), [])

/-- Builds the EXIT meta (`tick` lines 662–691). -/
def exitMeta (cfg : Config) (s2 : TrackerState)
    (polls : String → Option ℕ) (icao24 : String) (reason : String) : EventMeta :=
  let c := (s2.planeCache icao24).getD {}
  { reason := some reason
    country := c.country
    altFt := (c.altFt.getD none)
    spdKt := (c.spdKt.getD none)
    trkDeg := (c.trkDeg.getD none)
    lastDistM := some (round1 ((s2.lastDistM icao24).getD 0))
    lastPos := s2.lastPosition icao24
    radiusM := some (round1 cfg.radius_m)
    radiusExitM := some (round1 cfg.radius_exit_m)
    exitConfirmPolls := some cfg.exit_confirm_polls
    outsidePolls := some ((polls icao24).getD 0)
    display := displayFilter c.display
    route := c.route
    airline := c.airline
    adsbdbStatus := c.adsbdbStatus
    airlabsStatus := c.airlabsStatus
    aviationstackStatus := c.aviationstackStatus
    enrichSource := c.enrichSource
    callsignIata := c.callsignIata
    callsignIcao := c.callsignIcao }

/-- The EXIT event for one aircraft (`tick` lines 659–702). -/
def exitEvent (cfg : Config) (s2 : TrackerState)
    (polls : String → Option ℕ) (icao24 : String) (reason : String) : Event EventMeta :=
  let c := (s2.planeCache icao24).getD {}
  let label := pyOr (c.label.getD "") (pyOr (c.callsign.getD "") icao24)
  { event := EvKind.EXIT, kind := "plane", id := icao24, label := label
    meta := exitMeta cfg s2 polls icao24 reason }

/-- One step of the EXIT loop (`tick` lines 633–704).  Only `_outside_polls`
is mutated during the loop; the other state fields are read from the
post-inside-loop state `s2`.  The accumulator carries the counters, the
emitted events and the `to_remove` list. -/
def exitFoldStep (cfg : Config) (now : ℚ) (seen : String → Option PlaneObs)
    (ci : List (String × PlaneObs)) (s2 : TrackerState)
    (acc : (String → Option ℕ) × List (Event EventMeta) × List String)
    (entry : String × ℚ) :
    (String → Option ℕ) × List (Event EventMeta) × List String :=
  let (polls, evs, rm) := acc
  let icao24 := entry.1
  let lastInsideTs := entry.2
  if (alookup icao24 ci).isSome then acc
  else if (seen icao24).isSome then
    let distM := (s2.lastDistM icao24).getD 9000000000
    let cnt' : ℕ :=
      if cfg.radius_exit_m ≤ distM then (polls icao24).getD 0 + 1 else 0
    let polls' := fupd polls icao24 cnt'
    if cnt' < cfg.exit_confirm_polls then (polls', evs, rm)
    else
      (polls', evs ++ [exitEvent cfg s2 polls' icao24 "out_of_radius"], rm ++ [icao24])
  else
    let lastAny := (s2.lastSeenAny icao24).getD 0
    if now - max lastInsideTs lastAny < cfg.disappear_grace_seconds then acc
    else
      (polls, evs ++ [exitEvent cfg s2 polls icao24 "signal_lost"], rm ++ [icao24])

/-- Eviction of one exited aircraft (`tick` lines 706–713); the overhead
cooldown map is deliberately NOT cleared. -/
def evictOne (s : TrackerState) (icao24 : String) : TrackerState :=
  { s with
    inside := aerase icao24 s.inside
    planeCache := fdel s.planeCache icao24
    lastDistM := fdel s.lastDistM icao24
    lastPosition := fdel s.lastPosition icao24
    lastSeenAny := fdel s.lastSeenAny icao24
    outsidePolls := fdel s.outsidePolls icao24 }

/-- Phase 1 of `tick`: the snapshot scan, repackaged into the updated state
plus `seen_now` and `currently_inside`. -/
def phase1 (cfg : Config) (s : TrackerState) (planes : List PlaneObs) (now : ℚ) :
    TrackerState × (String → Option PlaneObs) × List (String × PlaneObs) :=
  let sc := scanPlanes cfg now planes s.lastSeenAny s.lastDistM s.lastPosition
  ({ s with lastSeenAny := sc.1, lastDistM := sc.2.1, lastPosition := sc.2.2.1 },
   sc.2.2.2.1, sc.2.2.2.2)

/-- Phase 2 of `tick`: the ENTER/OVERHEAD loop over `currently_inside`. -/
def phase2 (cfg : Config) (orc : Oracles) (now : ℚ) (s1 : TrackerState)
    (ci : List (String × PlaneObs)) : TrackerState × List (Event EventMeta) :=
  ci.foldl (processInsideOne cfg orc now) (s1, [])

/-- Phase 3 of `tick`: the EXIT loop over the (post-phase-2) `_inside` dict. -/
def phase3 (cfg : Config) (now : ℚ) (seen : String → Option PlaneObs)
    (ci : List (String × PlaneObs)) (s2 : TrackerState) :
    (String → Option ℕ) × List (Event EventMeta) × List String :=
  s2.inside.foldl (exitFoldStep cfg now seen ci s2) (s2.outsidePolls, [], [])

/-- `OpenSkyPlaneTracker.tick`, with the fetched snapshot and the poll time
passed in (network fetch abstracted; WARN events of `_fetch` out of scope). -/
def tick (cfg : Config) (orc : Oracles) (s : TrackerState)
    (planes : List PlaneObs) (now : ℚ) : TrackerState × List (Event EventMeta) :=
  let p1 := phase1 cfg s planes now
  let p2 := phase2 cfg orc now p1.1 p1.2.2
  let p3 := phase3 cfg now p1.2.1 p1.2.2 p2.1
  (p3.2.2.foldl evictOne { p2.1 with outsidePolls := p3.1 }, p2.2 ++ p3.2.1)

/-- The tracker state after a sequence of earlier polls
(`(snapshot, poll-time)` pairs). -/
def runState (cfg : Config) (orc : Oracles) (s : TrackerState) :
    List (List PlaneObs × ℚ) → TrackerState
  | [] => s
  | t :: ts => runState cfg orc (tick cfg orc s t.1 t.2).1 ts

/-- Per-tick event lists of a run. -/
def runEvents (cfg : Config) (orc : Oracles) (s : TrackerState) :
    List (List PlaneObs × ℚ) → List (List (Event EventMeta))
  | [] => []
  | t :: ts =>
      (tick cfg orc s t.1 t.2).2 :: runEvents cfg orc (tick cfg orc s t.1 t.2).1 ts

/-! ## Satellite tracker (`sats_skyfield.py`)

Parsed JSON values, with Python truthiness. -/

inductive JVal where
  | jnull
  | jbool (b : Bool)
  | jnum (q : ℚ)
  | jstr (s : String)
  | jarr (xs : List JVal)
  | jobj (fields : List (String × JVal))

/-- Python `bool(v)` on a JSON value. -/
def pyTruthy : JVal → Bool
  | JVal.jnull => false
  | JVal.jbool b => b
  | JVal.jnum q => decide (q ≠ 0)
  | JVal.jstr s => !s.isEmpty
  | JVal.jarr xs => !xs.isEmpty
  | JVal.jobj fields => !fields.isEmpty

/-- `dict.get(k)` on a parsed JSON object (keys are unique after parsing). -/
def jget (fields : List (String × JVal)) (k : String) : Option JVal :=
  alookup k fields

/-- The space-objects file as seen by one reload attempt: missing, `stat()`
raising, or present with an mtime and either unreadable content, content that
is not valid JSON, or a parsed payload. -/
inductive SpaceFileData where
  | unreadable
  | unparseable
  | payload (j : JVal)

inductive FsView where
  | missing
  | statError (mtime : ℚ) (data : SpaceFileData)
  | present (mtime : ℚ) (data : SpaceFileData)

/-- `sats_skyfield._safe_int`: `int(str(s).strip())`, `None` on failure. -/
def safe_int (s : String) : Option ℤ := s.trim.toInt?

/-- `sats_skyfield._load_space_objects_allowlist`: `none` models the
read-failure / parse-failure return `None`; a missing file is the valid empty
state `(∅, ∅)`. -/
def load_space_objects_allowlist (fs : FsView) :
    Option (Finset ℤ × List (ℤ × JVal)) :=
  match fs with
  | FsView.missing => some (∅, [])
  | FsView.statError _ data | FsView.present _ data =>
      match data with
      | SpaceFileData.unreadable => none
      | SpaceFileData.unparseable => none
      | SpaceFileData.payload j =>
          let objects :=
            match j with
            | JVal.jobj fields => (jget fields "objects").getD (JVal.jobj [])
            | _ => JVal.jobj []
          match objects with
          | JVal.jobj entries =>
              some (entries.foldl
                (fun (acc : Finset ℤ × List (ℤ × JVal)) e =>
                  let (allow, metaMap) := acc
                  match safe_int e.1, e.2 with
                  | some nid, JVal.jobj objFields =>
                      let metaMap := pyInsert nid (JVal.jobj objFields) metaMap
                      let monitor := (jget objFields "monitor").getD (JVal.jbool true)
                      if pyTruthy monitor then (insert nid allow, metaMap)
                      else (allow, metaMap)
                  | _, _ => acc)
                (∅, []))
          | _ => some (∅, [])

/-- One observed satellite sample (`sats_skyfield.SatSample`). -/
structure SatSample where
  noradId : String
  name : String
  elevDeg : ℚ
  azDeg : ℚ
  distKm : ℚ
deriving DecidableEq, Repr

/-- Event metadata of the satellite tracker and the space-objects reloader. -/
structure SatMeta where
  file : Option String := none
  mtime : Option ℚ := none
  action : Option String := none
  countTotal : Option ℕ := none
  countMonitoring : Option ℕ := none
  changed : Option Bool := none
  countTotalInFile : Option ℕ := none
  countTracking : Option ℕ := none
  elevDeg : Option ℚ := none
  azDeg : Option ℚ := none
  distKm : Option ℚ := none
deriving DecidableEq, Repr

/-- The `SkyfieldSatelliteTracker` configuration attributes read by `tick`. -/
structure SatConfig where
  min_elevation_deg : ℚ
  track_all : Bool
  only_norad_ids : Finset ℤ
  space_objects_file : String

/-- The mutable state of `SkyfieldSatelliteTracker`.  `sats` is the tracked
map NORAD → name (the `EarthSatellite` objects are consumed only through the
observation oracle and their name). -/
structure SatState where
  space_objects_mtime : Option ℚ
  space_allow : Finset ℤ
  space_meta : List (ℤ × JVal)
  overhead : List String
  lastSample : String → Option SatSample
  sats : List (ℤ × String)

/-- `SkyfieldSatelliteTracker._reload_space_objects_if_needed`. -/
def reload_space_objects_if_needed (cfg : SatConfig) (s : SatState)
    (fs : FsView) (force : Bool) : SatState × Bool × List (Event SatMeta) :=
  match fs with
  | FsView.missing => (s, false, [])
  | FsView.statError _ _ => (s, false, [])
  | FsView.present mtime _ =>
      if !force && s.space_objects_mtime.isSome
          && decide (s.space_objects_mtime = some mtime) then
        (s, false, [])
      else
        match load_space_objects_allowlist fs with
        | none =>
            (s, false,
             [{ event := EvKind.WARN, kind := "space_objects", id := "config"
                label := "space_objects_reload_failed"
                meta := { file := some cfg.space_objects_file, mtime := some mtime
                          action := some "kept_last_known_good_allowlist" } }])
        | some (allow, metaMap) =>
            let changed := decide (allow ≠ s.space_allow) || force
            ({ s with space_allow := allow, space_meta := metaMap
                      space_objects_mtime := some mtime },
             changed,
             [{ event := EvKind.INFO, kind := "space_objects", id := "config"
                label := "space_objects_loaded"
                meta := { file := some cfg.space_objects_file
                          countTotal := some metaMap.length
                          countMonitoring := some allow.card
                          changed := some changed } }])

/-- `SkyfieldSatelliteTracker._effective_allowlist`. -/
def effective_allowlist (cfg : SatConfig) (s : SatState) : Finset ℤ :=
  if s.space_allow ≠ ∅ then s.space_allow else cfg.only_norad_ids

/-- `SkyfieldSatelliteTracker._load_tles`, with the download / cache-file I/O
abstracted: `tleFileSats` is the NORAD → name map parsed from the TLE text
(`sat_map` in the source); the WARN paths for missing URL/cache are out of
scope.  The tracked map is `sat_map` filtered by the effective allowlist
unless `track_all` is set. -/
def load_tles (cfg : SatConfig) (s : SatState) (tleFileSats : List (ℤ × String)) :
    SatState × List (Event SatMeta) :=
  let filtered :=
    if cfg.track_all then tleFileSats
    else tleFileSats.filter (fun e => decide (e.1 ∈ effective_allowlist cfg s))
  ({ s with sats := filtered },
   [{ event := EvKind.INFO, kind := "space_objects", id := "tle", label := "tle_loaded"
      meta := { countTotalInFile := some tleFileSats.length
                countTracking := some filtered.length } }])

/-- `SkyfieldSatelliteTracker._label_for_norad`. -/
def label_for_norad (spaceMeta : List (ℤ × JVal)) (noradId : ℤ) (fallback : String) :
    String :=
  match alookup noradId spaceMeta with
  | some (JVal.jobj fields) =>
      let short :=
        match jget fields "short_name" with
        | some (JVal.jstr ss) => if !ss.trim.isEmpty then some ss.trim else none
        | _ => none
      let nm :=
        match jget fields "name" with
        | some (JVal.jstr ss) => if !ss.trim.isEmpty then some ss.trim else none
        | _ => none
      match short with
      | some ss => ss
      | none => match nm with
        | some ss => ss
        | none => fallback
  | _ => fallback

/-- `SkyfieldSatelliteTracker._compute`, with the Skyfield topocentric
computation abstracted as the observation oracle
`obs : norad → (elevation, azimuth, range-km)`. -/
def computeSample (obs : ℤ → ℚ × ℚ × ℚ) (spaceMeta : List (ℤ × JVal))
    (norad : ℤ) (name : String) : SatSample :=
  let (elev, az, distKm) := obs norad
  let noradStr := toString norad
  let rawName := if name ≠ "" then name.trim else "SAT " ++ noradStr
  { noradId := noradStr
    name := label_for_norad spaceMeta norad rawName
    elevDeg := elev
    azDeg := az
    distKm := distKm }

/-- The set of currently-above-threshold object ids computed by one scan of
the tracked map (`tick` lines 482–489). -/
def aboveThreshold (cfg : SatConfig) (obs : ℤ → ℚ × ℚ × ℚ)
    (sats : List (ℤ × String)) : List String :=
  sats.foldl
    (fun acc e => if decide ((obs e.1).1 ≥ cfg.min_elevation_deg) then
        acc.insert (toString e.1)
      else acc) []

/-- One step of the per-satellite scan loop of `SkyfieldSatelliteTracker.tick`
(lines 484–505). -/
def satScanStep (cfg : SatConfig) (obs : ℤ → ℚ × ℚ × ℚ) (spaceMeta : List (ℤ × JVal))
    (overhead : List String)
    (acc : List String × (String → Option SatSample) × List (Event SatMeta))
    (e : ℤ × String) :
    List String × (String → Option SatSample) × List (Event SatMeta) :=
  let (nowOver, lastS, evs) := acc
  let sample := computeSample obs spaceMeta e.1 e.2
  let lastS := fupd lastS sample.noradId sample
  if decide (sample.elevDeg ≥ cfg.min_elevation_deg) then
    let nowOver := nowOver.insert sample.noradId
    let evs :=
      if sample.noradId ∈ overhead then evs
      else evs ++ [{ event := EvKind.ENTER, kind := "space_objects", id := sample.noradId
                     label := sample.name
                     meta := { elevDeg := some (round1 sample.elevDeg)
                               azDeg := some (round1 sample.azDeg)
                               distKm := some (round1 sample.distKm) } }]
    (nowOver, lastS, evs)
  else (nowOver, lastS, evs)

/-- The EXIT event the scan emits for a previously-overhead object
(`tick` lines 507–523). -/
def satExitEvent (lastS : String → Option SatSample) (noradStr : String) :
    Event SatMeta :=
  let last := lastS noradStr
  { event := EvKind.EXIT, kind := "space_objects", id := noradStr
    label := match last with
      | some smp => smp.name
      | none => "SAT " ++ noradStr
    meta := { elevDeg := (last.map (fun smp => round1 smp.elevDeg))
              azDeg := (last.map (fun smp => round1 smp.azDeg))
              distKm := (last.map (fun smp => round1 smp.distKm)) } }

/-- One step of the EXIT loop (`tick` lines 507–523). -/
def satExitStep (nowOver : List String) (lastS : String → Option SatSample)
    (evs : List (Event SatMeta)) (noradStr : String) : List (Event SatMeta) :=
  if noradStr ∈ nowOver then evs
  else evs ++ [satExitEvent lastS noradStr]

/-- The ENTER/EXIT scan of `SkyfieldSatelliteTracker.tick` (lines 482–525). -/
def satScan (cfg : SatConfig) (obs : ℤ → ℚ × ℚ × ℚ) (s : SatState) :
    SatState × List (Event SatMeta) :=
  let (nowOver, lastS, enterEvs) :=
    s.sats.foldl (satScanStep cfg obs s.space_meta s.overhead) ([], s.lastSample, [])
  let exitEvs := s.overhead.foldl (satExitStep nowOver lastS) []
  ({ s with overhead := nowOver, lastSample := lastS }, enterEvs ++ exitEvs)

/-- `SkyfieldSatelliteTracker.tick`: allow-list hot reload, conditional TLE
reload, then the ENTER/EXIT scan.  `shouldReloadTles` carries the value of
`_should_reload_tles()` (a cache-file-age check, I/O abstracted). -/
def satTickPreScan (cfg : SatConfig) (fs : FsView) (tleFileSats : List (ℤ × String))
    (shouldReloadTles : Bool) (s : SatState) : SatState × List (Event SatMeta) :=
  let (s, allowlistChanged, evs1) := reload_space_objects_if_needed cfg s fs false
  let (s, evs2) :=
    if s.sats.isEmpty || shouldReloadTles || (allowlistChanged && !cfg.track_all) then
      load_tles cfg s tleFileSats
    else (s, [])
  (s, evs1 ++ evs2)

def satTick (cfg : SatConfig) (fs : FsView) (tleFileSats : List (ℤ × String))
    (shouldReloadTles : Bool) (obs : ℤ → ℚ × ℚ × ℚ) (s : SatState) :
    SatState × List (Event SatMeta) :=
  let (s, evs12) := satTickPreScan cfg fs tleFileSats shouldReloadTles s
  let (s, evs3) := satScan cfg obs s
  (s, evs12 ++ evs3)

/-! ## Claim C4: cascade behaviour on a partial AirLabs match -/

def c4enr : Enriched :=
  { company := some "United Airlines", airlineIcao := some "UAL"
    flightIcao := some "UAL2048", depIata := some "SFO"
    routeStr := some "SFO→???" }

def c4full : Enriched :=
  { company := some "United Airlines", flightIata := some "UA2048"
    depIata := some "SFO", arrIata := some "JFK", routeStr := some "SFO→JFK" }

def c4orc : Oracles :=
  { adsbdb := fun _ => (none, none, "adsbdb:unknown")
    airlabs := fun _ _ => Except.ok (some c4enr, "airlabs:ok:hex")
    aviationstack := fun _ => Except.ok (some c4full, "aviationstack:ok") }

def c4cfg : Config :=
  { radius_m := 30000, disappear_grace_seconds := 60
    airlabs_enabled := true, aviationstack_enabled := true }

def c4plane : PlaneObs :=
  { icao24 := "abc123", callsign := "UAL2048", country := "United States"
    pos := (37, -122), distM := 5000, altM := some 10000, velMs := some 250
    trackDeg := some 90, onGround := false }

def c4s0 : TrackerState :=
  { inside := [], lastSeenAny := fun _ => none, lastDistM := fun _ => none
    lastPosition := fun _ => none, outsidePolls := fun _ => none
    planeCache := fun _ => none, lastOverheadSent := fun _ => none
    adsbdbCache := fun _ => none }

/-! ## Snapshot observation helpers -/

/-- The last snapshot record carrying a given icao24 (Python dict overwrite
semantics: the value left in `seen_now` after the first loop of `tick`). -/
def obsLast : List PlaneObs → String → Option PlaneObs
  | [], _ => none
  | p :: rest, id =>
      match obsLast rest id with
      | some q => some q
      | none => if p.icao24 = id then some p else none

/-- The distance left in `_last_dist_m` for an aircraft by the first loop of
`tick` on a given snapshot: the distance of its last record, if any. -/
def obsDist (planes : List PlaneObs) (id : String) : Option ℚ :=
  (obsLast planes id).map (fun p => p.distM)

/-! ## Per-item lemmas about the inside loop -/

/-- The cached display string of an aircraft (`_plane_cache[id].get("display")`). -/
def pcDisplay (pc : PCMap) (x : String) : Option String := ((pc x).getD {}).display

/-- OVERHEAD-event-for-`x` predicate, for counting. -/
def ovhFor (x : String) (ev : Event EventMeta) : Bool :=
  decide (ev.event = EvKind.OVERHEAD ∧ ev.id = x)

def c7orc : Oracles :=
  { adsbdb := fun _ => (none, none, "adsbdb:unknown")
    airlabs := fun _ _ => Except.ok (none, "airlabs:disabled")
    aviationstack := fun _ => Except.ok (none, "aviationstack:disabled") }

def c7cfg : Config :=
  { radius_m := 5000, disappear_grace_seconds := 120
    airlabs_enabled := false, aviationstack_enabled := false }

def c7plane : PlaneObs :=
  { icao24 := "abc123", callsign := "UAL2048", country := "United States"
    pos := (37, -122), distM := 100, altM := some 10000, velMs := some 250
    trackDeg := some 90, onGround := false }

def c7s0 : TrackerState :=
  { inside := [], lastSeenAny := fun _ => none, lastDistM := fun _ => none
    lastPosition := fun _ => none, outsidePolls := fun _ => none
    planeCache := fun _ => none, lastOverheadSent := fun _ => none
    adsbdbCache := fun _ => none }

def c2cfg : Config :=
  { radius_m := 5000, disappear_grace_seconds := 10
    airlabs_enabled := false, aviationstack_enabled := false }

def c2orc : Oracles :=
  { adsbdb := fun _ => (none, none, "adsbdb:unknown")
    airlabs := fun _ _ => Except.ok (none, "airlabs:disabled")
    aviationstack := fun _ => Except.ok (none, "aviationstack:disabled") }

def c2s0 : TrackerState :=
  { inside := [("ab", 0)], lastSeenAny := fun _ => none, lastDistM := fun _ => none
    lastPosition := fun _ => none, outsidePolls := fun _ => none
    planeCache := fun _ => none, lastOverheadSent := fun _ => none
    adsbdbCache := fun _ => none }

def c2dummy : Event EventMeta :=
  { event := EvKind.WARN, kind := "plane", id := "", label := "", meta := {} }

def c2ev : Event EventMeta := ((tick c2cfg c2orc c2s0 [] 50).2).headD c2dummy

/-! ## Display identity across a visit -/

/-- The visit invariant behind DisplayIdentity: the aircraft is in `_inside`
and its cached display string is exactly `d`. -/
def visitInv (s : TrackerState) (id d : String) : Prop :=
  alookup id s.inside ≠ none ∧ pcDisplay s.planeCache id = some d ∧ keysND s.inside

def c6cfg : Config :=
  { radius_m := 5000, disappear_grace_seconds := 120
    airlabs_enabled := false, aviationstack_enabled := false }

def c6orc : Oracles :=
  { adsbdb := fun _ => (none, none, "adsbdb:unknown")
    airlabs := fun _ _ => Except.ok (none, "airlabs:disabled")
    aviationstack := fun _ => Except.ok (none, "aviationstack:disabled") }

def c6plane : PlaneObs :=
  { icao24 := "ab1234", callsign := "UAL2048", country := "United States"
    pos := (37, -122), distM := 100, altM := some 10000, velMs := some 250
    trackDeg := some 90, onGround := false }

def c6s0 : TrackerState :=
  { inside := [], lastSeenAny := fun _ => none, lastDistM := fun _ => none
    lastPosition := fun _ => none, outsidePolls := fun _ => none
    planeCache := fun _ => none, lastOverheadSent := fun _ => none
    adsbdbCache := fun _ => none }

def c6dummy : Event EventMeta :=
  { event := EvKind.WARN, kind := "plane", id := "", label := "", meta := {} }

def c6evE : Event EventMeta :=
  ((tick c6cfg c6orc c6s0 [c6plane] 2000).2).headD c6dummy

def c6d : String := (c6evE.meta.display).getD ""

/-! ## Out-of-radius hysteresis -/

/-- The number of consecutive most-recent ticks on which the aircraft was
observed with final distance at or beyond the exit radius.  The tick history
is given most-recent-first; ticks with no record of the aircraft are skipped,
and an observed tick with distance below the exit radius resets the streak
to zero — the claim's counting discipline. -/
def outsideStreak (cfg : Config) (id : String) : List (List PlaneObs × ℚ) → ℕ
  | [] => 0
  | t :: rest =>
      match obsDist t.1 id with
      | none => outsideStreak cfg id rest
      | some d => if cfg.radius_exit_m ≤ d then outsideStreak cfg id rest + 1 else 0

def c1cfg : Config :=
  { radius_m := 5000, disappear_grace_seconds := 10000
    airlabs_enabled := false, aviationstack_enabled := false }

def c1orc : Oracles :=
  { adsbdb := fun _ => (none, none, "adsbdb:unknown")
    airlabs := fun _ _ => Except.ok (none, "airlabs:disabled")
    aviationstack := fun _ => Except.ok (none, "aviationstack:disabled") }

def c1in : PlaneObs :=
  { icao24 := "ab1234", callsign := "UAL2048", country := "United States"
    pos := (37, -122), distM := 100, altM := some 10000, velMs := some 250
    trackDeg := some 90, onGround := false }

def c1out : PlaneObs :=
  { icao24 := "ab1234", callsign := "UAL2048", country := "United States"
    pos := (38, -122), distM := 6000, altM := some 10000, velMs := some 250
    trackDeg := some 90, onGround := false }

def c1s0 : TrackerState :=
  { inside := [], lastSeenAny := fun _ => none, lastDistM := fun _ => none
    lastPosition := fun _ => none, outsidePolls := fun _ => none
    planeCache := fun _ => none, lastOverheadSent := fun _ => none
    adsbdbCache := fun _ => none }

def c1pre : List (List PlaneObs × ℚ) := [([c1in], 0), ([c1out], 10)]

def c1dummy : Event EventMeta :=
  { event := EvKind.WARN, kind := "plane", id := "", label := "", meta := {} }

def c1ev : Event EventMeta :=
  ((tick c1cfg c1orc (runState c1cfg c1orc c1s0 c1pre) [c1out] 20).2).headD c1dummy

/-! ## Theorems -/

/-! ### Lemmas about the normalizers -/

theorem filter_false_of_mem {α : Type} {p : α → Bool} :
    ∀ {l : List α}, (∀ a ∈ l, p a = false) → l.filter p = []
  | [], _ => rfl
  | a :: l, h => by
      simp only [List.filter_cons, h a (List.mem_cons_self a l)]
      exact filter_false_of_mem (fun b hb => h b (List.mem_cons_of_mem a hb))

theorem whitespace_not_upperAlnum (c : Char) (h : c.isWhitespace = true) :
    isUpperAlnum (Char.toUpper c) = false := by
  simp only [Char.isWhitespace, Bool.or_eq_true, decide_eq_true_eq] at h
  rcases h with ((h | h) | h) | h <;> subst h <;> decide

theorem filter_upper_dropWhile (l : List Char) :
    ((l.dropWhile Char.isWhitespace).map Char.toUpper).filter isUpperAlnum
      = (l.map Char.toUpper).filter isUpperAlnum := by
  conv_rhs => rw [← List.takeWhile_append_dropWhile (p := Char.isWhitespace) (l := l)]
  rw [List.map_append, List.filter_append]
  have h : ((l.takeWhile Char.isWhitespace).map Char.toUpper).filter isUpperAlnum = [] := by
    refine filter_false_of_mem ?_
    intro a ha
    rcases List.mem_map.mp ha with ⟨c, hc, rfl⟩
    exact whitespace_not_upperAlnum c (List.mem_takeWhile_imp hc)
  rw [h, List.nil_append]

theorem filter_upper_pyStrip (l : List Char) :
    ((pyStripList l).map Char.toUpper).filter isUpperAlnum
      = (l.map Char.toUpper).filter isUpperAlnum := by
  unfold pyStripList
  rw [List.map_reverse, List.filter_reverse, filter_upper_dropWhile,
    ← List.filter_reverse, ← List.map_reverse, List.reverse_reverse,
    filter_upper_dropWhile]

theorem normalize_flight_code_eq_core (c : String) :
    normalize_flight_code (some c) = String.mk (upperAlnumCore c) := by
  unfold normalize_flight_code upperAlnumCore
  by_cases h : c = ""
  · subst h; rfl
  · simp only [h, if_false, filter_upper_pyStrip]

/-! ## Claim C8: callsign / flight-code normalization -/

/-- C8, counterexample.  The claim asserts that `normalize_callsign` (the
ADSBDB cache key) strips *every* non-alphanumeric character, so that inputs
differing only in case and non-alphanumerics collapse to one cache key.
`"UAL-2048"` and `"UAL2048"` differ only by a non-alphanumeric `-`, have the
same upper-cased alphanumeric core, and `normalize_flight_code` does collapse
them — but `normalize_callsign` keeps the `-` and produces two distinct cache
keys. -/
theorem C8_counterexample :
    upperAlnumCore "UAL-2048" = upperAlnumCore "UAL2048" ∧
    normalize_flight_code (some "UAL-2048") = normalize_flight_code (some "UAL2048") ∧
    normalize_callsign "UAL-2048" ≠ normalize_callsign "UAL2048" ∧
    normalize_callsign "UAL-2048" = "UAL-2048" := by
  refine ⟨by decide, by decide, by decide, by decide⟩

/-- C8, amended.  `normalize_flight_code` (the AirLabs lookup key)
canonicalizes by upper-casing and stripping every non-alphanumeric, so any two
inputs with the same upper-cased alphanumeric core produce the same key;
`normalize_callsign` (the ADSBDB cache key) only upper-cases, trims, and
removes space characters, which still collapses the spec's example pair
`"UAL2048 "` / `"ual 2048"`. -/
theorem C8_normalization_amended :
    (∀ c₁ c₂ : String, upperAlnumCore c₁ = upperAlnumCore c₂ →
      normalize_flight_code (some c₁) = normalize_flight_code (some c₂)) ∧
    normalize_callsign "UAL2048 " = normalize_callsign "ual 2048" ∧
    normalize_flight_code (some "UAL2048 ") = normalize_flight_code (some "ual 2048") := by
  refine ⟨?_, by decide, by decide⟩
  intro c₁ c₂ h
  rw [normalize_flight_code_eq_core, normalize_flight_code_eq_core, h]

/-- C8 witness: the amended normalization theorem applied to the spec's own
example pair. -/
theorem C8_normalization_amended_witness :
    upperAlnumCore "UAL2048 " = upperAlnumCore "ual 2048" ∧
    normalize_flight_code (some "UAL2048 ") = normalize_flight_code (some "ual 2048") :=
  ⟨by decide, C8_normalization_amended.1 "UAL2048 " "ual 2048" (by decide)⟩

/-! ## Claim C3: fail-safe allow-list reload -/

/-- C3: whenever `_reload_space_objects_if_needed` is called, the file exists
and passes the mtime-change guard, but reading or JSON-parsing it fails, the
call emits exactly one WARN event, returns `False`, and leaves the in-memory
allow-list set, the id→metadata map and the stored last-loaded mtime all
unchanged (the whole state is returned untouched, so the reload is retried on
a later tick once the mtime still differs from the stored one). -/
theorem C3_reload_failure_fail_safe (cfg : SatConfig) (s : SatState) (mtime : ℚ)
    (data : SpaceFileData) (force : Bool)
    (hdata : data = SpaceFileData.unreadable ∨ data = SpaceFileData.unparseable)
    (hguard : force = true ∨ s.space_objects_mtime ≠ some mtime) :
    reload_space_objects_if_needed cfg s (FsView.present mtime data) force =
      (s, false,
       [{ event := EvKind.WARN, kind := "space_objects", id := "config"
          label := "space_objects_reload_failed"
          meta := { file := some cfg.space_objects_file, mtime := some mtime
                    action := some "kept_last_known_good_allowlist" } }]) := by
  have hcond : (!force && s.space_objects_mtime.isSome
      && decide (s.space_objects_mtime = some mtime)) = false := by
    rcases hguard with h | h
    · subst h; rfl
    · simp [h]
  have hload : load_space_objects_allowlist (FsView.present mtime data) = none := by
    rcases hdata with h | h <;> subst h <;> rfl
  simp only [reload_space_objects_if_needed, hcond, Bool.false_eq_true, if_false, hload]

/-- C3 witness: a concrete state with a non-empty allow-list, fed a torn
(unparseable) file with a new mtime: the reload warns, returns false, and the
snapshot survives intact. -/
theorem C3_reload_failure_fail_safe_witness :
    reload_space_objects_if_needed
        { min_elevation_deg := 10, track_all := false, only_norad_ids := ∅
          space_objects_file := "data/space_objects.json" }
        { space_objects_mtime := some 100, space_allow := {25544}
          space_meta := [(25544, JVal.jobj [("name", JVal.jstr "ISS")])]
          overhead := [], lastSample := fun _ => none, sats := [(25544, "ISS (ZARYA)")] }
        (FsView.present 200 SpaceFileData.unparseable) false =
      ({ space_objects_mtime := some 100, space_allow := {25544}
         space_meta := [(25544, JVal.jobj [("name", JVal.jstr "ISS")])]
         overhead := [], lastSample := fun _ => none, sats := [(25544, "ISS (ZARYA)")] },
       false,
       [{ event := EvKind.WARN, kind := "space_objects", id := "config"
          label := "space_objects_reload_failed"
          meta := { file := some "data/space_objects.json", mtime := some 200
                    action := some "kept_last_known_good_allowlist" } }]) :=
  C3_reload_failure_fail_safe _ _ _ _ _ (Or.inr rfl) (Or.inr (by decide))

/-! ## Claim C9: absent file vs parse failure -/

/-- C9, counterexample.  The claim asserts that *reconciling* against a
missing file yields an empty monitored-id set and metadata map as the
effective snapshot.  In the code, `_reload_space_objects_if_needed` returns
early on a missing file and keeps the last-known-good snapshot: starting from
a state whose allow-list is `{25544}`, reconciling against `FsView.missing`
leaves the non-empty allow-list in place. -/
theorem C9_counterexample :
    (reload_space_objects_if_needed
        { min_elevation_deg := 10, track_all := false, only_norad_ids := ∅
          space_objects_file := "data/space_objects.json" }
        { space_objects_mtime := some 100, space_allow := {25544}
          space_meta := [(25544, JVal.jobj [("name", JVal.jstr "ISS")])]
          overhead := [], lastSample := fun _ => none, sats := [] }
        FsView.missing false).1.space_allow = {25544} ∧
    ({25544} : Finset ℤ) ≠ (∅ : Finset ℤ) := by
  exact ⟨rfl, by decide⟩

/-- C9, amended.  The *loader* `_load_space_objects_allowlist` treats an
absent file as a valid, explicit empty curated list — it returns the empty
monitored-id set and empty metadata map — and that state is distinct from a
read/parse failure, which returns the failure marker `none` instead; the
*reloader*, however, returns early on a missing file (returning `false` and
emitting nothing) and keeps the previous snapshot unchanged rather than
installing the empty one. -/
theorem C9_absent_file_amended :
    load_space_objects_allowlist FsView.missing = some (∅, []) ∧
    (∀ m : ℚ, load_space_objects_allowlist (FsView.present m SpaceFileData.unparseable) = none ∧
      load_space_objects_allowlist (FsView.present m SpaceFileData.unreadable) = none) ∧
    (∀ (cfg : SatConfig) (s : SatState) (force : Bool),
      reload_space_objects_if_needed cfg s FsView.missing force = (s, false, [])) := by
  refine ⟨rfl, fun m => ⟨rfl, rfl⟩, fun cfg s force => rfl⟩

/-! ## Cascade phase lemmas (for claims C4, C5) -/

theorem enterAdsbdb_aviationstackStatus (cfg : Config) (orc : Oracles) (now : ℚ)
    (pc : PCMap) (ac : ACMap) (icao24 : String) (p : PlaneObs) (meta : EventMeta) :
    (enterAdsbdb cfg orc now pc ac icao24 p meta).2.2.aviationstackStatus
      = meta.aviationstackStatus := by
  unfold enterAdsbdb
  dsimp only
  repeat' split
  all_goals rfl

theorem enterAirlabs_aviationstackStatus (cfg : Config) (orc : Oracles)
    (pc : PCMap) (icao24 : String) (p : PlaneObs) (meta : EventMeta) :
    (enterAirlabs cfg orc pc icao24 p meta).2.aviationstackStatus
      = meta.aviationstackStatus := by
  unfold enterAirlabs
  dsimp only
  repeat' split
  all_goals rfl

theorem enterAviationstack_status_char (cfg : Config) (orc : Oracles)
    (pc : PCMap) (icao24 : String) (p : PlaneObs) (meta : EventMeta)
    (h : meta.aviationstackStatus = none) :
    ((enterAviationstack cfg orc pc icao24 p meta).2.aviationstackStatus.isSome = true ↔
      route_is_present meta.route = false ∧ cfg.aviationstack_enabled = true ∧
        meta.airlabsStatus.getD "" = "airlabs:no_match") := by
  unfold enterAviationstack
  by_cases hc : (!route_is_present meta.route && cfg.aviationstack_enabled
      && decide ((meta.airlabsStatus.getD "") = "airlabs:no_match")) = true
  · have hconds : route_is_present meta.route = false ∧ cfg.aviationstack_enabled = true ∧
        meta.airlabsStatus.getD "" = "airlabs:no_match" := by
      simp only [Bool.and_eq_true, Bool.not_eq_true', decide_eq_true_eq] at hc
      exact ⟨hc.1.1, hc.1.2, hc.2⟩
    rw [if_pos hc]
    constructor
    · intro _; exact hconds
    · intro _
      dsimp only
      repeat' split
      all_goals rfl
  · have hc' : (!route_is_present meta.route && cfg.aviationstack_enabled
        && decide ((meta.airlabsStatus.getD "") = "airlabs:no_match")) = false :=
      Bool.eq_false_iff.mpr hc
    rw [if_neg hc]
    simp only [h, Option.isSome_none, Bool.false_eq_true, false_iff]
    intro ⟨h1, h2, h3⟩
    apply hc
    simp only [Bool.and_eq_true, Bool.not_eq_true', decide_eq_true_eq]
    exact ⟨⟨h1, h2⟩, h3⟩

theorem enterAviationstack_not_taken (cfg : Config) (orc : Oracles)
    (pc : PCMap) (icao24 : String) (p : PlaneObs) (meta : EventMeta)
    (h : meta.airlabsStatus.getD "" ≠ "airlabs:no_match") :
    enterAviationstack cfg orc pc icao24 p meta = (pc, meta) := by
  unfold enterAviationstack
  rw [if_neg]
  intro hc
  simp only [Bool.and_eq_true, Bool.not_eq_true', decide_eq_true_eq] at hc
  exact h hc.2

/-! ## Claim C5: the aviationstack fallback gate -/

/-- C5: in the ENTER enrichment cascade exactly as `tick` composes it, the
aviationstack fallback is entered (equivalently, an `aviationstack_status` is
recorded on the meta — every path through the fallback records one, and
nothing else does) if and only if, after the AirLabs step, the accumulated
route is still incomplete, aviationstack is configured, and the AirLabs step
reported exactly `"airlabs:no_match"`; in particular any other AirLabs status
(an `airlabs:error:*`, an ok-match, or no status at all because AirLabs is
disabled) means the fallback is not entered. -/
theorem C5_aviationstack_gate (cfg : Config) (orc : Oracles) (now : ℚ)
    (pc : PCMap) (ac : ACMap) (ldm : String → Option ℚ) (icao24 : String) (p : PlaneObs) :
    (let r1 := enterAdsbdb cfg orc now pc ac icao24 p (enterMeta0 cfg ldm icao24 p)
     let r2 := enterAirlabs cfg orc r1.1 icao24 p r1.2.2
     let r3 := enterAviationstack cfg orc r2.1 icao24 p r2.2
     ((r3.2.aviationstackStatus.isSome = true ↔
        route_is_present r2.2.route = false ∧ cfg.aviationstack_enabled = true ∧
          r2.2.airlabsStatus.getD "" = "airlabs:no_match") ∧
      (∀ st : String, r2.2.airlabsStatus = some st → st ≠ "airlabs:no_match" →
        r3.2.aviationstackStatus = none) ∧
      (r2.2.airlabsStatus = none → r3.2.aviationstackStatus = none))) := by
  have h0 : (enterMeta0 cfg ldm icao24 p).aviationstackStatus = none := rfl
  have h2 : (enterAirlabs cfg orc
      (enterAdsbdb cfg orc now pc ac icao24 p (enterMeta0 cfg ldm icao24 p)).1 icao24 p
      (enterAdsbdb cfg orc now pc ac icao24 p (enterMeta0 cfg ldm icao24 p)).2.2).2.aviationstackStatus
      = none := by
    rw [enterAirlabs_aviationstackStatus, enterAdsbdb_aviationstackStatus, h0]
  refine ⟨enterAviationstack_status_char _ _ _ _ _ _ h2, ?_, ?_⟩
  · intro st hst hne
    rw [enterAviationstack_not_taken _ _ _ _ _ _ (by rw [hst]; exact hne)]
    exact h2
  · intro hnone
    rw [enterAviationstack_not_taken _ _ _ _ _ _ (by rw [hnone]; simp)]
    exact h2

/-- C5 witness: a cascade run in which ADSBDB finds nothing and AirLabs
returns a match (status `"airlabs:ok:hex"`, not `"airlabs:no_match"`): the
gate theorem yields that the aviationstack fallback records no status, i.e.
is not entered. -/
theorem C5_aviationstack_gate_witness :
    (let cfg : Config :=
      { radius_m := 30000, disappear_grace_seconds := 60
        airlabs_enabled := true, aviationstack_enabled := true }
     let orc : Oracles :=
      { adsbdb := fun _ => (none, none, "adsbdb:unknown")
        airlabs := fun _ _ => Except.ok
          (some { company := some "United Airlines", depIata := some "SFO" },
           "airlabs:ok:hex")
        aviationstack := fun _ => Except.ok (none, "aviationstack:no_match") }
     let p : PlaneObs :=
      { icao24 := "abc123", callsign := "UAL2048", country := "US", pos := (37, -122)
        distM := 5000, altM := none, velMs := none, trackDeg := none, onGround := false }
     let r1 := enterAdsbdb cfg orc 0 (fun _ => none) (fun _ => none) "abc123" p
       (enterMeta0 cfg (fun _ => none) "abc123" p)
     let r2 := enterAirlabs cfg orc r1.1 "abc123" p r1.2.2
     let r3 := enterAviationstack cfg orc r2.1 "abc123" p r2.2
     r3.2.aviationstackStatus = none) := by
  exact (C5_aviationstack_gate _ _ _ _ _ _ _ _).2.1 "airlabs:ok:hex" (by decide) (by decide)

/-- C4, counterexample.  ADSBDB finds no match, AirLabs returns a match that
carries only an origin code (`dep_iata = "SFO"`, no destination), and
aviationstack is configured and would return a complete route — yet on the
ENTER event the code leaves the AirLabs result attached
(`enrich_source = "airlabs"`, `enriched = c4enr`) and records no
`aviationstack_status` at all: the third provider is not invoked, because
AirLabs reported `"airlabs:ok:hex"` rather than `"airlabs:no_match"`. -/
theorem C4_counterexample :
    ∃ ev ∈ (tick c4cfg c4orc c4s0 [c4plane] 1000).2,
      ev.event = EvKind.ENTER ∧ ev.id = "abc123" ∧
      ev.meta.airlabsStatus = some "airlabs:ok:hex" ∧
      ev.meta.enriched = some c4enr ∧
      ev.meta.enrichSource = some "airlabs" ∧
      ev.meta.aviationstackStatus = none := by
  decide

/-- C4, amended.  In the ENTER enrichment cascade, when the AirLabs step
reports any status other than exactly `"airlabs:no_match"` — in particular an
`"airlabs:ok:*"` match carrying only an origin code — the aviationstack
fallback does not run at all: the cascade's accumulated caches and meta are
returned unchanged, so the AirLabs result stands and `enrich_source`
continues to reflect AirLabs. -/
theorem C4_no_fallback_on_partial_match (cfg : Config) (orc : Oracles) (now : ℚ)
    (pc : PCMap) (ac : ACMap) (ldm : String → Option ℚ) (icao24 : String) (p : PlaneObs) :
    (let r1 := enterAdsbdb cfg orc now pc ac icao24 p (enterMeta0 cfg ldm icao24 p)
     let r2 := enterAirlabs cfg orc r1.1 icao24 p r1.2.2
     ∀ st : String, r2.2.airlabsStatus = some st → st ≠ "airlabs:no_match" →
       enterAviationstack cfg orc r2.1 icao24 p r2.2 = (r2.1, r2.2)) := by
  dsimp only
  intro st hst hne
  exact enterAviationstack_not_taken _ _ _ _ _ _ (by rw [hst]; exact hne)

/-- C4 witness: the amended no-fallback theorem applied to the
counterexample's scenario. -/
theorem C4_no_fallback_on_partial_match_witness :
    (let r1 := enterAdsbdb c4cfg c4orc 1000 (fun _ => none) (fun _ => none) "abc123" c4plane
       (enterMeta0 c4cfg (fun _ => none) "abc123" c4plane)
     let r2 := enterAirlabs c4cfg c4orc r1.1 "abc123" c4plane r1.2.2
     enterAviationstack c4cfg c4orc r2.1 "abc123" c4plane r2.2 = (r2.1, r2.2)) := by
  exact C4_no_fallback_on_partial_match c4cfg c4orc 1000 _ _ _ "abc123" c4plane
    "airlabs:ok:hex" (by decide) (by decide)

/-! ## Satellite scan lemmas (for claim C10) -/

theorem computeSample_elevDeg (obs : ℤ → ℚ × ℚ × ℚ) (sm : List (ℤ × JVal))
    (n : ℤ) (nm : String) : (computeSample obs sm n nm).elevDeg = (obs n).1 := rfl

theorem computeSample_noradId (obs : ℤ → ℚ × ℚ × ℚ) (sm : List (ℤ × JVal))
    (n : ℤ) (nm : String) : (computeSample obs sm n nm).noradId = toString n := rfl

theorem satScanStep_fst (cfg : SatConfig) (obs : ℤ → ℚ × ℚ × ℚ)
    (sm : List (ℤ × JVal)) (ohd : List String)
    (acc : List String × (String → Option SatSample) × List (Event SatMeta))
    (e : ℤ × String) :
    (satScanStep cfg obs sm ohd acc e).1 =
      (if decide ((obs e.1).1 ≥ cfg.min_elevation_deg) then acc.1.insert (toString e.1)
       else acc.1) := by
  unfold satScanStep
  dsimp only
  simp only [computeSample_elevDeg, computeSample_noradId]
  split <;> rfl

theorem satScanStep_evs (cfg : SatConfig) (obs : ℤ → ℚ × ℚ × ℚ)
    (sm : List (ℤ × JVal)) (ohd : List String)
    (acc : List String × (String → Option SatSample) × List (Event SatMeta))
    (e : ℤ × String) (ev : Event SatMeta)
    (h : ev ∈ (satScanStep cfg obs sm ohd acc e).2.2) :
    ev ∈ acc.2.2 ∨ ev.event = EvKind.ENTER := by
  revert h
  unfold satScanStep
  dsimp only
  split
  · split
    · exact fun h => Or.inl h
    · intro h
      rcases List.mem_append.mp h with h | h
      · exact Or.inl h
      · simp only [List.mem_singleton] at h
        subst h
        exact Or.inr rfl
  · exact fun h => Or.inl h

theorem satScanFold_nowOver (cfg : SatConfig) (obs : ℤ → ℚ × ℚ × ℚ)
    (sm : List (ℤ × JVal)) (ohd : List String) :
    ∀ (sats : List (ℤ × String)) (acc : List String)
      (ls : String → Option SatSample) (evs : List (Event SatMeta)),
      (sats.foldl (satScanStep cfg obs sm ohd) (acc, ls, evs)).1 =
        sats.foldl
          (fun a e => if decide ((obs e.1).1 ≥ cfg.min_elevation_deg) then
              a.insert (toString e.1)
            else a) acc
  | [], acc, ls, evs => rfl
  | e :: rest, acc, ls, evs => by
      simp only [List.foldl_cons]
      have heta : satScanStep cfg obs sm ohd (acc, ls, evs) e =
          ((satScanStep cfg obs sm ohd (acc, ls, evs) e).1,
           (satScanStep cfg obs sm ohd (acc, ls, evs) e).2.1,
           (satScanStep cfg obs sm ohd (acc, ls, evs) e).2.2) := rfl
      rw [heta, satScanFold_nowOver cfg obs sm ohd rest _ _ _, satScanStep_fst]

theorem satScanFold_evs (cfg : SatConfig) (obs : ℤ → ℚ × ℚ × ℚ)
    (sm : List (ℤ × JVal)) (ohd : List String) :
    ∀ (sats : List (ℤ × String)) (acc : List String)
      (ls : String → Option SatSample) (evs : List (Event SatMeta))
      (ev : Event SatMeta),
      ev ∈ (sats.foldl (satScanStep cfg obs sm ohd) (acc, ls, evs)).2.2 →
        ev ∈ evs ∨ ev.event = EvKind.ENTER
  | [], acc, ls, evs, ev, h => Or.inl h
  | e :: rest, acc, ls, evs, ev, h => by
      simp only [List.foldl_cons] at h
      have heta : satScanStep cfg obs sm ohd (acc, ls, evs) e =
          ((satScanStep cfg obs sm ohd (acc, ls, evs) e).1,
           (satScanStep cfg obs sm ohd (acc, ls, evs) e).2.1,
           (satScanStep cfg obs sm ohd (acc, ls, evs) e).2.2) := rfl
      rw [heta] at h
      rcases satScanFold_evs cfg obs sm ohd rest _ _ _ ev h with h' | h'
      · exact satScanStep_evs cfg obs sm ohd (acc, ls, evs) e ev h'
      · exact Or.inr h'

theorem satExitEvent_id (lastS : String → Option SatSample) (noradStr : String) :
    (satExitEvent lastS noradStr).id = noradStr := rfl

theorem satExitEvent_event (lastS : String → Option SatSample) (noradStr : String) :
    (satExitEvent lastS noradStr).event = EvKind.EXIT := rfl

theorem satExitFold_mem (nowOver : List String) (lastS : String → Option SatSample) :
    ∀ (l : List String) (evs0 : List (Event SatMeta)) (ev : Event SatMeta),
      (ev ∈ l.foldl (satExitStep nowOver lastS) evs0 ↔
        ev ∈ evs0 ∨ ∃ nid ∈ l, nid ∉ nowOver ∧ ev = satExitEvent lastS nid)
  | [], evs0, ev => by simp
  | nid :: rest, evs0, ev => by
      simp only [List.foldl_cons]
      rw [satExitFold_mem nowOver lastS rest _ ev]
      unfold satExitStep
      constructor
      · intro h
        rcases h with h | ⟨nid', hn', hno', heq⟩
        · split at h
          · exact Or.inl h
          · rcases List.mem_append.mp h with h | h
            · exact Or.inl h
            · simp only [List.mem_singleton] at h
              subst h
              next hni => exact Or.inr ⟨nid, List.mem_cons_self _ _, hni, rfl⟩
        · exact Or.inr ⟨nid', List.mem_cons_of_mem _ hn', hno', heq⟩
      · intro h
        rcases h with h | ⟨nid', hn', hno', heq⟩
        · left
          split
          · exact h
          · exact List.mem_append.mpr (Or.inl h)
        · rcases List.mem_cons.mp hn' with rfl | hn'
          · left
            rw [if_neg hno']
            exact List.mem_append.mpr (Or.inr (by simp [heq]))
          · exact Or.inr ⟨nid', hn', hno', heq⟩

theorem aboveThreshold_mem (cfg : SatConfig) (obs : ℤ → ℚ × ℚ × ℚ) :
    ∀ (sats : List (ℤ × String)) (acc : List String) (nid : String),
      (nid ∈ sats.foldl
          (fun a e => if decide ((obs e.1).1 ≥ cfg.min_elevation_deg) then
              a.insert (toString e.1)
            else a) acc ↔
        nid ∈ acc ∨ ∃ e ∈ sats, toString e.1 = nid ∧ cfg.min_elevation_deg ≤ (obs e.1).1)
  | [], acc, nid => by simp
  | e :: rest, acc, nid => by
      simp only [List.foldl_cons]
      rw [aboveThreshold_mem cfg obs rest _ nid]
      constructor
      · intro h
        rcases h with h | ⟨e', he', hx⟩
        · split at h
          · rcases List.mem_insert_iff.mp h with h | h
            · subst h
              next hge =>
                exact Or.inr ⟨e, List.mem_cons_self _ _, rfl, by
                  simpa [ge_iff_le] using of_decide_eq_true hge⟩
            · exact Or.inl h
          · exact Or.inl h
        · exact Or.inr ⟨e', List.mem_cons_of_mem _ he', hx⟩
      · intro h
        rcases h with h | ⟨e', he', hid, hge⟩
        · left
          split
          · exact List.mem_insert_iff.mpr (Or.inr h)
          · exact h
        · rcases List.mem_cons.mp he' with rfl | he'
          · left
            rw [if_pos (by simpa [ge_iff_le] using decide_eq_true hge)]
            exact List.mem_insert_iff.mpr (Or.inl hid.symm)
          · exact Or.inr ⟨e', he', hid, hge⟩

theorem reload_nonSpace_fields (cfg : SatConfig) (s : SatState) (fs : FsView)
    (force : Bool) :
    (reload_space_objects_if_needed cfg s fs force).1.overhead = s.overhead ∧
    (reload_space_objects_if_needed cfg s fs force).1.lastSample = s.lastSample ∧
    (reload_space_objects_if_needed cfg s fs force).1.sats = s.sats ∧
    (∀ ev ∈ (reload_space_objects_if_needed cfg s fs force).2.2,
      ev.event ≠ EvKind.EXIT) := by
  unfold reload_space_objects_if_needed
  rcases fs with _ | ⟨m, d⟩ | ⟨m, d⟩
  · exact ⟨rfl, rfl, rfl, by simp⟩
  · exact ⟨rfl, rfl, rfl, by simp⟩
  · dsimp only
    split
    · exact ⟨rfl, rfl, rfl, by simp⟩
    · split
      · refine ⟨rfl, rfl, rfl, ?_⟩
        intro ev hev
        simp only [List.mem_singleton] at hev
        subst hev
        simp
      · refine ⟨rfl, rfl, rfl, ?_⟩
        intro ev hev
        simp only [List.mem_singleton] at hev
        subst hev
        simp

theorem preScan_fields (cfg : SatConfig) (fs : FsView) (tle : List (ℤ × String))
    (srt : Bool) (s : SatState) :
    (satTickPreScan cfg fs tle srt s).1.overhead = s.overhead ∧
    (satTickPreScan cfg fs tle srt s).1.lastSample = s.lastSample ∧
    (∀ ev ∈ (satTickPreScan cfg fs tle srt s).2, ev.event ≠ EvKind.EXIT) := by
  obtain ⟨h1, h2, h3, h4⟩ := reload_nonSpace_fields cfg s fs false
  unfold satTickPreScan
  dsimp only
  split
  · unfold load_tles
    refine ⟨h1, h2, ?_⟩
    intro ev hev
    rcases List.mem_append.mp hev with hev | hev
    · exact h4 ev hev
    · simp only [List.mem_singleton] at hev
      subst hev
      simp
  · refine ⟨h1, h2, ?_⟩
    intro ev hev
    rcases List.mem_append.mp hev with hev | hev
    · exact h4 ev hev
    · simp at hev

/-! ## Claim C10: satellite EXITs fire on the same tick, with no hysteresis -/

/-- C10: on every satellite `tick`, with `pre` the state after the allow-list
hot reload and the conditional TLE reload, every object that was overhead on
the previous tick (`pre.overhead = s.overhead`) but is not in the newly
computed above-threshold set receives an EXIT event on that very tick, and
the above-threshold set contains exactly the tracked objects whose computed
elevation is at or above `min_elevation_deg` — so an object leaves either
because its elevation dropped below the threshold or because it is no longer
in the tracked map, with no confirm-poll hysteresis and no disappearance
grace period (unlike the plane tracker, whose EXITs are gated on
`exit_confirm_polls` and `disappear_grace_seconds`). -/
theorem C10_satellite_exit_same_tick (cfg : SatConfig) (fs : FsView)
    (tle : List (ℤ × String)) (srt : Bool) (obs : ℤ → ℚ × ℚ × ℚ) (s : SatState) :
    (let pre := (satTickPreScan cfg fs tle srt s).1
     let r := satTick cfg fs tle srt obs s
     pre.overhead = s.overhead ∧
     r.1.overhead = aboveThreshold cfg obs pre.sats ∧
     (∀ nid : String,
       (∃ ev ∈ r.2, ev.event = EvKind.EXIT ∧ ev.id = nid) ↔
         nid ∈ s.overhead ∧ nid ∉ aboveThreshold cfg obs pre.sats) ∧
     (∀ nid : String,
       nid ∈ aboveThreshold cfg obs pre.sats ↔
         ∃ e ∈ pre.sats, toString e.1 = nid ∧ cfg.min_elevation_deg ≤ (obs e.1).1)) := by
  dsimp only
  obtain ⟨hov, hls, hnx⟩ := preScan_fields cfg fs tle srt s
  set pre := (satTickPreScan cfg fs tle srt s).1 with hpre
  have htick : satTick cfg fs tle srt obs s =
      ((satScan cfg obs pre).1,
       (satTickPreScan cfg fs tle srt s).2 ++ (satScan cfg obs pre).2) := rfl
  have hscan1 : (satScan cfg obs pre).1.overhead =
      (pre.sats.foldl (satScanStep cfg obs pre.space_meta pre.overhead)
        ([], pre.lastSample, [])).1 := rfl
  have hnowOver : (pre.sats.foldl (satScanStep cfg obs pre.space_meta pre.overhead)
      ([], pre.lastSample, [])).1 = aboveThreshold cfg obs pre.sats := by
    rw [satScanFold_nowOver]
    rfl
  refine ⟨hov, by rw [htick]; rw [hscan1, hnowOver], ?_, ?_⟩
  · intro nid
    constructor
    · rintro ⟨ev, hev, hex, hid⟩
      rw [htick] at hev
      rcases List.mem_append.mp hev with hev | hev
      · exact absurd hex (hnx ev hev)
      · have hscan2 : (satScan cfg obs pre).2 =
            (pre.sats.foldl (satScanStep cfg obs pre.space_meta pre.overhead)
              ([], pre.lastSample, [])).2.2 ++
            pre.overhead.foldl
              (satExitStep
                (pre.sats.foldl (satScanStep cfg obs pre.space_meta pre.overhead)
                  ([], pre.lastSample, [])).1
                (pre.sats.foldl (satScanStep cfg obs pre.space_meta pre.overhead)
                  ([], pre.lastSample, [])).2.1) [] := rfl
        rw [hscan2] at hev
        rcases List.mem_append.mp hev with hev | hev
        · rcases satScanFold_evs cfg obs pre.space_meta pre.overhead pre.sats _ _ _ ev hev with
            h | h
          · simp at h
          · rw [h] at hex; cases hex
        · rw [satExitFold_mem] at hev
          rcases hev with hev | ⟨nid', hn', hno', heq⟩
          · simp at hev
          · subst heq
            rw [satExitEvent_id] at hid
            subst hid
            rw [hnowOver] at hno'
            exact ⟨hov ▸ hn', hno'⟩
    · rintro ⟨hin, hout⟩
      refine ⟨satExitEvent
        (pre.sats.foldl (satScanStep cfg obs pre.space_meta pre.overhead)
          ([], pre.lastSample, [])).2.1 nid, ?_, satExitEvent_event _ _, satExitEvent_id _ _⟩
      rw [htick]
      refine List.mem_append.mpr (Or.inr ?_)
      have hscan2 : (satScan cfg obs pre).2 =
          (pre.sats.foldl (satScanStep cfg obs pre.space_meta pre.overhead)
            ([], pre.lastSample, [])).2.2 ++
          pre.overhead.foldl
            (satExitStep
              (pre.sats.foldl (satScanStep cfg obs pre.space_meta pre.overhead)
                ([], pre.lastSample, [])).1
              (pre.sats.foldl (satScanStep cfg obs pre.space_meta pre.overhead)
                ([], pre.lastSample, [])).2.1) [] := rfl
      rw [hscan2]
      refine List.mem_append.mpr (Or.inr ?_)
      rw [satExitFold_mem]
      refine Or.inr ⟨nid, hov.symm ▸ hin, ?_, rfl⟩
      rw [hnowOver]
      exact hout
  · intro nid
    unfold aboveThreshold
    exact aboveThreshold_mem cfg obs pre.sats [] nid |>.trans (by simp)

/-! ## Map and association-list lemmas -/

theorem fupd_self {κ α : Type} [DecidableEq κ] (f : κ → Option α) (k : κ) (v : α) :
    fupd f k v k = some v := by simp [fupd]

theorem fupd_ne {κ α : Type} [DecidableEq κ] (f : κ → Option α) (k : κ) (v : α)
    (x : κ) (h : x ≠ k) : fupd f k v x = f x := by simp [fupd, h]

theorem fdel_self {κ α : Type} [DecidableEq κ] (f : κ → Option α) (k : κ) :
    fdel f k k = none := by simp [fdel]

theorem fdel_ne {κ α : Type} [DecidableEq κ] (f : κ → Option α) (k : κ)
    (x : κ) (h : x ≠ k) : fdel f k x = f x := by simp [fdel, h]

theorem alookup_pyInsert_self {κ α : Type} [DecidableEq κ] (k : κ) (v : α) :
    ∀ l : List (κ × α), alookup k (pyInsert k v l) = some v
  | [] => by simp [pyInsert, alookup]
  | (k', v') :: rest => by
      by_cases h : k' = k
      · simp [pyInsert, h, alookup]
      · simp only [pyInsert, h, if_false, alookup]
        exact alookup_pyInsert_self k v rest

theorem alookup_pyInsert_ne {κ α : Type} [DecidableEq κ] (k : κ) (v : α) (x : κ)
    (h : x ≠ k) : ∀ l : List (κ × α), alookup x (pyInsert k v l) = alookup x l
  | [] => by simp [pyInsert, alookup, Ne.symm h]
  | (k', v') :: rest => by
      by_cases h' : k' = k
      · subst h'
        simp [pyInsert, alookup, Ne.symm h]
      · simp only [pyInsert, h', if_false, alookup]
        rw [alookup_pyInsert_ne k v x h rest]

theorem alookup_eq_none {κ α : Type} [DecidableEq κ] (k : κ) :
    ∀ l : List (κ × α), alookup k l = none ↔ k ∉ l.map Prod.fst
  | [] => by simp [alookup]
  | (k', v') :: rest => by
      by_cases h : k' = k
      · simp [alookup, h]
      · simp only [alookup, h, if_false, List.map_cons, List.mem_cons]
        rw [alookup_eq_none k rest]
        constructor
        · intro hn
          rintro (rfl | hm)
          · exact h rfl
          · exact hn hm
        · intro hn hm
          exact hn (Or.inr hm)

theorem alookup_isSome {κ α : Type} [DecidableEq κ] (k : κ) (l : List (κ × α)) :
    (alookup k l).isSome = true ↔ k ∈ l.map Prod.fst := by
  rcases hl : alookup k l with _ | v
  · simp only [Option.isSome_none, Bool.false_eq_true, false_iff]
    exact (alookup_eq_none k l).mp hl
  · simp only [Option.isSome_some, true_iff]
    by_contra hm
    rw [(alookup_eq_none k l).mpr hm] at hl
    cases hl

theorem alookup_mem {κ α : Type} [DecidableEq κ] (k : κ) (v : α) :
    ∀ l : List (κ × α), alookup k l = some v → (k, v) ∈ l
  | (k', v') :: rest, h => by
      by_cases hk : k' = k
      · subst hk
        have hv : v' = v := by simpa [alookup] using h
        subst hv
        exact List.mem_cons_self _ _
      · simp only [alookup, hk, if_false] at h
        exact List.mem_cons_of_mem _ (alookup_mem k v rest h)

theorem mem_alookup {κ α : Type} [DecidableEq κ] (k : κ) (v : α) :
    ∀ l : List (κ × α), keysND l → (k, v) ∈ l → alookup k l = some v
  | (k', v') :: rest, hnd, h => by
      rcases List.mem_cons.mp h with h | h
      · injection h with h1 h2
        subst h1; subst h2
        simp [alookup]
      · have hk : k' ≠ k := by
          intro hkk
          subst hkk
          have : k' ∈ rest.map Prod.fst :=
            List.mem_map.mpr ⟨(k', v), h, rfl⟩
          exact (List.nodup_cons.mp hnd).1 this
        simp only [alookup, hk, if_false]
        exact mem_alookup k v rest (List.nodup_cons.mp hnd).2 h

theorem keys_pyInsert {κ α : Type} [DecidableEq κ] (k : κ) (v : α) :
    ∀ l : List (κ × α),
      (pyInsert k v l).map Prod.fst =
        if k ∈ l.map Prod.fst then l.map Prod.fst else l.map Prod.fst ++ [k]
  | [] => by simp [pyInsert]
  | (k', v') :: rest => by
      by_cases h : k' = k
      · subst h
        simp [pyInsert]
      · simp only [pyInsert, h, if_false, List.map_cons, keys_pyInsert k v rest,
          List.mem_cons]
        by_cases hm : k ∈ rest.map Prod.fst
        · simp [hm, Ne.symm h]
        · simp [hm, Ne.symm h]

theorem keysND_pyInsert {κ α : Type} [DecidableEq κ] (k : κ) (v : α)
    (l : List (κ × α)) (hnd : keysND l) : keysND (pyInsert k v l) := by
  unfold keysND at *
  rw [keys_pyInsert]
  split
  · exact hnd
  · next hm =>
      simp only [List.nodup_append, List.nodup_cons, List.not_mem_nil, not_false_iff,
        List.nodup_nil, and_true, true_and, List.disjoint_singleton]
      exact ⟨hnd, by simpa using hm⟩

theorem aerase_sublist {κ α : Type} [DecidableEq κ] (k : κ) :
    ∀ l : List (κ × α), (aerase k l).Sublist l
  | [] => List.Sublist.refl _
  | (k', v') :: rest => by
      by_cases h : k' = k
      · simp only [aerase, h, if_pos rfl]
        exact (aerase_sublist k rest).cons _
      · simp only [aerase, h, if_false]
        exact (aerase_sublist k rest).cons₂ _

theorem keysND_aerase {κ α : Type} [DecidableEq κ] (k : κ)
    (l : List (κ × α)) (hnd : keysND l) : keysND (aerase k l) :=
  List.Nodup.sublist (List.Sublist.map Prod.fst (aerase_sublist k l)) hnd

theorem alookup_aerase_self {κ α : Type} [DecidableEq κ] (k : κ) :
    ∀ l : List (κ × α), alookup k (aerase k l) = none
  | [] => rfl
  | (k', v') :: rest => by
      by_cases h : k' = k
      · simp only [aerase, h, if_pos rfl]
        exact alookup_aerase_self k rest
      · simp only [aerase, h, if_false, alookup]
        exact alookup_aerase_self k rest

theorem alookup_aerase_ne {κ α : Type} [DecidableEq κ] (k x : κ) (h : x ≠ k) :
    ∀ l : List (κ × α), alookup x (aerase k l) = alookup x l
  | [] => rfl
  | (k', v') :: rest => by
      by_cases h' : k' = k
      · subst h'
        have h1 : aerase k' ((k', v') :: rest) = aerase k' rest := by simp [aerase]
        have h2 : alookup x ((k', v') :: rest) = alookup x rest := by
          simp only [alookup]
          rw [if_neg (fun hh : k' = x => h hh.symm)]
        rw [h1, h2]
        exact alookup_aerase_ne k' x h rest
      · simp only [aerase, h', if_false, alookup]
        by_cases hx : k' = x
        · simp [hx]
        · simp only [hx, if_false]
          exact alookup_aerase_ne k x h rest

theorem obsLast_eq_none (id : String) :
    ∀ planes : List PlaneObs, obsLast planes id = none ↔ ∀ p ∈ planes, p.icao24 ≠ id
  | [] => by simp [obsLast]
  | p :: rest => by
      simp only [obsLast]
      rcases h : obsLast rest id with _ | q
      · by_cases hp : p.icao24 = id
        · simp only [hp, if_pos rfl]
          constructor
          · intro hh; cases hh
          · intro hall
            exact absurd hp (hall p (List.mem_cons_self _ _))
        · simp only [hp, if_false, true_iff]
          intro q hq
          rcases List.mem_cons.mp hq with rfl | hq
          · exact hp
          · exact ((obsLast_eq_none id rest).mp h) q hq
      · constructor
        · intro hh; cases hh
        · intro hall
          have : obsLast rest id = none := by
            rw [obsLast_eq_none id rest]
            intro q hq
            exact hall q (List.mem_cons_of_mem _ hq)
          rw [this] at h
          cases h

/-! ## Scan-phase characterization -/

theorem obsLast_cons (p : PlaneObs) (rest : List PlaneObs) (id : String) :
    obsLast (p :: rest) id =
      match obsLast rest id with
      | some q => some q
      | none => if p.icao24 = id then some p else none := rfl

theorem scanFold_lsa (cfg : Config) (now : ℚ) :
    ∀ (planes : List PlaneObs) acc (x : String),
      (planes.foldl (scanStep cfg now) acc).1 x =
        if (obsLast planes x).isSome then some now else acc.1 x
  | [], acc, x => by simp [obsLast]
  | p :: rest, acc, x => by
      simp only [List.foldl_cons]
      rw [scanFold_lsa cfg now rest _ x, obsLast_cons]
      by_cases hobs : (obsLast rest x).isSome = true
      · obtain ⟨q, hq⟩ := Option.isSome_iff_exists.mp hobs
        simp only [hq, Option.isSome_some, if_true]
      · have hq : obsLast rest x = none := Option.not_isSome_iff_eq_none.mp hobs
        simp only [hq, Option.isSome_none, Bool.false_eq_true, if_false]
        by_cases hp : p.icao24 = x
        · simp only [hp, if_pos rfl, Option.isSome_some, if_true]
          show fupd acc.1 p.icao24 now x = some now
          rw [hp]
          exact fupd_self _ _ _
        · simp only [hp, if_false, Option.isSome_none, Bool.false_eq_true, if_false]
          exact fupd_ne _ _ _ _ (fun hh => hp hh.symm)

theorem scanFold_ldm (cfg : Config) (now : ℚ) :
    ∀ (planes : List PlaneObs) acc (x : String),
      (planes.foldl (scanStep cfg now) acc).2.1 x =
        match obsDist planes x with
        | some d => some d
        | none => acc.2.1 x
  | [], acc, x => by simp [obsDist, obsLast]
  | p :: rest, acc, x => by
      simp only [List.foldl_cons]
      rw [scanFold_ldm cfg now rest _ x]
      simp only [obsDist, obsLast_cons]
      by_cases hobs : (obsLast rest x).isSome = true
      · obtain ⟨q, hq⟩ := Option.isSome_iff_exists.mp hobs
        simp only [hq, Option.map_some']
      · have hq : obsLast rest x = none := Option.not_isSome_iff_eq_none.mp hobs
        simp only [hq, Option.map_none']
        by_cases hp : p.icao24 = x
        · simp only [hp, if_pos rfl, Option.map_some']
          show fupd acc.2.1 p.icao24 p.distM x = some p.distM
          rw [hp]
          exact fupd_self _ _ _
        · simp only [hp, if_false, Option.map_none']
          exact fupd_ne _ _ _ _ (fun hh => hp hh.symm)

theorem scanFold_seen (cfg : Config) (now : ℚ) :
    ∀ (planes : List PlaneObs) acc (x : String),
      (planes.foldl (scanStep cfg now) acc).2.2.2.1 x =
        match obsLast planes x with
        | some p => some p
        | none => acc.2.2.2.1 x
  | [], acc, x => by simp [obsLast]
  | p :: rest, acc, x => by
      simp only [List.foldl_cons]
      rw [scanFold_seen cfg now rest _ x]
      simp only [obsLast_cons]
      by_cases hobs : (obsLast rest x).isSome = true
      · obtain ⟨q, hq⟩ := Option.isSome_iff_exists.mp hobs
        simp only [hq]
      · have hq : obsLast rest x = none := Option.not_isSome_iff_eq_none.mp hobs
        simp only [hq]
        by_cases hp : p.icao24 = x
        · simp only [hp, if_pos rfl]
          show fupd acc.2.2.2.1 p.icao24 p x = some p
          rw [hp]
          exact fupd_self _ _ _
        · simp only [hp, if_false]
          exact fupd_ne _ _ _ _ (fun hh => hp hh.symm)

theorem scanFold_ci_isSome (cfg : Config) (now : ℚ) :
    ∀ (planes : List PlaneObs) acc (x : String),
      ((alookup x (planes.foldl (scanStep cfg now) acc).2.2.2.2).isSome = true ↔
        (alookup x acc.2.2.2.2).isSome = true ∨
          ∃ p ∈ planes, p.icao24 = x ∧ p.distM ≤ cfg.radius_m)
  | [], acc, x => by simp
  | p :: rest, acc, x => by
      simp only [List.foldl_cons]
      rw [scanFold_ci_isSome cfg now rest _ x]
      have hstep : (scanStep cfg now acc p).2.2.2.2 =
          if decide (p.distM ≤ cfg.radius_m) then pyInsert p.icao24 p acc.2.2.2.2
          else acc.2.2.2.2 := rfl
      rw [hstep]
      constructor
      · rintro (h | ⟨q, hq, hx, hd⟩)
        · split at h
          · by_cases hp : x = p.icao24
            · subst hp
              next hdec =>
                exact Or.inr ⟨p, List.mem_cons_self _ _, rfl, of_decide_eq_true hdec⟩
            · rw [alookup_pyInsert_ne _ _ _ hp] at h
              exact Or.inl h
          · exact Or.inl h
        · exact Or.inr ⟨q, List.mem_cons_of_mem _ hq, hx, hd⟩
      · rintro (h | ⟨q, hq, hx, hd⟩)
        · left
          split
          · by_cases hp : x = p.icao24
            · subst hp
              rw [alookup_pyInsert_self]
              rfl
            · rw [alookup_pyInsert_ne _ _ _ hp]
              exact h
          · exact h
        · rcases List.mem_cons.mp hq with rfl | hq
          · left
            rw [if_pos (decide_eq_true hd), ← hx, alookup_pyInsert_self]
            rfl
          · exact Or.inr ⟨q, hq, hx, hd⟩

theorem scanFold_ci_keysND (cfg : Config) (now : ℚ) :
    ∀ (planes : List PlaneObs) acc, keysND acc.2.2.2.2 →
      keysND (planes.foldl (scanStep cfg now) acc).2.2.2.2
  | [], acc, h => h
  | p :: rest, acc, h => by
      simp only [List.foldl_cons]
      refine scanFold_ci_keysND cfg now rest _ ?_
      show keysND (if decide (p.distM ≤ cfg.radius_m) then
        pyInsert p.icao24 p acc.2.2.2.2 else acc.2.2.2.2)
      split
      · exact keysND_pyInsert _ _ _ h
      · exact h

theorem pcDisplay_fupd_keep (pc : PCMap) (k : String) (c' : CacheEntry) (x : String)
    (hdisp : c'.display = ((pc k).getD {}).display) :
    pcDisplay (fupd pc k c') x = pcDisplay pc x := by
  unfold pcDisplay
  by_cases hx : x = k
  · subst hx
    rw [fupd_self]
    simp [hdisp]
  · rw [fupd_ne _ _ _ _ hx]

theorem cache_plane_live_meta_pcDisplay (pc : PCMap) (p : PlaneObs) (x : String) :
    pcDisplay (cache_plane_live_meta pc p) x = pcDisplay pc x := by
  unfold cache_plane_live_meta
  dsimp only
  exact pcDisplay_fupd_keep _ _ _ _ rfl

theorem enterAdsbdb_pcDisplay (cfg : Config) (orc : Oracles) (now : ℚ) (pc : PCMap)
    (ac : ACMap) (icao24 : String) (p : PlaneObs) (meta : EventMeta) (x : String) :
    pcDisplay (enterAdsbdb cfg orc now pc ac icao24 p meta).1 x = pcDisplay pc x := by
  unfold enterAdsbdb
  dsimp only
  repeat' split
  all_goals first
    | rfl
    | exact pcDisplay_fupd_keep _ _ _ _ rfl

theorem enterAirlabs_pcDisplay (cfg : Config) (orc : Oracles) (pc : PCMap)
    (icao24 : String) (p : PlaneObs) (meta : EventMeta) (x : String) :
    pcDisplay (enterAirlabs cfg orc pc icao24 p meta).1 x = pcDisplay pc x := by
  unfold enterAirlabs
  dsimp only
  repeat' split
  all_goals first
    | rfl
    | exact pcDisplay_fupd_keep _ _ _ _ rfl

theorem enterAviationstack_pcDisplay (cfg : Config) (orc : Oracles) (pc : PCMap)
    (icao24 : String) (p : PlaneObs) (meta : EventMeta) (x : String) :
    pcDisplay (enterAviationstack cfg orc pc icao24 p meta).1 x = pcDisplay pc x := by
  unfold enterAviationstack
  dsimp only
  repeat' split
  all_goals first
    | rfl
    | exact pcDisplay_fupd_keep _ _ _ _ rfl

theorem stable_display_ne_empty (meta : EventMeta) (lbl : String) :
    stable_display_from_meta meta lbl ≠ "" := by
  unfold stable_display_from_meta
  dsimp only
  intro h
  have hlen := congrArg String.length h
  have h1 : (" " : String).length = 1 := rfl
  have h2 : ("  " : String).length = 2 := rfl
  have h0 : ("" : String).length = 0 := rfl
  simp only [String.length_append, h1, h2, h0] at hlen
  omega

theorem enterFinish_char (pc : PCMap) (icao24 : String) (p : PlaneObs) (meta : EventMeta) :
    (enterFinish pc icao24 p meta).2.event = EvKind.ENTER ∧
    (enterFinish pc icao24 p meta).2.id = icao24 ∧
    (∃ d, (enterFinish pc icao24 p meta).2.meta.display = some d ∧ d ≠ "" ∧
      pcDisplay (enterFinish pc icao24 p meta).1 icao24 = some d) ∧
    (∀ x, x ≠ icao24 → pcDisplay (enterFinish pc icao24 p meta).1 x = pcDisplay pc x) := by
  refine ⟨rfl, rfl, ⟨_, rfl, stable_display_ne_empty _ _, ?_⟩, ?_⟩
  · show pcDisplay (fupd pc icao24 _) icao24 = _
    unfold pcDisplay
    rw [fupd_self]
    rfl
  · intro x hx
    show pcDisplay (fupd pc icao24 _) x = pcDisplay pc x
    unfold pcDisplay
    rw [fupd_ne _ _ _ _ hx]

theorem enterProcess_char (cfg : Config) (orc : Oracles) (now : ℚ) (pc : PCMap)
    (ac : ACMap) (ldm : String → Option ℚ) (icao24 : String) (p : PlaneObs) :
    (enterProcess cfg orc now pc ac ldm icao24 p).2.2.event = EvKind.ENTER ∧
    (enterProcess cfg orc now pc ac ldm icao24 p).2.2.id = icao24 ∧
    (∃ d, (enterProcess cfg orc now pc ac ldm icao24 p).2.2.meta.display = some d ∧ d ≠ "" ∧
      pcDisplay (enterProcess cfg orc now pc ac ldm icao24 p).1 icao24 = some d) ∧
    (∀ x, x ≠ icao24 →
      pcDisplay (enterProcess cfg orc now pc ac ldm icao24 p).1 x = pcDisplay pc x) := by
  obtain ⟨he, hi, hdx, hoth⟩ := enterFinish_char
    (enterAviationstack cfg orc
      (enterAirlabs cfg orc
        (enterAdsbdb cfg orc now pc ac icao24 p (enterMeta0 cfg ldm icao24 p)).1 icao24 p
        (enterAdsbdb cfg orc now pc ac icao24 p (enterMeta0 cfg ldm icao24 p)).2.2).1 icao24 p
      (enterAirlabs cfg orc
        (enterAdsbdb cfg orc now pc ac icao24 p (enterMeta0 cfg ldm icao24 p)).1 icao24 p
        (enterAdsbdb cfg orc now pc ac icao24 p (enterMeta0 cfg ldm icao24 p)).2.2).2).1
    icao24 p
    (enterAviationstack cfg orc
      (enterAirlabs cfg orc
        (enterAdsbdb cfg orc now pc ac icao24 p (enterMeta0 cfg ldm icao24 p)).1 icao24 p
        (enterAdsbdb cfg orc now pc ac icao24 p (enterMeta0 cfg ldm icao24 p)).2.2).1 icao24 p
      (enterAirlabs cfg orc
        (enterAdsbdb cfg orc now pc ac icao24 p (enterMeta0 cfg ldm icao24 p)).1 icao24 p
        (enterAdsbdb cfg orc now pc ac icao24 p (enterMeta0 cfg ldm icao24 p)).2.2).2).2
  refine ⟨he, hi, hdx, fun x hx => ?_⟩
  refine (hoth x hx).trans ?_
  rw [enterAviationstack_pcDisplay, enterAirlabs_pcDisplay, enterAdsbdb_pcDisplay]

theorem overheadStep_char (cfg : Config) (now : ℚ) (s : TrackerState) (pc : PCMap)
    (k : String) (p : PlaneObs) :
    (overheadStep cfg now s pc k p = (s.lastOverheadSent, [])) ∨
    (can_send_overhead cfg s.lastOverheadSent k now = true ∧
      ∃ ev : Event EventMeta,
        overheadStep cfg now s pc k p = (fupd s.lastOverheadSent k now, [ev]) ∧
        ev.event = EvKind.OVERHEAD ∧ ev.id = k ∧
        ev.meta.display = displayFilter (pcDisplay pc k)) := by
  unfold overheadStep
  dsimp only
  split
  · next hcond =>
      refine Or.inr ⟨(Bool.and_eq_true _ _ |>.mp hcond).2, _, rfl, rfl, rfl, rfl⟩
  · exact Or.inl rfl

theorem processInsideOne_state (cfg : Config) (orc : Oracles) (now : ℚ)
    (s : TrackerState) (evs : List (Event EventMeta)) (k : String) (p : PlaneObs) :
    (processInsideOne cfg orc now (s, evs) (k, p)).1.lastSeenAny = s.lastSeenAny ∧
    (processInsideOne cfg orc now (s, evs) (k, p)).1.lastDistM = s.lastDistM ∧
    (processInsideOne cfg orc now (s, evs) (k, p)).1.lastPosition = s.lastPosition ∧
    (processInsideOne cfg orc now (s, evs) (k, p)).1.inside = pyInsert k now s.inside ∧
    (processInsideOne cfg orc now (s, evs) (k, p)).1.outsidePolls = fupd s.outsidePolls k 0 := by
  exact ⟨rfl, rfl, rfl, rfl, rfl⟩

theorem processInsideOne_new_eq (cfg : Config) (orc : Oracles) (now : ℚ)
    (s : TrackerState) (evs : List (Event EventMeta)) (k : String) (p : PlaneObs)
    (hnew : alookup k s.inside = none) :
    processInsideOne cfg orc now (s, evs) (k, p) =
      (let pc1 := cache_plane_live_meta s.planeCache p
       let ep := enterProcess cfg orc now pc1 s.adsbdbCache s.lastDistM k p
       let s1 : TrackerState :=
         { s with inside := pyInsert k now s.inside
                  outsidePolls := fupd s.outsidePolls k 0
                  planeCache := ep.1, adsbdbCache := ep.2.1 }
       let oh := overheadStep cfg now s1 ep.1 k p
       ({ s1 with lastOverheadSent := oh.1 }, evs ++ [ep.2.2] ++ oh.2)) := by
  unfold processInsideOne
  dsimp only
  rw [hnew]
  rfl

theorem processInsideOne_old_eq (cfg : Config) (orc : Oracles) (now : ℚ)
    (s : TrackerState) (evs : List (Event EventMeta)) (k : String) (p : PlaneObs)
    (v : ℚ) (hold : alookup k s.inside = some v) :
    processInsideOne cfg orc now (s, evs) (k, p) =
      (let pc1 := cache_plane_live_meta s.planeCache p
       let s1 : TrackerState :=
         { s with inside := pyInsert k now s.inside
                  outsidePolls := fupd s.outsidePolls k 0
                  planeCache := pc1, adsbdbCache := s.adsbdbCache }
       let oh := overheadStep cfg now s1 pc1 k p
       ({ s1 with lastOverheadSent := oh.1 }, evs ++ [] ++ oh.2)) := by
  unfold processInsideOne
  dsimp only
  rw [hold]
  rfl

theorem processInsideOne_main (cfg : Config) (orc : Oracles) (now : ℚ)
    (s : TrackerState) (evs : List (Event EventMeta)) (k : String) (p : PlaneObs) :
    ∃ delta,
      (processInsideOne cfg orc now (s, evs) (k, p)).2 = evs ++ delta ∧
      (∀ ev ∈ delta, ev.id = k ∧ ev.event ≠ EvKind.EXIT) ∧
      (alookup k s.inside ≠ none →
        pcDisplay (processInsideOne cfg orc now (s, evs) (k, p)).1.planeCache k =
          pcDisplay s.planeCache k ∧
        ∀ ev ∈ delta, ev.event = EvKind.OVERHEAD ∧
          ev.meta.display = displayFilter (pcDisplay s.planeCache k)) ∧
      (alookup k s.inside = none →
        ∃ d, d ≠ "" ∧
          pcDisplay (processInsideOne cfg orc now (s, evs) (k, p)).1.planeCache k = some d ∧
          (∃ ev ∈ delta, ev.event = EvKind.ENTER ∧ ev.meta.display = some d) ∧
          (∀ ev ∈ delta, ev.meta.display = some d)) := by
  rcases hnew : alookup k s.inside with _ | v
  · rw [processInsideOne_new_eq cfg orc now s evs k p hnew]
    dsimp only
    obtain ⟨hee, hei, ⟨d, hd1, hd2, hd3⟩, _⟩ :=
      enterProcess_char cfg orc now (cache_plane_live_meta s.planeCache p)
        s.adsbdbCache s.lastDistM k p
    rcases overheadStep_char cfg now
        { s with inside := pyInsert k now s.inside
                 outsidePolls := fupd s.outsidePolls k 0
                 planeCache := (enterProcess cfg orc now (cache_plane_live_meta s.planeCache p)
                   s.adsbdbCache s.lastDistM k p).1
                 adsbdbCache := (enterProcess cfg orc now (cache_plane_live_meta s.planeCache p)
                   s.adsbdbCache s.lastDistM k p).2.1 }
        (enterProcess cfg orc now (cache_plane_live_meta s.planeCache p)
          s.adsbdbCache s.lastDistM k p).1 k p with
      hov | ⟨hcs, ev, hoeq, hoev, hoid, hodisp⟩
    · refine ⟨[(enterProcess cfg orc now (cache_plane_live_meta s.planeCache p)
          s.adsbdbCache s.lastDistM k p).2.2], ?_, ?_, ?_, ?_⟩
      · rw [hov]
        simp
      · intro e he
        simp only [List.mem_singleton] at he
        subst he
        exact ⟨hei, by rw [hee]; intro hx; cases hx⟩
      · intro habs; exact absurd rfl habs
      · intro _
        refine ⟨d, hd2, ?_, ?_, ?_⟩
        · show pcDisplay (enterProcess cfg orc now (cache_plane_live_meta s.planeCache p)
            s.adsbdbCache s.lastDistM k p).1 k = some d
          exact hd3
        · exact ⟨_, List.mem_singleton.mpr rfl, hee, hd1⟩
        · intro e he
          simp only [List.mem_singleton] at he
          subst he
          exact hd1
    · refine ⟨[(enterProcess cfg orc now (cache_plane_live_meta s.planeCache p)
          s.adsbdbCache s.lastDistM k p).2.2] ++ [ev], ?_, ?_, ?_, ?_⟩
      · rw [hoeq]
        simp
      · intro e he
        rcases List.mem_append.mp he with he | he <;> simp only [List.mem_singleton] at he <;>
          subst he
        · exact ⟨hei, by rw [hee]; intro hx; cases hx⟩
        · exact ⟨hoid, by rw [hoev]; intro hx; cases hx⟩
      · intro habs; exact absurd rfl habs
      · intro _
        refine ⟨d, hd2, ?_, ?_, ?_⟩
        · show pcDisplay (enterProcess cfg orc now (cache_plane_live_meta s.planeCache p)
            s.adsbdbCache s.lastDistM k p).1 k = some d
          exact hd3
        · exact ⟨_, List.mem_append.mpr (Or.inl (List.mem_singleton.mpr rfl)), hee, hd1⟩
        · intro e he
          rcases List.mem_append.mp he with he | he <;> simp only [List.mem_singleton] at he <;>
            subst he
          · exact hd1
          · rw [hodisp, hd3, displayFilter]
            simp [hd2]
  · rw [processInsideOne_old_eq cfg orc now s evs k p v hnew]
    dsimp only
    have hpc1 : pcDisplay (cache_plane_live_meta s.planeCache p) k = pcDisplay s.planeCache k :=
      cache_plane_live_meta_pcDisplay _ _ _
    rcases overheadStep_char cfg now
        { s with inside := pyInsert k now s.inside
                 outsidePolls := fupd s.outsidePolls k 0
                 planeCache := cache_plane_live_meta s.planeCache p
                 adsbdbCache := s.adsbdbCache }
        (cache_plane_live_meta s.planeCache p) k p with
      hov | ⟨hcs, ev, hoeq, hoev, hoid, hodisp⟩
    · refine ⟨[], ?_, ?_, ?_, ?_⟩
      · rw [hov]; simp
      · intro e he; cases he
      · intro _
        exact ⟨hpc1, fun e he => absurd he (List.not_mem_nil e)⟩
      · intro habs; cases habs
    · refine ⟨[ev], ?_, ?_, ?_, ?_⟩
      · rw [hoeq]; simp
      · intro e he
        simp only [List.mem_singleton] at he
        subst he
        exact ⟨hoid, by rw [hoev]; intro hx; cases hx⟩
      · intro _
        refine ⟨hpc1, fun e he => ?_⟩
        simp only [List.mem_singleton] at he
        subst he
        rw [hodisp, hpc1]
        exact ⟨hoev, rfl⟩
      · intro habs; cases habs

theorem processInsideOne_pc_other (cfg : Config) (orc : Oracles) (now : ℚ)
    (s : TrackerState) (evs : List (Event EventMeta)) (k : String) (p : PlaneObs)
    (x : String) (hx : x ≠ k) :
    pcDisplay (processInsideOne cfg orc now (s, evs) (k, p)).1.planeCache x =
      pcDisplay s.planeCache x := by
  rcases hnew : alookup k s.inside with _ | v
  · rw [processInsideOne_new_eq cfg orc now s evs k p hnew]
    dsimp only
    obtain ⟨_, _, _, hoth⟩ :=
      enterProcess_char cfg orc now (cache_plane_live_meta s.planeCache p)
        s.adsbdbCache s.lastDistM k p
    show pcDisplay (enterProcess cfg orc now (cache_plane_live_meta s.planeCache p)
      s.adsbdbCache s.lastDistM k p).1 x = _
    exact (hoth x hx).trans (cache_plane_live_meta_pcDisplay _ _ _)
  · rw [processInsideOne_old_eq cfg orc now s evs k p v hnew]
    dsimp only
    exact cache_plane_live_meta_pcDisplay _ _ _

theorem processInsideOne_ovhCount (cfg : Config) (orc : Oracles) (now : ℚ)
    (s : TrackerState) (evs : List (Event EventMeta)) (k : String) (p : PlaneObs)
    (x : String) :
    ((processInsideOne cfg orc now (s, evs) (k, p)).2.countP (ovhFor x) =
        evs.countP (ovhFor x) ∧
      (processInsideOne cfg orc now (s, evs) (k, p)).1.lastOverheadSent x =
        s.lastOverheadSent x) ∨
    (x = k ∧ can_send_overhead cfg s.lastOverheadSent k now = true ∧
      (processInsideOne cfg orc now (s, evs) (k, p)).2.countP (ovhFor x) =
        evs.countP (ovhFor x) + 1 ∧
      (processInsideOne cfg orc now (s, evs) (k, p)).1.lastOverheadSent x = some now) := by
  rcases hnew : alookup k s.inside with _ | v
  · rw [processInsideOne_new_eq cfg orc now s evs k p hnew]
    dsimp only
    obtain ⟨hee, hei, _, _⟩ :=
      enterProcess_char cfg orc now (cache_plane_live_meta s.planeCache p)
        s.adsbdbCache s.lastDistM k p
    have hcnt_enter : ovhFor x (enterProcess cfg orc now (cache_plane_live_meta s.planeCache p)
        s.adsbdbCache s.lastDistM k p).2.2 = false := by
      simp [ovhFor, hee]
    rcases overheadStep_char cfg now
        { s with inside := pyInsert k now s.inside
                 outsidePolls := fupd s.outsidePolls k 0
                 planeCache := (enterProcess cfg orc now (cache_plane_live_meta s.planeCache p)
                   s.adsbdbCache s.lastDistM k p).1
                 adsbdbCache := (enterProcess cfg orc now (cache_plane_live_meta s.planeCache p)
                   s.adsbdbCache s.lastDistM k p).2.1 }
        (enterProcess cfg orc now (cache_plane_live_meta s.planeCache p)
          s.adsbdbCache s.lastDistM k p).1 k p with
      hov | ⟨hcs, ev, hoeq, hoev, hoid, hodisp⟩
    · left
      rw [hov]
      constructor
      · simp [List.countP_append, hcnt_enter, List.countP_cons]
      · rfl
    · rw [hoeq]
      by_cases hx : x = k
      · subst hx
        refine Or.inr ⟨rfl, hcs, ?_, ?_⟩
        · have hcnt_ovh : ovhFor x ev = true := by simp [ovhFor, hoev, hoid]
          simp [List.countP_append, hcnt_enter, List.countP_cons, hcnt_ovh]
        · show fupd _ x now x = some now
          exact fupd_self _ _ _
      · left
        have hcnt_ovh : ovhFor x ev = false := by
          simp only [ovhFor, decide_eq_false_iff_not]
          intro ⟨_, hid⟩
          exact hx (hid.symm.trans hoid)
        constructor
        · simp [List.countP_append, hcnt_enter, List.countP_cons, hcnt_ovh]
        · show fupd _ k now x = _
          exact fupd_ne _ _ _ _ hx
  · rw [processInsideOne_old_eq cfg orc now s evs k p v hnew]
    dsimp only
    rcases overheadStep_char cfg now
        { s with inside := pyInsert k now s.inside
                 outsidePolls := fupd s.outsidePolls k 0
                 planeCache := cache_plane_live_meta s.planeCache p
                 adsbdbCache := s.adsbdbCache }
        (cache_plane_live_meta s.planeCache p) k p with
      hov | ⟨hcs, ev, hoeq, hoev, hoid, hodisp⟩
    · left
      rw [hov]
      exact ⟨by simp [List.countP_append], rfl⟩
    · rw [hoeq]
      by_cases hx : x = k
      · subst hx
        refine Or.inr ⟨rfl, hcs, ?_, ?_⟩
        · have hcnt_ovh : ovhFor x ev = true := by simp [ovhFor, hoev, hoid]
          simp [List.countP_append, List.countP_cons, hcnt_ovh]
        · show fupd _ x now x = some now
          exact fupd_self _ _ _
      · left
        have hcnt_ovh : ovhFor x ev = false := by
          simp only [ovhFor, decide_eq_false_iff_not]
          intro ⟨_, hid⟩
          exact hx (hid.symm.trans hoid)
        constructor
        · simp [List.countP_append, List.countP_cons, hcnt_ovh]
        · show fupd _ k now x = _
          exact fupd_ne _ _ _ _ hx

/-! ## EXIT-loop lemmas -/

theorem exitEvent_fields (cfg : Config) (s2 : TrackerState) (polls : String → Option ℕ)
    (k : String) (reason : String) :
    (exitEvent cfg s2 polls k reason).event = EvKind.EXIT ∧
    (exitEvent cfg s2 polls k reason).id = k ∧
    (exitEvent cfg s2 polls k reason).meta.reason = some reason ∧
    (exitEvent cfg s2 polls k reason).meta.display = displayFilter (pcDisplay s2.planeCache k) :=
  ⟨rfl, rfl, rfl, rfl⟩

theorem exitFoldStep_cases (cfg : Config) (now : ℚ) (seen : String → Option PlaneObs)
    (ci : List (String × PlaneObs)) (s2 : TrackerState)
    (polls : String → Option ℕ) (evs : List (Event EventMeta)) (rm : List String)
    (k : String) (t : ℚ) :
    (let cnt' : ℕ := if cfg.radius_exit_m ≤ (s2.lastDistM k).getD 9000000000
       then (polls k).getD 0 + 1 else 0
     ((alookup k ci).isSome = true ∧
        exitFoldStep cfg now seen ci s2 (polls, evs, rm) (k, t) = (polls, evs, rm)) ∨
     ((alookup k ci).isSome = false ∧ (seen k).isSome = true ∧
        cnt' < cfg.exit_confirm_polls ∧
        exitFoldStep cfg now seen ci s2 (polls, evs, rm) (k, t) =
          (fupd polls k cnt', evs, rm)) ∨
     ((alookup k ci).isSome = false ∧ (seen k).isSome = true ∧
        cfg.exit_confirm_polls ≤ cnt' ∧
        exitFoldStep cfg now seen ci s2 (polls, evs, rm) (k, t) =
          (fupd polls k cnt',
           evs ++ [exitEvent cfg s2 (fupd polls k cnt') k "out_of_radius"], rm ++ [k])) ∨
     ((alookup k ci).isSome = false ∧ seen k = none ∧
        now - max t ((s2.lastSeenAny k).getD 0) < cfg.disappear_grace_seconds ∧
        exitFoldStep cfg now seen ci s2 (polls, evs, rm) (k, t) = (polls, evs, rm)) ∨
     ((alookup k ci).isSome = false ∧ seen k = none ∧
        cfg.disappear_grace_seconds ≤ now - max t ((s2.lastSeenAny k).getD 0) ∧
        exitFoldStep cfg now seen ci s2 (polls, evs, rm) (k, t) =
          (polls, evs ++ [exitEvent cfg s2 polls k "signal_lost"], rm ++ [k]))) := by
  dsimp only
  unfold exitFoldStep
  dsimp only
  by_cases h1 : (alookup k ci).isSome = true
  · rw [if_pos h1]
    exact Or.inl ⟨h1, rfl⟩
  · have h1' : (alookup k ci).isSome = false := Bool.eq_false_iff.mpr h1
    rw [if_neg h1]
    by_cases h2 : (seen k).isSome = true
    · rw [if_pos h2]
      by_cases h3 : cfg.radius_exit_m ≤ (s2.lastDistM k).getD 9000000000
      · rw [if_pos h3]
        by_cases h4 : (polls k).getD 0 + 1 < cfg.exit_confirm_polls
        · rw [if_pos h4]
          exact Or.inr (Or.inl ⟨h1', h2, h4, rfl⟩)
        · rw [if_neg h4]
          exact Or.inr (Or.inr (Or.inl ⟨h1', h2, Nat.le_of_not_lt h4, rfl⟩))
      · rw [if_neg h3]
        by_cases h4 : 0 < cfg.exit_confirm_polls
        · rw [if_pos h4]
          exact Or.inr (Or.inl ⟨h1', h2, h4, rfl⟩)
        · rw [if_neg h4]
          exact Or.inr (Or.inr (Or.inl ⟨h1', h2, Nat.le_of_not_lt h4, rfl⟩))
    · have h2' : seen k = none := by
        rcases hs : seen k with _ | q
        · rfl
        · rw [hs] at h2; exact absurd rfl h2
      rw [if_neg h2]
      by_cases h3 : now - max t ((s2.lastSeenAny k).getD 0) < cfg.disappear_grace_seconds
      · rw [if_pos h3]
        exact Or.inr (Or.inr (Or.inr (Or.inl ⟨h1', h2', h3, rfl⟩)))
      · rw [if_neg h3]
        exact Or.inr (Or.inr (Or.inr (Or.inr ⟨h1', h2', le_of_not_lt h3, rfl⟩)))

/-- The outside-polls slot of another aircraft is untouched by one EXIT-loop
step, its appended events carry the processed key, and `to_remove` grows only
by that key. -/
theorem exitFoldStep_frame (cfg : Config) (now : ℚ) (seen : String → Option PlaneObs)
    (ci : List (String × PlaneObs)) (s2 : TrackerState)
    (polls : String → Option ℕ) (evs : List (Event EventMeta)) (rm : List String)
    (k : String) (t : ℚ) :
    ∃ devs drm,
      exitFoldStep cfg now seen ci s2 (polls, evs, rm) (k, t) =
        ((exitFoldStep cfg now seen ci s2 (polls, evs, rm) (k, t)).1,
         evs ++ devs, rm ++ drm) ∧
      (∀ ev ∈ devs, ev.id = k ∧ ev.event = EvKind.EXIT) ∧
      (∀ x ∈ drm, x = k) ∧
      (∀ x, x ≠ k →
        (exitFoldStep cfg now seen ci s2 (polls, evs, rm) (k, t)).1 x = polls x) := by
  have hc := exitFoldStep_cases cfg now seen ci s2 polls evs rm k t
  dsimp only at hc
  rcases hc with ⟨_, heq⟩ | ⟨_, _, _, heq⟩ | ⟨_, _, _, heq⟩ | ⟨_, _, _, heq⟩ | ⟨_, _, _, heq⟩ <;>
    rw [heq]
  · exact ⟨[], [], by simp, by simp, by simp, fun x hx => rfl⟩
  · exact ⟨[], [], by simp, by simp, by simp, fun x hx => fupd_ne _ _ _ _ hx⟩
  · refine ⟨[exitEvent cfg s2
        (fupd polls k (if cfg.radius_exit_m ≤ (s2.lastDistM k).getD 9000000000
          then (polls k).getD 0 + 1 else 0)) k "out_of_radius"], [k], by simp, ?_, by simp,
      fun x hx => fupd_ne _ _ _ _ hx⟩
    intro ev hev
    simp only [List.mem_singleton] at hev
    subst hev
    exact ⟨rfl, rfl⟩
  · exact ⟨[], [], by simp, by simp, by simp, fun x hx => rfl⟩
  · refine ⟨[exitEvent cfg s2 polls k "signal_lost"], [k], by simp, ?_, by simp,
      fun x hx => rfl⟩
    intro ev hev
    simp only [List.mem_singleton] at hev
    subst hev
    exact ⟨rfl, rfl⟩

theorem phase3_evs_mono (cfg : Config) (now : ℚ) (seen : String → Option PlaneObs)
    (ci : List (String × PlaneObs)) (s2 : TrackerState) :
    ∀ (items : List (String × ℚ)) (polls : String → Option ℕ)
      (evs : List (Event EventMeta)) (rm : List String) (ev : Event EventMeta),
      ev ∈ evs → ev ∈ (items.foldl (exitFoldStep cfg now seen ci s2) (polls, evs, rm)).2.1
  | [], polls, evs, rm, ev, h => h
  | (k, t) :: rest, polls, evs, rm, ev, h => by
      simp only [List.foldl_cons]
      obtain ⟨devs, drm, heq, _, _, _⟩ :=
        exitFoldStep_frame cfg now seen ci s2 polls evs rm k t
      rw [heq]
      exact phase3_evs_mono cfg now seen ci s2 rest _ _ _ ev
        (List.mem_append.mpr (Or.inl h))

theorem phase3_absent (cfg : Config) (now : ℚ) (seen : String → Option PlaneObs)
    (ci : List (String × PlaneObs)) (s2 : TrackerState) (id : String) :
    ∀ (items : List (String × ℚ)) (polls : String → Option ℕ)
      (evs : List (Event EventMeta)) (rm : List String),
      alookup id items = none →
      ((items.foldl (exitFoldStep cfg now seen ci s2) (polls, evs, rm)).1 id = polls id ∧
       (∀ ev ∈ (items.foldl (exitFoldStep cfg now seen ci s2) (polls, evs, rm)).2.1,
          ev ∈ evs ∨ ev.id ≠ id) ∧
       (id ∈ (items.foldl (exitFoldStep cfg now seen ci s2) (polls, evs, rm)).2.2 ↔ id ∈ rm))
  | [], polls, evs, rm, h => ⟨rfl, fun ev hev => Or.inl hev, Iff.rfl⟩
  | (k, t) :: rest, polls, evs, rm, h => by
      have hk : k ≠ id := by
        intro hkk
        rw [show alookup id ((k, t) :: rest) = if k = id then some t else alookup id rest
          from rfl, if_pos hkk] at h
        cases h
      have hrest : alookup id rest = none := by
        rw [show alookup id ((k, t) :: rest) = if k = id then some t else alookup id rest
          from rfl, if_neg hk] at h
        exact h
      simp only [List.foldl_cons]
      obtain ⟨devs, drm, heq, hdevs, hdrm, hframe⟩ :=
        exitFoldStep_frame cfg now seen ci s2 polls evs rm k t
      rw [heq]
      obtain ⟨ih1, ih2, ih3⟩ := phase3_absent cfg now seen ci s2 id rest _ _ _ hrest
      refine ⟨?_, ?_, ?_⟩
      · rw [ih1]
        exact hframe id (fun hh => hk hh.symm)
      · intro ev hev
        rcases ih2 ev hev with hin | hne
        · rcases List.mem_append.mp hin with hin | hin
          · exact Or.inl hin
          · refine Or.inr ?_
            rw [(hdevs ev hin).1]
            exact hk
        · exact Or.inr hne
      · rw [ih3]
        constructor
        · intro hh
          rcases List.mem_append.mp hh with hh | hh
          · exact hh
          · exact absurd (hdrm id hh).symm hk
        · intro hh
          exact List.mem_append.mpr (Or.inl hh)

theorem phase3_events (cfg : Config) (now : ℚ) (seen : String → Option PlaneObs)
    (ci : List (String × PlaneObs)) (s2 : TrackerState) :
    ∀ (items : List (String × ℚ)) (polls : String → Option ℕ)
      (evs : List (Event EventMeta)) (rm : List String), keysND items →
      ∀ ev ∈ (items.foldl (exitFoldStep cfg now seen ci s2) (polls, evs, rm)).2.1,
        ev ∈ evs ∨
          ∃ t, (ev.id, t) ∈ items ∧ (alookup ev.id ci).isSome = false ∧
            ev.event = EvKind.EXIT ∧
            ev.meta.display = displayFilter (pcDisplay s2.planeCache ev.id) ∧
            (((seen ev.id).isSome = true ∧ ev.meta.reason = some "out_of_radius" ∧
               cfg.exit_confirm_polls ≤
                 (if cfg.radius_exit_m ≤ (s2.lastDistM ev.id).getD 9000000000
                  then (polls ev.id).getD 0 + 1 else 0)) ∨
             (seen ev.id = none ∧ ev.meta.reason = some "signal_lost" ∧
               cfg.disappear_grace_seconds ≤ now - max t ((s2.lastSeenAny ev.id).getD 0)))
  | [], polls, evs, rm, hnd, ev, hev => Or.inl hev
  | (k, t) :: rest, polls, evs, rm, hnd, ev, hev => by
      have hndr : keysND rest := (List.nodup_cons.mp hnd).2
      have hknr : k ∉ rest.map Prod.fst := (List.nodup_cons.mp hnd).1
      simp only [List.foldl_cons] at hev
      have hc := exitFoldStep_cases cfg now seen ci s2 polls evs rm k t
      dsimp only at hc
      rcases hc with ⟨hci, heq⟩ | ⟨hci, hseen, hlt, heq⟩ | ⟨hci, hseen, hge, heq⟩ |
        ⟨hci, hseen, hlt, heq⟩ | ⟨hci, hseen, hge, heq⟩
      all_goals rw [heq] at hev
      -- cases where no event is appended and polls is unchanged at other keys
      case inl =>
        rcases phase3_events cfg now seen ci s2 rest polls evs rm hndr ev hev with h | ⟨t', hm, hrest⟩
        · exact Or.inl h
        · exact Or.inr ⟨t', List.mem_cons_of_mem _ hm, hrest⟩
      case inr.inl =>
        rcases phase3_events cfg now seen ci s2 rest _ evs rm hndr ev hev with h | ⟨t', hm, hf, hx, hd, hcond⟩
        · exact Or.inl h
        · have hne : ev.id ≠ k := by
            intro hh
            exact hknr (hh ▸ List.mem_map.mpr ⟨(ev.id, t'), hm, rfl⟩)
          rw [fupd_ne _ _ _ _ hne] at hcond
          exact Or.inr ⟨t', List.mem_cons_of_mem _ hm, hf, hx, hd, hcond⟩
      case inr.inr.inl =>
        rcases phase3_events cfg now seen ci s2 rest _ _ _ hndr ev hev with h | ⟨t', hm, hf, hx, hd, hcond⟩
        · rcases List.mem_append.mp h with h | h
          · exact Or.inl h
          · simp only [List.mem_singleton] at h
            subst h
            obtain ⟨he1, he2, he3, he4⟩ := exitEvent_fields cfg s2
              (fupd polls k (if cfg.radius_exit_m ≤ (s2.lastDistM k).getD 9000000000
                then (polls k).getD 0 + 1 else 0)) k "out_of_radius"
            rw [he2]
            exact Or.inr ⟨t, List.mem_cons_self _ _, hci, he1, he4,
              Or.inl ⟨hseen, he3, hge⟩⟩
        · have hne : ev.id ≠ k := by
            intro hh
            exact hknr (hh ▸ List.mem_map.mpr ⟨(ev.id, t'), hm, rfl⟩)
          rw [fupd_ne _ _ _ _ hne] at hcond
          exact Or.inr ⟨t', List.mem_cons_of_mem _ hm, hf, hx, hd, hcond⟩
      case inr.inr.inr.inl =>
        rcases phase3_events cfg now seen ci s2 rest polls evs rm hndr ev hev with h | ⟨t', hm, hrest⟩
        · exact Or.inl h
        · exact Or.inr ⟨t', List.mem_cons_of_mem _ hm, hrest⟩
      case inr.inr.inr.inr =>
        rcases phase3_events cfg now seen ci s2 rest polls _ _ hndr ev hev with h | ⟨t', hm, hrest⟩
        · rcases List.mem_append.mp h with h | h
          · exact Or.inl h
          · simp only [List.mem_singleton] at h
            subst h
            obtain ⟨he1, he2, he3, he4⟩ := exitEvent_fields cfg s2 polls k "signal_lost"
            rw [he2]
            exact Or.inr ⟨t, List.mem_cons_self _ _, hci, he1, he4,
              Or.inr ⟨hseen, he3, hge⟩⟩
        · exact Or.inr ⟨t', List.mem_cons_of_mem _ hm, hrest⟩

theorem phase3_counter (cfg : Config) (now : ℚ) (seen : String → Option PlaneObs)
    (ci : List (String × PlaneObs)) (s2 : TrackerState) (id : String) :
    ∀ (items : List (String × ℚ)) (polls : String → Option ℕ)
      (evs : List (Event EventMeta)) (rm : List String), keysND items →
      ∀ t, (id, t) ∈ items →
      (items.foldl (exitFoldStep cfg now seen ci s2) (polls, evs, rm)).1 id =
        (if (alookup id ci).isSome then polls id
         else if (seen id).isSome then
           some (if cfg.radius_exit_m ≤ (s2.lastDistM id).getD 9000000000
                 then (polls id).getD 0 + 1 else 0)
         else polls id)
  | [], polls, evs, rm, hnd, t, hm => absurd hm (List.not_mem_nil _)
  | (k, t') :: rest, polls, evs, rm, hnd, t, hm => by
      have hndr : keysND rest := (List.nodup_cons.mp hnd).2
      have hknr : k ∉ rest.map Prod.fst := (List.nodup_cons.mp hnd).1
      simp only [List.foldl_cons]
      rcases List.mem_cons.mp hm with hm | hm
      · -- head entry is (id, t)
        injection hm with hm1 hm2
        subst hm1
        have hidr : alookup id rest = none := by
          rw [alookup_eq_none]
          exact hknr
        have hc := exitFoldStep_cases cfg now seen ci s2 polls evs rm id t'
        dsimp only at hc
        rcases hc with ⟨hci, heq⟩ | ⟨hci, hseen, hlt, heq⟩ | ⟨hci, hseen, hge, heq⟩ |
          ⟨hci, hseen, hlt, heq⟩ | ⟨hci, hseen, hge, heq⟩
        all_goals rw [heq, (phase3_absent cfg now seen ci s2 id rest _ _ _ hidr).1]
        · rw [if_pos hci]
        · simp [hci, hseen, fupd_self]
        · simp [hci, hseen, fupd_self]
        · simp [hci, hseen]
        · simp [hci, hseen]
      · -- head entry has another key
        have hne : id ≠ k := by
          intro hh
          exact hknr (hh ▸ List.mem_map.mpr ⟨(id, t), hm, rfl⟩)
        obtain ⟨devs, drm, heq, _, _, hframe⟩ :=
          exitFoldStep_frame cfg now seen ci s2 polls evs rm k t'
        rw [heq]
        rw [phase3_counter cfg now seen ci s2 id rest _ _ _ hndr t hm,
          hframe id hne]

theorem phase3_rm (cfg : Config) (now : ℚ) (seen : String → Option PlaneObs)
    (ci : List (String × PlaneObs)) (s2 : TrackerState) (id : String) :
    ∀ (items : List (String × ℚ)) (polls : String → Option ℕ)
      (evs : List (Event EventMeta)) (rm : List String), keysND items →
      (id ∈ (items.foldl (exitFoldStep cfg now seen ci s2) (polls, evs, rm)).2.2 ↔
        id ∈ rm ∨ ∃ t, (id, t) ∈ items ∧ (alookup id ci).isSome = false ∧
          (((seen id).isSome = true ∧
             cfg.exit_confirm_polls ≤
               (if cfg.radius_exit_m ≤ (s2.lastDistM id).getD 9000000000
                then (polls id).getD 0 + 1 else 0)) ∨
           (seen id = none ∧
             cfg.disappear_grace_seconds ≤ now - max t ((s2.lastSeenAny id).getD 0))))
  | [], polls, evs, rm, hnd => by simp
  | (k, t') :: rest, polls, evs, rm, hnd => by
      have hndr : keysND rest := (List.nodup_cons.mp hnd).2
      have hknr : k ∉ rest.map Prod.fst := (List.nodup_cons.mp hnd).1
      simp only [List.foldl_cons]
      by_cases hk : k = id
      · subst hk
        have hidr : alookup k rest = none := by
          rw [alookup_eq_none]; exact hknr
        have hnomem : ∀ t, ¬ ((k, t) ∈ rest) := by
          intro t hmem
          exact hknr (List.mem_map.mpr ⟨(k, t), hmem, rfl⟩)
        have hc := exitFoldStep_cases cfg now seen ci s2 polls evs rm k t'
        dsimp only at hc
        rcases hc with ⟨hci, heq⟩ | ⟨hci, hseen, hlt, heq⟩ | ⟨hci, hseen, hge, heq⟩ |
          ⟨hci, hseen, hlt, heq⟩ | ⟨hci, hseen, hge, heq⟩
        all_goals rw [heq, (phase3_absent cfg now seen ci s2 k rest _ _ _ hidr).2.2]
        · constructor
          · exact Or.inl
          · rintro (h | ⟨t, hmem, hf, _⟩)
            · exact h
            · rw [hci] at hf; cases hf
        · constructor
          · exact Or.inl
          · rintro (h | ⟨t, hmem, hf, hcond⟩)
            · exact h
            · rcases List.mem_cons.mp hmem with hh | hh
              · injection hh with hh1 hh2
                rcases hcond with ⟨_, hge'⟩ | ⟨hno, _⟩
                · exact absurd hge' (Nat.not_le_of_lt hlt)
                · rw [hno] at hseen; cases hseen
              · exact absurd hh (hnomem t)
        · constructor
          · intro _
            exact Or.inr ⟨t', List.mem_cons_self _ _, hci, Or.inl ⟨hseen, hge⟩⟩
          · intro _
            simp
        · constructor
          · exact Or.inl
          · rintro (h | ⟨t, hmem, hf, hcond⟩)
            · exact h
            · rcases List.mem_cons.mp hmem with hh | hh
              · injection hh with hh1 hh2
                subst hh2
                rcases hcond with ⟨hsome, _⟩ | ⟨_, hge'⟩
                · rw [hseen] at hsome; cases hsome
                · exact absurd hge' (not_le_of_lt hlt)
              · exact absurd hh (hnomem t)
        · constructor
          · intro _
            exact Or.inr ⟨t', List.mem_cons_self _ _, hci, Or.inr ⟨hseen, hge⟩⟩
          · intro _
            simp
      · obtain ⟨devs, drm, heq, _, hdrm, hframe⟩ :=
          exitFoldStep_frame cfg now seen ci s2 polls evs rm k t'
        rw [heq, phase3_rm cfg now seen ci s2 id rest _ _ _ hndr,
          hframe id (fun hh => hk hh.symm)]
        constructor
        · rintro (h | h)
          · rcases List.mem_append.mp h with h | h
            · exact Or.inl h
            · exact absurd (hdrm id h).symm (fun hh => hk hh)
          · rcases h with ⟨t, hmem, hrest⟩
            exact Or.inr ⟨t, List.mem_cons_of_mem _ hmem, hrest⟩
        · rintro (h | ⟨t, hmem, hrest⟩)
          · exact Or.inl (List.mem_append.mpr (Or.inl h))
          · rcases List.mem_cons.mp hmem with hh | hh
            · injection hh with hh1 hh2
              exact absurd hh1.symm hk
            · exact Or.inr ⟨t, hh, hrest⟩

theorem phase3_emit (cfg : Config) (now : ℚ) (seen : String → Option PlaneObs)
    (ci : List (String × PlaneObs)) (s2 : TrackerState) (id : String) :
    ∀ (items : List (String × ℚ)) (polls : String → Option ℕ)
      (evs : List (Event EventMeta)) (rm : List String), keysND items →
      ∀ t, (id, t) ∈ items → (alookup id ci).isSome = false →
      (((seen id).isSome = true ∧
         cfg.exit_confirm_polls ≤
           (if cfg.radius_exit_m ≤ (s2.lastDistM id).getD 9000000000
            then (polls id).getD 0 + 1 else 0)) ∨
       (seen id = none ∧
         cfg.disappear_grace_seconds ≤ now - max t ((s2.lastSeenAny id).getD 0))) →
      ∃ ev ∈ (items.foldl (exitFoldStep cfg now seen ci s2) (polls, evs, rm)).2.1,
        ev.event = EvKind.EXIT ∧ ev.id = id
  | [], polls, evs, rm, hnd, t, hm, _, _ => absurd hm (List.not_mem_nil _)
  | (k, t') :: rest, polls, evs, rm, hnd, t, hm, hci, hcond => by
      have hndr : keysND rest := (List.nodup_cons.mp hnd).2
      have hknr : k ∉ rest.map Prod.fst := (List.nodup_cons.mp hnd).1
      simp only [List.foldl_cons]
      rcases List.mem_cons.mp hm with hm | hm
      · injection hm with hm1 hm2
        subst hm1
        subst hm2
        have hc := exitFoldStep_cases cfg now seen ci s2 polls evs rm id t
        dsimp only at hc
        rcases hc with ⟨hci', heq⟩ | ⟨hci', hseen, hlt, heq⟩ | ⟨hci', hseen, hge, heq⟩ |
          ⟨hci', hseen, hlt, heq⟩ | ⟨hci', hseen, hge, heq⟩
        · rw [hci] at hci'; cases hci'
        · rcases hcond with ⟨_, hge'⟩ | ⟨hno, _⟩
          · exact absurd hge' (Nat.not_le_of_lt hlt)
          · rw [hno] at hseen; cases hseen
        · rw [heq]
          refine ⟨exitEvent cfg s2
            (fupd polls id (if cfg.radius_exit_m ≤ (s2.lastDistM id).getD 9000000000
              then (polls id).getD 0 + 1 else 0)) id "out_of_radius", ?_, rfl, rfl⟩
          exact phase3_evs_mono cfg now seen ci s2 rest _ _ _ _
            (List.mem_append.mpr (Or.inr (List.mem_singleton.mpr rfl)))
        · rcases hcond with ⟨hsome, _⟩ | ⟨_, hge'⟩
          · rw [hseen] at hsome; cases hsome
          · exact absurd hge' (not_le_of_lt hlt)
        · rw [heq]
          refine ⟨exitEvent cfg s2 polls id "signal_lost", ?_, rfl, rfl⟩
          exact phase3_evs_mono cfg now seen ci s2 rest _ _ _ _
            (List.mem_append.mpr (Or.inr (List.mem_singleton.mpr rfl)))
      · have hne : id ≠ k := by
          intro hh
          exact hknr (hh ▸ List.mem_map.mpr ⟨(id, t), hm, rfl⟩)
        obtain ⟨devs, drm, heq, _, _, hframe⟩ :=
          exitFoldStep_frame cfg now seen ci s2 polls evs rm k t'
        rw [heq]
        apply phase3_emit cfg now seen ci s2 id rest _ _ _ hndr t hm hci
        rw [hframe id hne]
        exact hcond

/-! ## Inside-loop fold lemmas -/

theorem phase2_state (cfg : Config) (orc : Oracles) (now : ℚ) :
    ∀ (ci : List (String × PlaneObs)) (s : TrackerState) (evs : List (Event EventMeta)),
      (ci.foldl (processInsideOne cfg orc now) (s, evs)).1.lastSeenAny = s.lastSeenAny ∧
      (ci.foldl (processInsideOne cfg orc now) (s, evs)).1.lastDistM = s.lastDistM ∧
      (ci.foldl (processInsideOne cfg orc now) (s, evs)).1.lastPosition = s.lastPosition
  | [], s, evs => ⟨rfl, rfl, rfl⟩
  | (k, p) :: rest, s, evs => by
      simp only [List.foldl_cons]
      obtain ⟨h1, h2, h3, _, _⟩ := processInsideOne_state cfg orc now s evs k p
      have heta : processInsideOne cfg orc now (s, evs) (k, p) =
          ((processInsideOne cfg orc now (s, evs) (k, p)).1,
           (processInsideOne cfg orc now (s, evs) (k, p)).2) := rfl
      rw [heta]
      obtain ⟨ih1, ih2, ih3⟩ := phase2_state cfg orc now rest _ _
      exact ⟨ih1.trans h1, ih2.trans h2, ih3.trans h3⟩

theorem phase2_inside (cfg : Config) (orc : Oracles) (now : ℚ) :
    ∀ (ci : List (String × PlaneObs)) (s : TrackerState) (evs : List (Event EventMeta))
      (x : String),
      alookup x (ci.foldl (processInsideOne cfg orc now) (s, evs)).1.inside =
        if (alookup x ci).isSome then some now else alookup x s.inside
  | [], s, evs, x => by simp [alookup]
  | (k, p) :: rest, s, evs, x => by
      simp only [List.foldl_cons]
      have heta : processInsideOne cfg orc now (s, evs) (k, p) =
          ((processInsideOne cfg orc now (s, evs) (k, p)).1,
           (processInsideOne cfg orc now (s, evs) (k, p)).2) := rfl
      rw [heta, phase2_inside cfg orc now rest _ _ x]
      obtain ⟨_, _, _, h4, _⟩ := processInsideOne_state cfg orc now s evs k p
      rw [h4]
      by_cases hx : x = k
      · subst hx
        have hcons : (alookup x ((x, p) :: rest)).isSome = true := by simp [alookup]
        conv_rhs => rw [if_pos hcons]
        split
        · rfl
        · rw [alookup_pyInsert_self]
      · have hcons : alookup x ((k, p) :: rest) = alookup x rest := by
          show (if k = x then some p else alookup x rest) = alookup x rest
          rw [if_neg (fun hh => hx hh.symm)]
        rw [hcons, alookup_pyInsert_ne _ _ _ hx]

theorem phase2_polls (cfg : Config) (orc : Oracles) (now : ℚ) :
    ∀ (ci : List (String × PlaneObs)) (s : TrackerState) (evs : List (Event EventMeta))
      (x : String),
      (ci.foldl (processInsideOne cfg orc now) (s, evs)).1.outsidePolls x =
        if (alookup x ci).isSome then some 0 else s.outsidePolls x
  | [], s, evs, x => by simp [alookup]
  | (k, p) :: rest, s, evs, x => by
      simp only [List.foldl_cons]
      have heta : processInsideOne cfg orc now (s, evs) (k, p) =
          ((processInsideOne cfg orc now (s, evs) (k, p)).1,
           (processInsideOne cfg orc now (s, evs) (k, p)).2) := rfl
      rw [heta, phase2_polls cfg orc now rest _ _ x]
      obtain ⟨_, _, _, _, h5⟩ := processInsideOne_state cfg orc now s evs k p
      rw [h5]
      by_cases hx : x = k
      · subst hx
        have hcons : (alookup x ((x, p) :: rest)).isSome = true := by simp [alookup]
        conv_rhs => rw [if_pos hcons]
        split
        · rfl
        · rw [fupd_self]
      · have hcons : alookup x ((k, p) :: rest) = alookup x rest := by
          show (if k = x then some p else alookup x rest) = alookup x rest
          rw [if_neg (fun hh => hx hh.symm)]
        rw [hcons, fupd_ne _ _ _ _ hx]

theorem phase2_keysND (cfg : Config) (orc : Oracles) (now : ℚ) :
    ∀ (ci : List (String × PlaneObs)) (s : TrackerState) (evs : List (Event EventMeta)),
      keysND s.inside →
      keysND (ci.foldl (processInsideOne cfg orc now) (s, evs)).1.inside
  | [], s, evs, h => h
  | (k, p) :: rest, s, evs, h => by
      simp only [List.foldl_cons]
      have heta : processInsideOne cfg orc now (s, evs) (k, p) =
          ((processInsideOne cfg orc now (s, evs) (k, p)).1,
           (processInsideOne cfg orc now (s, evs) (k, p)).2) := rfl
      rw [heta]
      refine phase2_keysND cfg orc now rest _ _ ?_
      obtain ⟨_, _, _, h4, _⟩ := processInsideOne_state cfg orc now s evs k p
      rw [h4]
      exact keysND_pyInsert _ _ _ h

theorem phase2_evs_prefix (cfg : Config) (orc : Oracles) (now : ℚ) :
    ∀ (ci : List (String × PlaneObs)) (s : TrackerState) (evs : List (Event EventMeta)),
      ∃ tail, (ci.foldl (processInsideOne cfg orc now) (s, evs)).2 = evs ++ tail
  | [], s, evs => ⟨[], (List.append_nil evs).symm⟩
  | (k, p) :: rest, s, evs => by
      simp only [List.foldl_cons]
      have heta : processInsideOne cfg orc now (s, evs) (k, p) =
          ((processInsideOne cfg orc now (s, evs) (k, p)).1,
           (processInsideOne cfg orc now (s, evs) (k, p)).2) := rfl
      rw [heta]
      obtain ⟨delta, hdelta, _, _, _⟩ := processInsideOne_main cfg orc now s evs k p
      obtain ⟨tail, htail⟩ := phase2_evs_prefix cfg orc now rest
        (processInsideOne cfg orc now (s, evs) (k, p)).1
        (processInsideOne cfg orc now (s, evs) (k, p)).2
      rw [htail, hdelta]
      exact ⟨delta ++ tail, by rw [List.append_assoc]⟩

theorem phase2_events (cfg : Config) (orc : Oracles) (now : ℚ) :
    ∀ (ci : List (String × PlaneObs)) (s : TrackerState) (evs : List (Event EventMeta))
      (ev : Event EventMeta),
      ev ∈ (ci.foldl (processInsideOne cfg orc now) (s, evs)).2 →
      ev ∈ evs ∨ ((alookup ev.id ci).isSome = true ∧ ev.event ≠ EvKind.EXIT)
  | [], s, evs, ev, hev => Or.inl hev
  | (k, p) :: rest, s, evs, ev, hev => by
      simp only [List.foldl_cons] at hev
      have heta : processInsideOne cfg orc now (s, evs) (k, p) =
          ((processInsideOne cfg orc now (s, evs) (k, p)).1,
           (processInsideOne cfg orc now (s, evs) (k, p)).2) := rfl
      rw [heta] at hev
      rcases phase2_events cfg orc now rest _ _ ev hev with h | ⟨hsome, hne⟩
      · obtain ⟨delta, hdelta, hdids, _, _⟩ := processInsideOne_main cfg orc now s evs k p
        rw [hdelta] at h
        rcases List.mem_append.mp h with h | h
        · exact Or.inl h
        · obtain ⟨hid, hne⟩ := hdids ev h
          refine Or.inr ⟨?_, hne⟩
          rw [hid]
          simp [alookup]
      · refine Or.inr ⟨?_, hne⟩
        show (if k = ev.id then some p else alookup ev.id rest).isSome = true
        split
        · rfl
        · exact hsome

theorem phase2_ovh_absent (cfg : Config) (orc : Oracles) (now : ℚ) (x : String) :
    ∀ (ci : List (String × PlaneObs)) (s : TrackerState) (evs : List (Event EventMeta)),
      alookup x ci = none →
      (ci.foldl (processInsideOne cfg orc now) (s, evs)).2.countP (ovhFor x) =
        evs.countP (ovhFor x) ∧
      (ci.foldl (processInsideOne cfg orc now) (s, evs)).1.lastOverheadSent x =
        s.lastOverheadSent x
  | [], s, evs, h => ⟨rfl, rfl⟩
  | (k, p) :: rest, s, evs, h => by
      have hk : k ≠ x := by
        intro hkk
        rw [show alookup x ((k, p) :: rest) = if k = x then some p else alookup x rest
          from rfl, if_pos hkk] at h
        cases h
      have hrest : alookup x rest = none := by
        rw [show alookup x ((k, p) :: rest) = if k = x then some p else alookup x rest
          from rfl, if_neg hk] at h
        exact h
      simp only [List.foldl_cons]
      have heta : processInsideOne cfg orc now (s, evs) (k, p) =
          ((processInsideOne cfg orc now (s, evs) (k, p)).1,
           (processInsideOne cfg orc now (s, evs) (k, p)).2) := rfl
      rw [heta]
      obtain ⟨ih1, ih2⟩ := phase2_ovh_absent cfg orc now x rest _ _ hrest
      rcases processInsideOne_ovhCount cfg orc now s evs k p x with ⟨hc, hs⟩ | ⟨hxk, _⟩
      · exact ⟨ih1.trans hc, ih2.trans hs⟩
      · exact absurd hxk (fun hh => hk hh.symm)

theorem phase2_ovh (cfg : Config) (orc : Oracles) (now : ℚ) (x : String) :
    ∀ (ci : List (String × PlaneObs)) (s : TrackerState) (evs : List (Event EventMeta)),
      keysND ci →
      ((ci.foldl (processInsideOne cfg orc now) (s, evs)).2.countP (ovhFor x) =
          evs.countP (ovhFor x) ∧
        (ci.foldl (processInsideOne cfg orc now) (s, evs)).1.lastOverheadSent x =
          s.lastOverheadSent x) ∨
      ((ci.foldl (processInsideOne cfg orc now) (s, evs)).2.countP (ovhFor x) =
          evs.countP (ovhFor x) + 1 ∧
        (ci.foldl (processInsideOne cfg orc now) (s, evs)).1.lastOverheadSent x = some now ∧
        can_send_overhead cfg s.lastOverheadSent x now = true)
  | [], s, evs, hnd => Or.inl ⟨rfl, rfl⟩
  | (k, p) :: rest, s, evs, hnd => by
      have hndr : keysND rest := (List.nodup_cons.mp hnd).2
      have hknr : k ∉ rest.map Prod.fst := (List.nodup_cons.mp hnd).1
      simp only [List.foldl_cons]
      have heta : processInsideOne cfg orc now (s, evs) (k, p) =
          ((processInsideOne cfg orc now (s, evs) (k, p)).1,
           (processInsideOne cfg orc now (s, evs) (k, p)).2) := rfl
      rw [heta]
      by_cases hx : x = k
      · subst hx
        have hrest : alookup x rest = none := by
          rw [alookup_eq_none]
          exact hknr
        obtain ⟨ih1, ih2⟩ := phase2_ovh_absent cfg orc now x rest
          (processInsideOne cfg orc now (s, evs) (x, p)).1
          (processInsideOne cfg orc now (s, evs) (x, p)).2 hrest
        rcases processInsideOne_ovhCount cfg orc now s evs x p x with ⟨hc, hs⟩ |
          ⟨_, hcs, hc, hs⟩
        · exact Or.inl ⟨ih1.trans hc, ih2.trans hs⟩
        · exact Or.inr ⟨ih1.trans hc, ih2.trans hs, hcs⟩
      · rcases processInsideOne_ovhCount cfg orc now s evs k p x with ⟨hc, hs⟩ | ⟨hxk, _⟩
        · rcases phase2_ovh cfg orc now x rest _ _ hndr with ⟨ih1, ih2⟩ | ⟨ih1, ih2, ih3⟩
          · exact Or.inl ⟨ih1.trans hc, ih2.trans hs⟩
          · refine Or.inr ⟨by rw [ih1, hc], ih2, ?_⟩
            unfold can_send_overhead at ih3 ⊢
            rw [hs] at ih3
            exact ih3
        · exact absurd hxk hx

theorem phase2_display_absent (cfg : Config) (orc : Oracles) (now : ℚ) (id : String) :
    ∀ (ci : List (String × PlaneObs)) (s : TrackerState) (evs : List (Event EventMeta)),
      alookup id ci = none →
      pcDisplay (ci.foldl (processInsideOne cfg orc now) (s, evs)).1.planeCache id =
        pcDisplay s.planeCache id ∧
      ∀ ev ∈ (ci.foldl (processInsideOne cfg orc now) (s, evs)).2, ev ∈ evs ∨ ev.id ≠ id
  | [], s, evs, h => ⟨rfl, fun ev hev => Or.inl hev⟩
  | (k, p) :: rest, s, evs, h => by
      have hk : k ≠ id := by
        intro hkk
        rw [show alookup id ((k, p) :: rest) = if k = id then some p else alookup id rest
          from rfl, if_pos hkk] at h
        cases h
      have hrest : alookup id rest = none := by
        rw [show alookup id ((k, p) :: rest) = if k = id then some p else alookup id rest
          from rfl, if_neg hk] at h
        exact h
      simp only [List.foldl_cons]
      have heta : processInsideOne cfg orc now (s, evs) (k, p) =
          ((processInsideOne cfg orc now (s, evs) (k, p)).1,
           (processInsideOne cfg orc now (s, evs) (k, p)).2) := rfl
      rw [heta]
      obtain ⟨ih1, ih2⟩ := phase2_display_absent cfg orc now id rest _ _ hrest
      refine ⟨ih1.trans (processInsideOne_pc_other cfg orc now s evs k p id
        (fun hh => hk hh.symm)), ?_⟩
      intro ev hev
      rcases ih2 ev hev with hmem | hne
      · obtain ⟨delta, hdelta, hdids, _, _⟩ := processInsideOne_main cfg orc now s evs k p
        rw [hdelta] at hmem
        rcases List.mem_append.mp hmem with hmem | hmem
        · exact Or.inl hmem
        · refine Or.inr ?_
          rw [(hdids ev hmem).1]
          exact hk
      · exact Or.inr hne

theorem phase2_display_old (cfg : Config) (orc : Oracles) (now : ℚ) (id : String) :
    ∀ (ci : List (String × PlaneObs)) (s : TrackerState) (evs : List (Event EventMeta)),
      keysND ci →
      alookup id s.inside ≠ none →
      pcDisplay (ci.foldl (processInsideOne cfg orc now) (s, evs)).1.planeCache id =
        pcDisplay s.planeCache id ∧
      ∀ ev ∈ (ci.foldl (processInsideOne cfg orc now) (s, evs)).2, ¬ ev ∈ evs → ev.id = id →
        ev.event = EvKind.OVERHEAD ∧
        ev.meta.display = displayFilter (pcDisplay s.planeCache id)
  | [], s, evs, hnd, hin => ⟨rfl, fun ev hev hnev _ => absurd hev hnev⟩
  | (k, p) :: rest, s, evs, hnd, hin => by
      have hndr : keysND rest := (List.nodup_cons.mp hnd).2
      have hknr : k ∉ rest.map Prod.fst := (List.nodup_cons.mp hnd).1
      simp only [List.foldl_cons]
      have heta : processInsideOne cfg orc now (s, evs) (k, p) =
          ((processInsideOne cfg orc now (s, evs) (k, p)).1,
           (processInsideOne cfg orc now (s, evs) (k, p)).2) := rfl
      rw [heta]
      obtain ⟨delta, hdelta, hdids, hold, _⟩ := processInsideOne_main cfg orc now s evs k p
      by_cases hkd : k = id
      · subst hkd
        have hrest : alookup k rest = none := (alookup_eq_none _ _).mpr hknr
        obtain ⟨ihp, ihe⟩ := phase2_display_absent cfg orc now k rest
          (processInsideOne cfg orc now (s, evs) (k, p)).1
          (processInsideOne cfg orc now (s, evs) (k, p)).2 hrest
        obtain ⟨hpc, hdisp⟩ := hold hin
        refine ⟨ihp.trans hpc, ?_⟩
        intro ev hev hnev hid
        rcases ihe ev hev with hmem | hne
        · rw [hdelta] at hmem
          rcases List.mem_append.mp hmem with hmem | hmem
          · exact absurd hmem hnev
          · exact hdisp ev hmem
        · exact absurd hid hne
      · have hin2 : alookup id
            (processInsideOne cfg orc now (s, evs) (k, p)).1.inside ≠ none := by
          obtain ⟨_, _, _, h4, _⟩ := processInsideOne_state cfg orc now s evs k p
          rw [h4, alookup_pyInsert_ne _ _ _ (fun hh => hkd hh.symm)]
          exact hin
        obtain ⟨ihp, ihe⟩ := phase2_display_old cfg orc now id rest
          (processInsideOne cfg orc now (s, evs) (k, p)).1
          (processInsideOne cfg orc now (s, evs) (k, p)).2 hndr hin2
        have hpck : pcDisplay (processInsideOne cfg orc now (s, evs) (k, p)).1.planeCache id =
            pcDisplay s.planeCache id :=
          processInsideOne_pc_other cfg orc now s evs k p id (fun hh => hkd hh.symm)
        refine ⟨ihp.trans hpck, ?_⟩
        intro ev hev hnev hid
        by_cases hmem : ev ∈ (processInsideOne cfg orc now (s, evs) (k, p)).2
        · rw [hdelta] at hmem
          rcases List.mem_append.mp hmem with hmem | hmem
          · exact absurd hmem hnev
          · exact absurd ((hdids ev hmem).1.symm.trans hid) hkd
        · obtain ⟨h1, h2⟩ := ihe ev hev hmem hid
          rw [hpck] at h2
          exact ⟨h1, h2⟩

theorem phase2_display_new (cfg : Config) (orc : Oracles) (now : ℚ) (id : String) :
    ∀ (ci : List (String × PlaneObs)) (s : TrackerState) (evs : List (Event EventMeta)),
      keysND ci →
      alookup id s.inside = none →
      (alookup id ci).isSome = true →
      ∃ d, d ≠ "" ∧
        pcDisplay (ci.foldl (processInsideOne cfg orc now) (s, evs)).1.planeCache id =
          some d ∧
        (∃ ev ∈ (ci.foldl (processInsideOne cfg orc now) (s, evs)).2,
          ev.event = EvKind.ENTER ∧ ev.id = id ∧ ev.meta.display = some d) ∧
        (∀ ev ∈ (ci.foldl (processInsideOne cfg orc now) (s, evs)).2, ¬ ev ∈ evs →
          ev.id = id → ev.meta.display = some d)
  | [], s, evs, hnd, hin, hci => by cases hci
  | (k, p) :: rest, s, evs, hnd, hin, hci => by
      have hndr : keysND rest := (List.nodup_cons.mp hnd).2
      have hknr : k ∉ rest.map Prod.fst := (List.nodup_cons.mp hnd).1
      simp only [List.foldl_cons]
      have heta : processInsideOne cfg orc now (s, evs) (k, p) =
          ((processInsideOne cfg orc now (s, evs) (k, p)).1,
           (processInsideOne cfg orc now (s, evs) (k, p)).2) := rfl
      rw [heta]
      obtain ⟨delta, hdelta, hdids, _, hnew⟩ := processInsideOne_main cfg orc now s evs k p
      by_cases hkd : k = id
      · subst hkd
        have hrest : alookup k rest = none := (alookup_eq_none _ _).mpr hknr
        obtain ⟨ihp, ihe⟩ := phase2_display_absent cfg orc now k rest
          (processInsideOne cfg orc now (s, evs) (k, p)).1
          (processInsideOne cfg orc now (s, evs) (k, p)).2 hrest
        obtain ⟨d, hd1, hd2, ⟨ev0, hev0, hev0e, hev0d⟩, hall⟩ := hnew hin
        obtain ⟨tail, htail⟩ := phase2_evs_prefix cfg orc now rest
          (processInsideOne cfg orc now (s, evs) (k, p)).1
          (processInsideOne cfg orc now (s, evs) (k, p)).2
        refine ⟨d, hd1, ihp.trans hd2, ?_, ?_⟩
        · refine ⟨ev0, ?_, hev0e, (hdids ev0 hev0).1, hev0d⟩
          rw [htail, hdelta]
          exact List.mem_append.mpr (Or.inl (List.mem_append.mpr (Or.inr hev0)))
        · intro ev hev hnev hid
          rcases ihe ev hev with hmem | hne
          · rw [hdelta] at hmem
            rcases List.mem_append.mp hmem with hmem | hmem
            · exact absurd hmem hnev
            · exact hall ev hmem
          · exact absurd hid hne
      · have hcir : (alookup id rest).isSome = true := by
          rw [show alookup id ((k, p) :: rest) = if k = id then some p else alookup id rest
            from rfl, if_neg hkd] at hci
          exact hci
        have hin2 : alookup id
            (processInsideOne cfg orc now (s, evs) (k, p)).1.inside = none := by
          obtain ⟨_, _, _, h4, _⟩ := processInsideOne_state cfg orc now s evs k p
          rw [h4, alookup_pyInsert_ne _ _ _ (fun hh => hkd hh.symm)]
          exact hin
        obtain ⟨d, hd1, hd2, ⟨ev0, hev0, hev0e, hev0i, hev0d⟩, ihall⟩ :=
          phase2_display_new cfg orc now id rest
            (processInsideOne cfg orc now (s, evs) (k, p)).1
            (processInsideOne cfg orc now (s, evs) (k, p)).2 hndr hin2 hcir
        refine ⟨d, hd1, hd2, ⟨ev0, hev0, hev0e, hev0i, hev0d⟩, ?_⟩
        intro ev hev hnev hid
        by_cases hmem : ev ∈ (processInsideOne cfg orc now (s, evs) (k, p)).2
        · rw [hdelta] at hmem
          rcases List.mem_append.mp hmem with hmem | hmem
          · exact absurd hmem hnev
          · exact absurd ((hdids ev hmem).1.symm.trans hid) hkd
        · exact ihall ev hev hmem hid

/-! ## Eviction fold lemmas -/

theorem evictFold_lastOverheadSent :
    ∀ (rm : List String) (s : TrackerState),
      (rm.foldl evictOne s).lastOverheadSent = s.lastOverheadSent
  | [], s => rfl
  | k :: rest, s => by
      simp only [List.foldl_cons]
      exact evictFold_lastOverheadSent rest (evictOne s k)

theorem evictFold_outsidePolls :
    ∀ (rm : List String) (s : TrackerState) (x : String),
      (rm.foldl evictOne s).outsidePolls x =
        if x ∈ rm then none else s.outsidePolls x
  | [], s, x => by simp
  | k :: rest, s, x => by
      simp only [List.foldl_cons]
      rw [evictFold_outsidePolls rest _ x]
      show (if x ∈ rest then none else fdel s.outsidePolls k x) =
        if x ∈ k :: rest then none else s.outsidePolls x
      simp only [List.mem_cons]
      by_cases hr : x ∈ rest
      · simp [hr]
      · by_cases hk : x = k
        · simp [hr, hk, fdel]
        · simp [hr, hk, fdel]

theorem evictFold_lastSeenAny :
    ∀ (rm : List String) (s : TrackerState) (x : String),
      (rm.foldl evictOne s).lastSeenAny x =
        if x ∈ rm then none else s.lastSeenAny x
  | [], s, x => by simp
  | k :: rest, s, x => by
      simp only [List.foldl_cons]
      rw [evictFold_lastSeenAny rest _ x]
      show (if x ∈ rest then none else fdel s.lastSeenAny k x) =
        if x ∈ k :: rest then none else s.lastSeenAny x
      simp only [List.mem_cons]
      by_cases hr : x ∈ rest
      · simp [hr]
      · by_cases hk : x = k
        · simp [hr, hk, fdel]
        · simp [hr, hk, fdel]

theorem evictFold_planeCache :
    ∀ (rm : List String) (s : TrackerState) (x : String),
      (rm.foldl evictOne s).planeCache x =
        if x ∈ rm then none else s.planeCache x
  | [], s, x => by simp
  | k :: rest, s, x => by
      simp only [List.foldl_cons]
      rw [evictFold_planeCache rest _ x]
      show (if x ∈ rest then none else fdel s.planeCache k x) =
        if x ∈ k :: rest then none else s.planeCache x
      simp only [List.mem_cons]
      by_cases hr : x ∈ rest
      · simp [hr]
      · by_cases hk : x = k
        · simp [hr, hk, fdel]
        · simp [hr, hk, fdel]

theorem evictFold_inside :
    ∀ (rm : List String) (s : TrackerState) (x : String),
      alookup x (rm.foldl evictOne s).inside =
        if x ∈ rm then none else alookup x s.inside
  | [], s, x => by simp
  | k :: rest, s, x => by
      simp only [List.foldl_cons]
      rw [evictFold_inside rest _ x]
      show (if x ∈ rest then none else alookup x (aerase k s.inside)) =
        if x ∈ k :: rest then none else alookup x s.inside
      simp only [List.mem_cons]
      by_cases hr : x ∈ rest
      · simp [hr]
      · by_cases hk : x = k
        · subst hk
          simp [hr, alookup_aerase_self]
        · simp [hr, hk, alookup_aerase_ne k x hk]

theorem evictFold_keysND :
    ∀ (rm : List String) (s : TrackerState),
      keysND s.inside → keysND (rm.foldl evictOne s).inside
  | [], s, h => h
  | k :: rest, s, h => by
      simp only [List.foldl_cons]
      exact evictFold_keysND rest (evictOne s k) (keysND_aerase k s.inside h)

/-! ## Tick-level assembly lemmas -/

theorem tick_events (cfg : Config) (orc : Oracles) (s : TrackerState)
    (planes : List PlaneObs) (now : ℚ) :
    (tick cfg orc s planes now).2 =
      (phase2 cfg orc now (phase1 cfg s planes now).1 (phase1 cfg s planes now).2.2).2 ++
      (phase3 cfg now (phase1 cfg s planes now).2.1 (phase1 cfg s planes now).2.2
        (phase2 cfg orc now (phase1 cfg s planes now).1
          (phase1 cfg s planes now).2.2).1).2.1 := rfl

theorem tick_state (cfg : Config) (orc : Oracles) (s : TrackerState)
    (planes : List PlaneObs) (now : ℚ) :
    (tick cfg orc s planes now).1 =
      (phase3 cfg now (phase1 cfg s planes now).2.1 (phase1 cfg s planes now).2.2
          (phase2 cfg orc now (phase1 cfg s planes now).1
            (phase1 cfg s planes now).2.2).1).2.2.foldl evictOne
        { (phase2 cfg orc now (phase1 cfg s planes now).1
            (phase1 cfg s planes now).2.2).1 with
          outsidePolls :=
            (phase3 cfg now (phase1 cfg s planes now).2.1 (phase1 cfg s planes now).2.2
              (phase2 cfg orc now (phase1 cfg s planes now).1
                (phase1 cfg s planes now).2.2).1).1 } := rfl

theorem phase1_seen (cfg : Config) (s : TrackerState) (planes : List PlaneObs)
    (now : ℚ) (x : String) :
    (phase1 cfg s planes now).2.1 x = obsLast planes x := by
  show (planes.foldl (scanStep cfg now)
    (s.lastSeenAny, s.lastDistM, s.lastPosition, (fun _ => none), [])).2.2.2.1 x = _
  rw [scanFold_seen]
  rcases h : obsLast planes x with _ | p <;> simp

theorem phase1_lsa (cfg : Config) (s : TrackerState) (planes : List PlaneObs)
    (now : ℚ) (x : String) :
    (phase1 cfg s planes now).1.lastSeenAny x =
      if (obsLast planes x).isSome then some now else s.lastSeenAny x := by
  show (planes.foldl (scanStep cfg now)
    (s.lastSeenAny, s.lastDistM, s.lastPosition, (fun _ => none), [])).1 x = _
  rw [scanFold_lsa]

theorem phase1_ldm (cfg : Config) (s : TrackerState) (planes : List PlaneObs)
    (now : ℚ) (x : String) :
    (phase1 cfg s planes now).1.lastDistM x =
      match obsDist planes x with
      | some d => some d
      | none => s.lastDistM x := by
  show (planes.foldl (scanStep cfg now)
    (s.lastSeenAny, s.lastDistM, s.lastPosition, (fun _ => none), [])).2.1 x = _
  rw [scanFold_ldm]

theorem phase1_ci_isSome (cfg : Config) (s : TrackerState) (planes : List PlaneObs)
    (now : ℚ) (x : String) :
    (alookup x (phase1 cfg s planes now).2.2).isSome = true ↔
      ∃ p ∈ planes, p.icao24 = x ∧ p.distM ≤ cfg.radius_m := by
  show (alookup x (planes.foldl (scanStep cfg now)
    (s.lastSeenAny, s.lastDistM, s.lastPosition, (fun _ => none), [])).2.2.2.2).isSome = true ↔ _
  rw [scanFold_ci_isSome]
  constructor
  · rintro (h | h)
    · simp [alookup] at h
    · exact h
  · exact Or.inr

theorem phase1_ci_keysND (cfg : Config) (s : TrackerState) (planes : List PlaneObs)
    (now : ℚ) : keysND (phase1 cfg s planes now).2.2 := by
  show keysND (planes.foldl (scanStep cfg now)
    (s.lastSeenAny, s.lastDistM, s.lastPosition, (fun _ => none), [])).2.2.2.2
  exact scanFold_ci_keysND cfg now planes _ List.nodup_nil

theorem phase1_ci_obs (cfg : Config) (s : TrackerState) (planes : List PlaneObs)
    (now : ℚ) (x : String) (h : (alookup x (phase1 cfg s planes now).2.2).isSome = true) :
    obsLast planes x ≠ none := by
  obtain ⟨p, hp, hpx, _⟩ := (phase1_ci_isSome cfg s planes now x).mp h
  intro hnone
  exact (obsLast_eq_none x planes).mp hnone p hp hpx

theorem tick_keysND (cfg : Config) (orc : Oracles) (s : TrackerState)
    (planes : List PlaneObs) (now : ℚ) (hnd : keysND s.inside) :
    keysND (tick cfg orc s planes now).1.inside := by
  rw [tick_state]
  refine evictFold_keysND _ _ ?_
  show keysND (phase2 cfg orc now (phase1 cfg s planes now).1
    (phase1 cfg s planes now).2.2).1.inside
  exact phase2_keysND cfg orc now _ _ _ hnd

theorem tick_ovh (cfg : Config) (orc : Oracles) (s : TrackerState)
    (planes : List PlaneObs) (now : ℚ) (x : String) (hnd : keysND s.inside) :
    ((tick cfg orc s planes now).2.countP (ovhFor x) = 0 ∧
      (tick cfg orc s planes now).1.lastOverheadSent x = s.lastOverheadSent x) ∨
    ((tick cfg orc s planes now).2.countP (ovhFor x) = 1 ∧
      (tick cfg orc s planes now).1.lastOverheadSent x = some now ∧
      can_send_overhead cfg s.lastOverheadSent x now = true) := by
  rw [tick_events, tick_state, evictFold_lastOverheadSent]
  have hlos : ({ (phase2 cfg orc now (phase1 cfg s planes now).1
      (phase1 cfg s planes now).2.2).1 with
      outsidePolls :=
        (phase3 cfg now (phase1 cfg s planes now).2.1 (phase1 cfg s planes now).2.2
          (phase2 cfg orc now (phase1 cfg s planes now).1
            (phase1 cfg s planes now).2.2).1).1 } : TrackerState).lastOverheadSent =
      (phase2 cfg orc now (phase1 cfg s planes now).1
        (phase1 cfg s planes now).2.2).1.lastOverheadSent := rfl
  rw [hlos]
  have hndci : keysND (phase1 cfg s planes now).2.2 := phase1_ci_keysND cfg s planes now
  have hnd2 : keysND (phase2 cfg orc now (phase1 cfg s planes now).1
      (phase1 cfg s planes now).2.2).1.inside :=
    phase2_keysND cfg orc now _ _ _ hnd
  have h3 : ∀ ev ∈ (phase3 cfg now (phase1 cfg s planes now).2.1
      (phase1 cfg s planes now).2.2
      (phase2 cfg orc now (phase1 cfg s planes now).1
        (phase1 cfg s planes now).2.2).1).2.1, ovhFor x ev = false := by
    intro ev hev
    rcases phase3_events cfg now (phase1 cfg s planes now).2.1
        (phase1 cfg s planes now).2.2
        (phase2 cfg orc now (phase1 cfg s planes now).1
          (phase1 cfg s planes now).2.2).1 _ _ _ _ hnd2 ev hev with h | ⟨t, _, _, hx, _⟩
    · cases h
    · simp [ovhFor, hx]
  have hc3 : (phase3 cfg now (phase1 cfg s planes now).2.1
      (phase1 cfg s planes now).2.2
      (phase2 cfg orc now (phase1 cfg s planes now).1
        (phase1 cfg s planes now).2.2).1).2.1.countP (ovhFor x) = 0 :=
    List.countP_eq_zero.mpr (by
      intro ev hev
      rw [h3 ev hev]
      exact Bool.false_ne_true)
  rw [List.countP_append, hc3, Nat.add_zero]
  have h2 := phase2_ovh cfg orc now x (phase1 cfg s planes now).2.2
    (phase1 cfg s planes now).1 [] hndci
  have hlos1 : (phase1 cfg s planes now).1.lastOverheadSent = s.lastOverheadSent := rfl
  rcases h2 with ⟨hc, hs⟩ | ⟨hc, hs, hcs⟩
  · refine Or.inl ⟨?_, ?_⟩
    · show (phase2 cfg orc now (phase1 cfg s planes now).1
        (phase1 cfg s planes now).2.2).2.countP (ovhFor x) = 0
      exact hc.trans rfl
    · show (phase2 cfg orc now (phase1 cfg s planes now).1
        (phase1 cfg s planes now).2.2).1.lastOverheadSent x = s.lastOverheadSent x
      exact hs.trans (congrFun hlos1 x)
  · refine Or.inr ⟨?_, ?_, ?_⟩
    · show (phase2 cfg orc now (phase1 cfg s planes now).1
        (phase1 cfg s planes now).2.2).2.countP (ovhFor x) = 1
      exact hc.trans rfl
    · exact hs
    · rw [hlos1] at hcs
      exact hcs

theorem runState_ovh_floor (cfg : Config) (orc : Oracles) (x : String) (nA : ℚ) :
    ∀ (mid : List (List PlaneObs × ℚ)) (s : TrackerState) (v : ℚ),
      keysND s.inside → s.lastOverheadSent x = some v → nA ≤ v →
      (∀ t ∈ mid, nA ≤ t.2) →
      ∃ v', nA ≤ v' ∧ (runState cfg orc s mid).lastOverheadSent x = some v' ∧
        keysND (runState cfg orc s mid).inside
  | [], s, v, hnd, hs, hv, _ => ⟨v, hv, hs, hnd⟩
  | (p, n) :: rest, s, v, hnd, hs, hv, hmid => by
      simp only [runState]
      have hnd' := tick_keysND cfg orc s p n hnd
      rcases tick_ovh cfg orc s p n x hnd with ⟨_, hkeep⟩ | ⟨_, hset, _⟩
      · exact runState_ovh_floor cfg orc x nA rest _ v hnd' (hkeep.trans hs) hv
          (fun t ht => hmid t (List.mem_cons_of_mem _ ht))
      · exact runState_ovh_floor cfg orc x nA rest _ n hnd' hset
          (hmid (p, n) (List.mem_cons_self _ _))
          (fun t ht => hmid t (List.mem_cons_of_mem _ ht))

/-- **C7** — overhead cooldown: if a tick at time `nA` emits an OVERHEAD for
aircraft `x`, and after further ticks (all at or after `nA`) a tick at time
`nB` again emits an OVERHEAD for `x`, then `nB - nA ≥
overhead_cooldown_seconds`.  The `_last_overhead_sent` stamp is never cleared
— not by EXIT nor by eviction — which is exactly what makes the bound hold
across an exit-and-reenter inside the cooldown window. -/
theorem C7_overhead_cooldown (cfg : Config) (orc : Oracles) (s : TrackerState)
    (x : String) (hnd : keysND s.inside)
    (pA : List PlaneObs) (nA : ℚ) (mid : List (List PlaneObs × ℚ))
    (pB : List PlaneObs) (nB : ℚ)
    (hmid : ∀ t ∈ mid, nA ≤ t.2)
    (hA : 0 < (tick cfg orc s pA nA).2.countP (ovhFor x))
    (hB : 0 < (tick cfg orc (runState cfg orc (tick cfg orc s pA nA).1 mid) pB nB).2.countP
      (ovhFor x)) :
    cfg.overhead_cooldown_seconds ≤ nB - nA := by
  rcases tick_ovh cfg orc s pA nA x hnd with ⟨hc, _⟩ | ⟨_, hset, _⟩
  · rw [hc] at hA
    exact absurd hA (lt_irrefl 0)
  · have hndA := tick_keysND cfg orc s pA nA hnd
    obtain ⟨v, hvA, hvs, hndB⟩ := runState_ovh_floor cfg orc x nA mid _ nA hndA hset
      le_rfl hmid
    rcases tick_ovh cfg orc (runState cfg orc (tick cfg orc s pA nA).1 mid) pB nB x hndB with
      ⟨hc, _⟩ | ⟨_, _, hcs⟩
    · rw [hc] at hB
      exact absurd hB (lt_irrefl 0)
    · unfold can_send_overhead at hcs
      rw [hvs] at hcs
      have hle := of_decide_eq_true hcs
      have hle2 : cfg.overhead_cooldown_seconds ≤ nB - v := by simpa using hle
      linarith

/-- C7's hypotheses are satisfiable: a first OVERHEAD at `t = 2000` and a
second OVERHEAD-emitting tick at `t = 3800` for the same aircraft, exactly
one cooldown apart. -/
theorem C7_overhead_cooldown_witness :
    keysND c7s0.inside ∧
    (∀ t ∈ ([] : List (List PlaneObs × ℚ)), (2000 : ℚ) ≤ t.2) ∧
    0 < (tick c7cfg c7orc c7s0 [c7plane] 2000).2.countP (ovhFor "abc123") ∧
    0 < (tick c7cfg c7orc (runState c7cfg c7orc (tick c7cfg c7orc c7s0 [c7plane] 2000).1 [])
      [c7plane] 3800).2.countP (ovhFor "abc123") ∧
    c7cfg.overhead_cooldown_seconds ≤ (3800 : ℚ) - 2000 :=
  ⟨List.nodup_nil, by simp,
   of_decide_eq_true (by with_unfolding_all rfl),
   of_decide_eq_true (by with_unfolding_all rfl),
   C7_overhead_cooldown c7cfg c7orc c7s0 "abc123" List.nodup_nil [c7plane] 2000 []
     [c7plane] 3800 (by simp)
     (of_decide_eq_true (by with_unfolding_all rfl))
     (of_decide_eq_true (by with_unfolding_all rfl))⟩

theorem phase2_inside_eq (cfg : Config) (orc : Oracles) (now : ℚ)
    (s1 : TrackerState) (ci : List (String × PlaneObs)) (x : String) :
    alookup x (phase2 cfg orc now s1 ci).1.inside =
      if (alookup x ci).isSome then some now else alookup x s1.inside :=
  phase2_inside cfg orc now ci s1 [] x

theorem phase2_lsa_eq (cfg : Config) (orc : Oracles) (now : ℚ)
    (s1 : TrackerState) (ci : List (String × PlaneObs)) :
    (phase2 cfg orc now s1 ci).1.lastSeenAny = s1.lastSeenAny :=
  (phase2_state cfg orc now ci s1 []).1

theorem phase2_ldm_eq (cfg : Config) (orc : Oracles) (now : ℚ)
    (s1 : TrackerState) (ci : List (String × PlaneObs)) :
    (phase2 cfg orc now s1 ci).1.lastDistM = s1.lastDistM :=
  (phase2_state cfg orc now ci s1 []).2.1

theorem phase2_polls_eq (cfg : Config) (orc : Oracles) (now : ℚ)
    (s1 : TrackerState) (ci : List (String × PlaneObs)) (x : String) :
    (phase2 cfg orc now s1 ci).1.outsidePolls x =
      if (alookup x ci).isSome then some 0 else s1.outsidePolls x :=
  phase2_polls cfg orc now ci s1 [] x

theorem headD_mem {α : Type} (l : List α) (d : α) (h : l ≠ []) : l.headD d ∈ l := by
  cases l with
  | nil => exact absurd rfl h
  | cons a t => exact List.mem_cons_self _ _

/-- **C2** — a `signal_lost` EXIT for an aircraft is emitted only on a tick
whose snapshot contains no record of that aircraft at all, and only when at
least `disappear_grace_seconds` have elapsed since the later of its
last-inside timestamp and its (pre-tick) last-seen-at-all timestamp; in
particular it is never emitted while the aircraft is still present in the
feed. -/
theorem C2_signal_lost_exit (cfg : Config) (orc : Oracles) (s : TrackerState)
    (planes : List PlaneObs) (now : ℚ) (ev : Event EventMeta)
    (hnd : keysND s.inside)
    (hev : ev ∈ (tick cfg orc s planes now).2)
    (hexit : ev.event = EvKind.EXIT)
    (hreason : ev.meta.reason = some "signal_lost") :
    (∀ p ∈ planes, p.icao24 ≠ ev.id) ∧
    ∃ t, alookup ev.id s.inside = some t ∧
      cfg.disappear_grace_seconds ≤ now - max t ((s.lastSeenAny ev.id).getD 0) := by
  rw [tick_events] at hev
  have hnd2 : keysND (phase2 cfg orc now (phase1 cfg s planes now).1
      (phase1 cfg s planes now).2.2).1.inside :=
    phase2_keysND cfg orc now _ _ _ hnd
  rcases List.mem_append.mp hev with h2 | h3
  · rcases phase2_events cfg orc now (phase1 cfg s planes now).2.2
      (phase1 cfg s planes now).1 [] ev h2 with h | ⟨_, hne⟩
    · cases h
    · exact absurd hexit hne
  · rcases phase3_events cfg now (phase1 cfg s planes now).2.1
        (phase1 cfg s planes now).2.2
        (phase2 cfg orc now (phase1 cfg s planes now).1
          (phase1 cfg s planes now).2.2).1 _ _ _ _ hnd2 ev h3 with h | ⟨t, hmem, hci, _, _, hbr⟩
    · cases h
    · rcases hbr with ⟨_, hr1, _⟩ | ⟨hseen, _, hgrace⟩
      · rw [hr1] at hreason
        exact absurd (Option.some.inj hreason) (by decide)
      · have hobs : obsLast planes ev.id = none := by
          rw [← phase1_seen cfg s planes now ev.id]
          exact hseen
        have habsent : ∀ p ∈ planes, p.icao24 ≠ ev.id :=
          (obsLast_eq_none ev.id planes).mp hobs
        refine ⟨habsent, t, ?_, ?_⟩
        · have hlk : alookup ev.id (phase2 cfg orc now (phase1 cfg s planes now).1
              (phase1 cfg s planes now).2.2).1.inside = some t :=
            mem_alookup ev.id t _ hnd2 hmem
          rw [phase2_inside_eq cfg orc now (phase1 cfg s planes now).1
            (phase1 cfg s planes now).2.2 ev.id, hci] at hlk
          simp only [Bool.false_eq_true, if_false] at hlk
          exact hlk
        · have hlsa : (phase2 cfg orc now (phase1 cfg s planes now).1
              (phase1 cfg s planes now).2.2).1.lastSeenAny ev.id =
              s.lastSeenAny ev.id := by
            rw [congrFun (phase2_lsa_eq cfg orc now (phase1 cfg s planes now).1
              (phase1 cfg s planes now).2.2) ev.id,
              phase1_lsa cfg s planes now ev.id, hobs]
            simp
          rw [hlsa] at hgrace
          exact hgrace

theorem c2tick_ne_nil : (tick c2cfg c2orc c2s0 [] 50).2 ≠ [] := by
  intro hh
  have h1 : (tick c2cfg c2orc c2s0 [] 50).2.isEmpty = false := by
    with_unfolding_all rfl
  rw [hh] at h1
  cases h1

/-- C2's hypotheses are satisfiable: an aircraft that entered at `t = 0`,
with an empty snapshot at `t = 50` and a 10-second grace, receives a
`signal_lost` EXIT. -/
theorem C2_signal_lost_exit_witness :
    keysND c2s0.inside ∧
    c2ev ∈ (tick c2cfg c2orc c2s0 [] 50).2 ∧
    c2ev.event = EvKind.EXIT ∧
    c2ev.meta.reason = some "signal_lost" ∧
    ((∀ p ∈ ([] : List PlaneObs), p.icao24 ≠ c2ev.id) ∧
      ∃ t, alookup c2ev.id c2s0.inside = some t ∧
        c2cfg.disappear_grace_seconds ≤ (50 : ℚ) - max t ((c2s0.lastSeenAny c2ev.id).getD 0)) :=
  ⟨by unfold keysND; decide, headD_mem _ c2dummy c2tick_ne_nil,
   by with_unfolding_all rfl,
   by with_unfolding_all rfl,
   C2_signal_lost_exit c2cfg c2orc c2s0 [] 50 c2ev (by unfold keysND; decide)
     (headD_mem _ c2dummy c2tick_ne_nil)
     (by with_unfolding_all rfl)
     (by with_unfolding_all rfl)⟩

theorem displayFilter_some (d : String) (hd : d ≠ "") :
    displayFilter (some d) = some d := by
  unfold displayFilter
  exact if_pos hd

theorem phase2_pc_old_eq (cfg : Config) (orc : Oracles) (now : ℚ)
    (s1 : TrackerState) (ci : List (String × PlaneObs)) (id : String)
    (hndci : keysND ci) (hin : alookup id s1.inside ≠ none) :
    pcDisplay (phase2 cfg orc now s1 ci).1.planeCache id =
      pcDisplay s1.planeCache id :=
  (phase2_display_old cfg orc now id ci s1 [] hndci hin).1

theorem tick_enter (cfg : Config) (orc : Oracles) (s : TrackerState)
    (planes : List PlaneObs) (now : ℚ) (ev : Event EventMeta)
    (hnd : keysND s.inside)
    (hev : ev ∈ (tick cfg orc s planes now).2)
    (hent : ev.event = EvKind.ENTER) :
    ∃ d, d ≠ "" ∧ ev.meta.display = some d ∧
      pcDisplay (tick cfg orc s planes now).1.planeCache ev.id = some d ∧
      alookup ev.id (tick cfg orc s planes now).1.inside ≠ none := by
  have hndci : keysND (phase1 cfg s planes now).2.2 := phase1_ci_keysND cfg s planes now
  have hnd2 : keysND (phase2 cfg orc now (phase1 cfg s planes now).1
      (phase1 cfg s planes now).2.2).1.inside :=
    phase2_keysND cfg orc now _ _ _ hnd
  rw [tick_events] at hev
  rcases List.mem_append.mp hev with h2 | h3
  · have hci : (alookup ev.id (phase1 cfg s planes now).2.2).isSome = true := by
      rcases phase2_events cfg orc now (phase1 cfg s planes now).2.2
        (phase1 cfg s planes now).1 [] ev h2 with h | ⟨hci, _⟩
      · cases h
      · exact hci
    rcases hold : alookup ev.id (phase1 cfg s planes now).1.inside with _ | v
    · obtain ⟨d, hd1, hd2, _, hall⟩ :=
        phase2_display_new cfg orc now ev.id (phase1 cfg s planes now).2.2
          (phase1 cfg s planes now).1 [] hndci hold hci
      have hdisp : ev.meta.display = some d :=
        hall ev h2 (List.not_mem_nil ev) rfl
      have hnrm : ev.id ∉ (phase3 cfg now (phase1 cfg s planes now).2.1
          (phase1 cfg s planes now).2.2
          (phase2 cfg orc now (phase1 cfg s planes now).1
            (phase1 cfg s planes now).2.2).1).2.2 := by
        intro hrm
        rcases (phase3_rm cfg now (phase1 cfg s planes now).2.1
          (phase1 cfg s planes now).2.2
          (phase2 cfg orc now (phase1 cfg s planes now).1
            (phase1 cfg s planes now).2.2).1 ev.id _ _ _ _ hnd2).mp hrm with h | ⟨t, _, hcif, _⟩
        · cases h
        · rw [hci] at hcif
          cases hcif
      refine ⟨d, hd1, hdisp, ?_, ?_⟩
      · rw [tick_state]
        unfold pcDisplay
        rw [evictFold_planeCache _ _ ev.id, if_neg hnrm]
        exact hd2
      · rw [tick_state, evictFold_inside _ _ ev.id, if_neg hnrm,
          show ({ (phase2 cfg orc now (phase1 cfg s planes now).1
            (phase1 cfg s planes now).2.2).1 with
            outsidePolls := (phase3 cfg now (phase1 cfg s planes now).2.1
              (phase1 cfg s planes now).2.2
              (phase2 cfg orc now (phase1 cfg s planes now).1
                (phase1 cfg s planes now).2.2).1).1 } : TrackerState).inside =
            (phase2 cfg orc now (phase1 cfg s planes now).1
              (phase1 cfg s planes now).2.2).1.inside from rfl,
          phase2_inside_eq, if_pos hci]
        exact Option.some_ne_none now
    · obtain ⟨_, hall⟩ := phase2_display_old cfg orc now ev.id
        (phase1 cfg s planes now).2.2 (phase1 cfg s planes now).1 [] hndci
        (by rw [hold]; exact Option.some_ne_none v)
      obtain ⟨hov, _⟩ := hall ev h2 (List.not_mem_nil ev) rfl
      rw [hent] at hov
      cases hov
  · rcases phase3_events cfg now (phase1 cfg s planes now).2.1
      (phase1 cfg s planes now).2.2
      (phase2 cfg orc now (phase1 cfg s planes now).1
        (phase1 cfg s planes now).2.2).1 _ _ _ _ hnd2 ev h3 with h | ⟨t, _, _, hx, _⟩
    · cases h
    · rw [hent] at hx
      cases hx

theorem tick_display_all (cfg : Config) (orc : Oracles) (s : TrackerState)
    (planes : List PlaneObs) (now : ℚ) (id d : String) (hd : d ≠ "")
    (hinv : visitInv s id d) :
    ∀ ev ∈ (tick cfg orc s planes now).2, ev.id = id → ev.meta.display = some d := by
  obtain ⟨hin, hpc, hnd⟩ := hinv
  have hndci : keysND (phase1 cfg s planes now).2.2 := phase1_ci_keysND cfg s planes now
  have hnd2 : keysND (phase2 cfg orc now (phase1 cfg s planes now).1
      (phase1 cfg s planes now).2.2).1.inside :=
    phase2_keysND cfg orc now _ _ _ hnd
  have hall := (phase2_display_old cfg orc now id
    (phase1 cfg s planes now).2.2 (phase1 cfg s planes now).1 [] hndci hin).2
  have hpc2 := phase2_pc_old_eq cfg orc now (phase1 cfg s planes now).1
    (phase1 cfg s planes now).2.2 id hndci hin
  intro ev hev hid
  rw [tick_events] at hev
  rcases List.mem_append.mp hev with h2 | h3
  · obtain ⟨_, hdisp⟩ := hall ev h2 (List.not_mem_nil ev) hid
    rw [hdisp]
    show displayFilter (pcDisplay s.planeCache id) = some d
    rw [hpc]
    exact displayFilter_some d hd
  · rcases phase3_events cfg now (phase1 cfg s planes now).2.1
      (phase1 cfg s planes now).2.2
      (phase2 cfg orc now (phase1 cfg s planes now).1
        (phase1 cfg s planes now).2.2).1 _ _ _ _ hnd2 ev h3 with h | ⟨t, _, _, _, hdisp, _⟩
    · cases h
    · rw [hdisp, hid, hpc2]
      show displayFilter (pcDisplay s.planeCache id) = some d
      rw [hpc]
      exact displayFilter_some d hd

theorem tick_display_keep (cfg : Config) (orc : Oracles) (s : TrackerState)
    (planes : List PlaneObs) (now : ℚ) (id d : String)
    (hinv : visitInv s id d)
    (hnoex : ∀ ev ∈ (tick cfg orc s planes now).2, ev.id = id →
      ev.event ≠ EvKind.EXIT) :
    visitInv (tick cfg orc s planes now).1 id d := by
  obtain ⟨hin, hpc, hnd⟩ := hinv
  have hndci : keysND (phase1 cfg s planes now).2.2 := phase1_ci_keysND cfg s planes now
  have hnd2 : keysND (phase2 cfg orc now (phase1 cfg s planes now).1
      (phase1 cfg s planes now).2.2).1.inside :=
    phase2_keysND cfg orc now _ _ _ hnd
  have hnrm : id ∉ (phase3 cfg now (phase1 cfg s planes now).2.1
      (phase1 cfg s planes now).2.2
      (phase2 cfg orc now (phase1 cfg s planes now).1
        (phase1 cfg s planes now).2.2).1).2.2 := by
    intro hrm
    rcases (phase3_rm cfg now (phase1 cfg s planes now).2.1
      (phase1 cfg s planes now).2.2
      (phase2 cfg orc now (phase1 cfg s planes now).1
        (phase1 cfg s planes now).2.2).1 id _ _ _ _ hnd2).mp hrm with h | ⟨t, hmem, hcif, hbr⟩
    · cases h
    · obtain ⟨ex, hexm, hexe, hexi⟩ := phase3_emit cfg now (phase1 cfg s planes now).2.1
        (phase1 cfg s planes now).2.2
        (phase2 cfg orc now (phase1 cfg s planes now).1
          (phase1 cfg s planes now).2.2).1 id _ _ _ _ hnd2 t hmem hcif hbr
      refine hnoex ex ?_ hexi hexe
      rw [tick_events]
      exact List.mem_append.mpr (Or.inr hexm)
  have hpc2 := phase2_pc_old_eq cfg orc now (phase1 cfg s planes now).1
    (phase1 cfg s planes now).2.2 id hndci hin
  refine ⟨?_, ?_, tick_keysND cfg orc s planes now hnd⟩
  · rw [tick_state, evictFold_inside _ _ id, if_neg hnrm,
      show ({ (phase2 cfg orc now (phase1 cfg s planes now).1
        (phase1 cfg s planes now).2.2).1 with
        outsidePolls := (phase3 cfg now (phase1 cfg s planes now).2.1
          (phase1 cfg s planes now).2.2
          (phase2 cfg orc now (phase1 cfg s planes now).1
            (phase1 cfg s planes now).2.2).1).1 } : TrackerState).inside =
        (phase2 cfg orc now (phase1 cfg s planes now).1
          (phase1 cfg s planes now).2.2).1.inside from rfl,
      phase2_inside_eq]
    split
    · exact Option.some_ne_none now
    · exact hin
  · rw [tick_state]
    unfold pcDisplay
    rw [evictFold_planeCache _ _ id, if_neg hnrm]
    show pcDisplay (phase2 cfg orc now (phase1 cfg s planes now).1
      (phase1 cfg s planes now).2.2).1.planeCache id = some d
    rw [hpc2]
    exact hpc

theorem run_display (cfg : Config) (orc : Oracles) (id d : String) (hd : d ≠ "") :
    ∀ (mid : List (List PlaneObs × ℚ)) (s : TrackerState),
      visitInv s id d →
      (∀ evs ∈ runEvents cfg orc s mid, ∀ ev ∈ evs, ev.id = id →
        ev.event ≠ EvKind.EXIT) →
      visitInv (runState cfg orc s mid) id d ∧
      (∀ evs ∈ runEvents cfg orc s mid, ∀ ev ∈ evs, ev.id = id →
        ev.meta.display = some d)
  | [], s, hinv, _ => ⟨hinv, fun evs hevs => absurd hevs (List.not_mem_nil evs)⟩
  | (p, n) :: rest, s, hinv, hnoex => by
      simp only [runState, runEvents]
      have hhead : ∀ ev ∈ (tick cfg orc s p n).2, ev.id = id →
          ev.event ≠ EvKind.EXIT :=
        hnoex (tick cfg orc s p n).2 (List.mem_cons_self _ _)
      have hinv' := tick_display_keep cfg orc s p n id d hinv hhead
      obtain ⟨ih1, ih2⟩ := run_display cfg orc id d hd rest (tick cfg orc s p n).1 hinv'
        (fun evs hevs => hnoex evs (List.mem_cons_of_mem _ hevs))
      refine ⟨ih1, ?_⟩
      intro evs hevs ev hev hid
      rcases List.mem_cons.mp hevs with hevs | hevs
      · subst hevs
        exact tick_display_all cfg orc s p n id d hd hinv ev hev hid
      · exact ih2 evs hevs ev hev hid

/-- **C6** — display identity over a visit: the `meta["display"]` string of an
ENTER event is byte-identical to the `meta["display"]` of every event later
emitted for the same aircraft — in particular every OVERHEAD and the final
EXIT — as long as no EXIT for it occurred in between (i.e. during the same
visit). -/
theorem C6_display_identity (cfg : Config) (orc : Oracles) (s₀ : TrackerState)
    (hnd : keysND s₀.inside)
    (pA : List PlaneObs) (nA : ℚ) (evE : Event EventMeta)
    (hevE : evE ∈ (tick cfg orc s₀ pA nA).2)
    (hEe : evE.event = EvKind.ENTER)
    (d : String) (hEd : evE.meta.display = some d)
    (mid : List (List PlaneObs × ℚ))
    (hnoexit : ∀ evs ∈ runEvents cfg orc (tick cfg orc s₀ pA nA).1 mid,
      ∀ ev ∈ evs, ev.id = evE.id → ev.event ≠ EvKind.EXIT)
    (pB : List PlaneObs) (nB : ℚ) :
    (∀ evs ∈ runEvents cfg orc (tick cfg orc s₀ pA nA).1 mid,
      ∀ ev ∈ evs, ev.id = evE.id → ev.meta.display = some d) ∧
    (∀ ev ∈ (tick cfg orc (runState cfg orc (tick cfg orc s₀ pA nA).1 mid) pB nB).2,
      ev.id = evE.id → ev.meta.display = some d) := by
  obtain ⟨d', hd1, hd2, hd3, hd4⟩ := tick_enter cfg orc s₀ pA nA evE hnd hevE hEe
  have hdd : d = d' := by
    rw [hEd] at hd2
    exact Option.some.inj hd2
  subst hdd
  have hinvA : visitInv (tick cfg orc s₀ pA nA).1 evE.id d :=
    ⟨hd4, hd3, tick_keysND cfg orc s₀ pA nA hnd⟩
  obtain ⟨hinvB, hmidall⟩ := run_display cfg orc evE.id d hd1 mid
    (tick cfg orc s₀ pA nA).1 hinvA hnoexit
  exact ⟨hmidall, tick_display_all cfg orc _ pB nB evE.id d hd1 hinvB⟩

theorem c6tick_ne_nil : (tick c6cfg c6orc c6s0 [c6plane] 2000).2 ≠ [] := by
  intro hh
  have h1 : (tick c6cfg c6orc c6s0 [c6plane] 2000).2.isEmpty = false := by
    with_unfolding_all rfl
  rw [hh] at h1
  cases h1

/-- C6's hypotheses are satisfiable: an ENTER at `t = 2000`, no intermediate
ticks, and an OVERHEAD-emitting tick at `t = 3800`, whose events all carry the
ENTER display string. -/
theorem C6_display_identity_witness :
    keysND c6s0.inside ∧
    c6evE ∈ (tick c6cfg c6orc c6s0 [c6plane] 2000).2 ∧
    c6evE.event = EvKind.ENTER ∧
    c6evE.meta.display = some c6d ∧
    (∀ evs ∈ runEvents c6cfg c6orc (tick c6cfg c6orc c6s0 [c6plane] 2000).1 [],
      ∀ ev ∈ evs, ev.id = c6evE.id → ev.event ≠ EvKind.EXIT) ∧
    ((∀ evs ∈ runEvents c6cfg c6orc (tick c6cfg c6orc c6s0 [c6plane] 2000).1 [],
        ∀ ev ∈ evs, ev.id = c6evE.id → ev.meta.display = some c6d) ∧
      (∀ ev ∈ (tick c6cfg c6orc
          (runState c6cfg c6orc (tick c6cfg c6orc c6s0 [c6plane] 2000).1 [])
          [c6plane] 3800).2,
        ev.id = c6evE.id → ev.meta.display = some c6d)) :=
  ⟨List.nodup_nil, headD_mem _ c6dummy c6tick_ne_nil,
   by with_unfolding_all rfl, by with_unfolding_all rfl,
   by simp [runEvents],
   C6_display_identity c6cfg c6orc c6s0 List.nodup_nil [c6plane] 2000 c6evE
     (headD_mem _ c6dummy c6tick_ne_nil) (by with_unfolding_all rfl) c6d
     (by with_unfolding_all rfl) [] (by simp [runEvents]) [c6plane] 3800⟩

theorem phase3_polls_absent_eq (cfg : Config) (now : ℚ)
    (seen : String → Option PlaneObs) (ci : List (String × PlaneObs))
    (s2 : TrackerState) (id : String) (h : alookup id s2.inside = none) :
    (phase3 cfg now seen ci s2).1 id = s2.outsidePolls id :=
  (phase3_absent cfg now seen ci s2 id s2.inside s2.outsidePolls [] [] h).1

theorem phase3_polls_mem_eq (cfg : Config) (now : ℚ)
    (seen : String → Option PlaneObs) (ci : List (String × PlaneObs))
    (s2 : TrackerState) (id : String) (t : ℚ) (hnd : keysND s2.inside)
    (hmem : (id, t) ∈ s2.inside) :
    (phase3 cfg now seen ci s2).1 id =
      (if (alookup id ci).isSome then s2.outsidePolls id
       else if (seen id).isSome then
         some (if cfg.radius_exit_m ≤ (s2.lastDistM id).getD 9000000000
               then (s2.outsidePolls id).getD 0 + 1 else 0)
       else s2.outsidePolls id) :=
  phase3_counter cfg now seen ci s2 id s2.inside s2.outsidePolls [] [] hnd t hmem

theorem tick_counter (cfg : Config) (orc : Oracles) (s : TrackerState)
    (planes : List PlaneObs) (now : ℚ) (id : String) (hnd : keysND s.inside)
    (h2 : id ∉ insideKeys s → counterD s id = 0) :
    (counterD (tick cfg orc s planes now).1 id ≤
      match obsDist planes id with
      | none => counterD s id
      | some d => if cfg.radius_exit_m ≤ d then counterD s id + 1 else 0) ∧
    (id ∉ insideKeys (tick cfg orc s planes now).1 →
      counterD (tick cfg orc s planes now).1 id = 0) := by
  have hnd2 : keysND (phase2 cfg orc now (phase1 cfg s planes now).1
      (phase1 cfg s planes now).2.2).1.inside :=
    phase2_keysND cfg orc now _ _ _ hnd
  have hop : (tick cfg orc s planes now).1.outsidePolls id =
      if id ∈ (phase3 cfg now (phase1 cfg s planes now).2.1
          (phase1 cfg s planes now).2.2
          (phase2 cfg orc now (phase1 cfg s planes now).1
            (phase1 cfg s planes now).2.2).1).2.2
      then none
      else (phase3 cfg now (phase1 cfg s planes now).2.1
          (phase1 cfg s planes now).2.2
          (phase2 cfg orc now (phase1 cfg s planes now).1
            (phase1 cfg s planes now).2.2).1).1 id := by
    rw [tick_state, evictFold_outsidePolls]
  by_cases hrm : id ∈ (phase3 cfg now (phase1 cfg s planes now).2.1
      (phase1 cfg s planes now).2.2
      (phase2 cfg orc now (phase1 cfg s planes now).1
        (phase1 cfg s planes now).2.2).1).2.2
  · rw [if_pos hrm] at hop
    have hc0 : counterD (tick cfg orc s planes now).1 id = 0 := by
      unfold counterD
      rw [hop]
      rfl
    constructor
    · rw [hc0]
      rcases hobs : obsDist planes id with _ | d
      · exact Nat.zero_le _
      · dsimp only
        split
        · exact Nat.zero_le _
        · exact Nat.le_refl 0
    · intro _
      exact hc0
  · rw [if_neg hrm] at hop
    rcases hin2 : alookup id (phase2 cfg orc now (phase1 cfg s planes now).1
        (phase1 cfg s planes now).2.2).1.inside with _ | t
    · -- not inside after phase 2: the EXIT loop never touches this id
      have hp3 := phase3_polls_absent_eq cfg now (phase1 cfg s planes now).2.1
        (phase1 cfg s planes now).2.2
        (phase2 cfg orc now (phase1 cfg s planes now).1
          (phase1 cfg s planes now).2.2).1 id hin2
      rw [hp3] at hop
      rw [phase2_inside_eq] at hin2
      have hci : (alookup id (phase1 cfg s planes now).2.2).isSome = false := by
        rcases hb : (alookup id (phase1 cfg s planes now).2.2).isSome
        · rfl
        · rw [if_pos hb] at hin2
          cases hin2
      rw [if_neg (by rw [hci]; exact Bool.false_ne_true)] at hin2
      have hops2 : (phase2 cfg orc now (phase1 cfg s planes now).1
          (phase1 cfg s planes now).2.2).1.outsidePolls id = s.outsidePolls id := by
        rw [phase2_polls_eq, if_neg (by rw [hci]; exact Bool.false_ne_true)]
        rfl
      rw [hops2] at hop
      have hnotin : id ∉ insideKeys s := (alookup_eq_none id s.inside).mp hin2
      have hc0s : counterD s id = 0 := h2 hnotin
      have hc0 : counterD (tick cfg orc s planes now).1 id = 0 := by
        unfold counterD
        rw [hop]
        exact hc0s
      constructor
      · rw [hc0]
        rcases hobs : obsDist planes id with _ | d
        · exact Nat.zero_le _
        · dsimp only
          split
          · exact Nat.zero_le _
          · exact Nat.le_refl 0
      · intro _
        exact hc0
    · -- still inside after phase 2: the EXIT loop decides the counter
      have hmem3 : (id, t) ∈ (phase2 cfg orc now (phase1 cfg s planes now).1
          (phase1 cfg s planes now).2.2).1.inside :=
        alookup_mem id t _ hin2
      have hp3 := phase3_polls_mem_eq cfg now (phase1 cfg s planes now).2.1
        (phase1 cfg s planes now).2.2
        (phase2 cfg orc now (phase1 cfg s planes now).1
          (phase1 cfg s planes now).2.2).1 id t hnd2 hmem3
      rw [hp3] at hop
      have hstay : id ∈ insideKeys (tick cfg orc s planes now).1 := by
        have hlk : alookup id (tick cfg orc s planes now).1.inside = some t := by
          rw [tick_state, evictFold_inside _ _ id, if_neg hrm]
          exact hin2
        exact (alookup_isSome id _).mp (by rw [hlk]; rfl)
      refine ⟨?_, fun habs => absurd hstay habs⟩
      by_cases hci : (alookup id (phase1 cfg s planes now).2.2).isSome = true
      · rw [if_pos hci] at hop
        have hops2 : (phase2 cfg orc now (phase1 cfg s planes now).1
            (phase1 cfg s planes now).2.2).1.outsidePolls id = some 0 := by
          rw [phase2_polls_eq, if_pos hci]
        unfold counterD
        rw [hop, hops2]
        rcases hobs : obsDist planes id with _ | d
        · exact Nat.zero_le _
        · dsimp only
          split
          · exact Nat.zero_le _
          · exact Nat.le_refl 0
      · rw [if_neg hci] at hop
        have hcif : (alookup id (phase1 cfg s planes now).2.2).isSome = false := by
          rcases hb : (alookup id (phase1 cfg s planes now).2.2).isSome
          · rfl
          · exact absurd hb hci
        have hops2 : (phase2 cfg orc now (phase1 cfg s planes now).1
            (phase1 cfg s planes now).2.2).1.outsidePolls id = s.outsidePolls id := by
          rw [phase2_polls_eq, if_neg (by rw [hcif]; exact Bool.false_ne_true)]
          rfl
        by_cases hseen : ((phase1 cfg s planes now).2.1 id).isSome = true
        · rw [if_pos hseen] at hop
          obtain ⟨q, hq⟩ := Option.isSome_iff_exists.mp (by
            rw [phase1_seen] at hseen
            exact hseen)
          have hobs : obsDist planes id = some q.distM := by
            unfold obsDist
            rw [hq]
            rfl
          have hldm : (phase2 cfg orc now (phase1 cfg s planes now).1
              (phase1 cfg s planes now).2.2).1.lastDistM id = some q.distM := by
            rw [congrFun (phase2_ldm_eq cfg orc now (phase1 cfg s planes now).1
              (phase1 cfg s planes now).2.2) id, phase1_ldm, hobs]
          unfold counterD
          rw [hop, hldm, hops2, hobs]
          dsimp only [Option.getD_some]
          rfl
        · have hseenf : ((phase1 cfg s planes now).2.1 id).isSome = false := by
            rcases hb : ((phase1 cfg s planes now).2.1 id).isSome
            · rfl
            · exact absurd hb hseen
          rw [if_neg (by rw [hseenf]; exact Bool.false_ne_true), hops2] at hop
          have hobs : obsDist planes id = none := by
            unfold obsDist
            rw [show obsLast planes id = none from by
              rw [← phase1_seen cfg s planes now id]
              exact Option.not_isSome_iff_eq_none.mp (by rw [hseenf]; exact Bool.false_ne_true)]
            rfl
          unfold counterD
          rw [hop, hobs]

theorem run_counter (cfg : Config) (orc : Oracles) (id : String) :
    ∀ (hist : List (List PlaneObs × ℚ)) (s : TrackerState)
      (hrev : List (List PlaneObs × ℚ)),
      keysND s.inside →
      (id ∉ insideKeys s → counterD s id = 0) →
      counterD s id ≤ outsideStreak cfg id hrev →
      keysND (runState cfg orc s hist).inside ∧
      (id ∉ insideKeys (runState cfg orc s hist) →
        counterD (runState cfg orc s hist) id = 0) ∧
      counterD (runState cfg orc s hist) id ≤
        outsideStreak cfg id (hist.reverse ++ hrev)
  | [], s, hrev, hnd, h2, hle => ⟨hnd, h2, by simpa using hle⟩
  | (p, n) :: rest, s, hrev, hnd, h2, hle => by
      simp only [runState]
      obtain ⟨hstep, h2'⟩ := tick_counter cfg orc s p n id hnd h2
      have hle' : counterD (tick cfg orc s p n).1 id ≤
          outsideStreak cfg id ((p, n) :: hrev) := by
        rcases hobs : obsDist p id with _ | d
        · rw [hobs] at hstep
          calc counterD (tick cfg orc s p n).1 id ≤ counterD s id := hstep
            _ ≤ outsideStreak cfg id hrev := hle
            _ = outsideStreak cfg id ((p, n) :: hrev) := by
                simp only [outsideStreak, hobs]
        · rw [hobs] at hstep
          dsimp only at hstep
          by_cases hd : cfg.radius_exit_m ≤ d
          · rw [if_pos hd] at hstep
            calc counterD (tick cfg orc s p n).1 id ≤ counterD s id + 1 := hstep
              _ ≤ outsideStreak cfg id hrev + 1 := Nat.succ_le_succ hle
              _ = outsideStreak cfg id ((p, n) :: hrev) := by
                  simp only [outsideStreak, hobs, if_pos hd]
          · rw [if_neg hd] at hstep
            calc counterD (tick cfg orc s p n).1 id ≤ 0 := hstep
              _ = outsideStreak cfg id ((p, n) :: hrev) := by
                  simp only [outsideStreak, hobs, if_neg hd]
      obtain ⟨ih1, ih2, ih3⟩ := run_counter cfg orc id rest (tick cfg orc s p n).1
        ((p, n) :: hrev) (tick_keysND cfg orc s p n hnd) h2' hle'
      refine ⟨ih1, ih2, ?_⟩
      rw [List.reverse_cons, List.append_assoc]
      exact ih3

theorem tick_out_of_radius (cfg : Config) (orc : Oracles) (s : TrackerState)
    (planes : List PlaneObs) (now : ℚ) (ev : Event EventMeta)
    (hnd : keysND s.inside) (hcp : 1 ≤ cfg.exit_confirm_polls)
    (hev : ev ∈ (tick cfg orc s planes now).2)
    (hexit : ev.event = EvKind.EXIT)
    (hreason : ev.meta.reason = some "out_of_radius") :
    ∃ d, obsDist planes ev.id = some d ∧ cfg.radius_exit_m ≤ d ∧
      cfg.exit_confirm_polls ≤ counterD s ev.id + 1 := by
  have hnd2 : keysND (phase2 cfg orc now (phase1 cfg s planes now).1
      (phase1 cfg s planes now).2.2).1.inside :=
    phase2_keysND cfg orc now _ _ _ hnd
  rw [tick_events] at hev
  rcases List.mem_append.mp hev with h2 | h3
  · rcases phase2_events cfg orc now (phase1 cfg s planes now).2.2
      (phase1 cfg s planes now).1 [] ev h2 with h | ⟨_, hne⟩
    · cases h
    · exact absurd hexit hne
  · rcases phase3_events cfg now (phase1 cfg s planes now).2.1
        (phase1 cfg s planes now).2.2
        (phase2 cfg orc now (phase1 cfg s planes now).1
          (phase1 cfg s planes now).2.2).1 _ _ _ _ hnd2 ev h3 with h | ⟨t, _, hci, _, _, hbr⟩
    · cases h
    · rcases hbr with ⟨hseen, _, hge⟩ | ⟨_, hr1, _⟩
      · obtain ⟨q, hq⟩ := Option.isSome_iff_exists.mp (by
          rw [phase1_seen] at hseen
          exact hseen)
        have hobs : obsDist planes ev.id = some q.distM := by
          unfold obsDist
          rw [hq]
          rfl
        have hldm : (phase2 cfg orc now (phase1 cfg s planes now).1
            (phase1 cfg s planes now).2.2).1.lastDistM ev.id = some q.distM := by
          rw [congrFun (phase2_ldm_eq cfg orc now (phase1 cfg s planes now).1
            (phase1 cfg s planes now).2.2) ev.id, phase1_ldm, hobs]
        rw [hldm] at hge
        dsimp only [Option.getD_some] at hge
        have hops2 : (phase2 cfg orc now (phase1 cfg s planes now).1
            (phase1 cfg s planes now).2.2).1.outsidePolls ev.id =
            s.outsidePolls ev.id := by
          rw [phase2_polls_eq, if_neg (by rw [hci]; exact Bool.false_ne_true)]
          rfl
        rw [hops2] at hge
        by_cases hd : cfg.radius_exit_m ≤ q.distM
        · rw [if_pos hd] at hge
          exact ⟨q.distM, hobs, hd, hge⟩
        · rw [if_neg hd] at hge
          exact absurd (hcp.trans hge) (by decide)
      · rw [hr1] at hreason
        exact absurd (Option.some.inj hreason) (by decide)

/-- **C1** — out-of-radius hysteresis: starting from a state in which the
aircraft is not inside and its consecutive-outside counter is zero, an
`out_of_radius` EXIT for it can only be emitted on a tick on which — counting
the current tick and going backwards through the history, skipping ticks on
which the aircraft was not observed — the aircraft's final observed distance
was at or beyond the exit radius `radius_m + exit_buffer_m` on at least
`exit_confirm_polls` consecutive observed ticks; a single observed tick with
distance below the exit radius resets that streak (and the in-state counter)
to zero, so no `out_of_radius` EXIT can be emitted on it. -/
theorem C1_out_of_radius_hysteresis (cfg : Config) (orc : Oracles)
    (s₀ : TrackerState) (id : String)
    (hnd : keysND s₀.inside) (hc0 : counterD s₀ id = 0)
    (hcp : 1 ≤ cfg.exit_confirm_polls)
    (pre : List (List PlaneObs × ℚ)) (planes : List PlaneObs) (now : ℚ)
    (ev : Event EventMeta)
    (hev : ev ∈ (tick cfg orc (runState cfg orc s₀ pre) planes now).2)
    (hid : ev.id = id)
    (hexit : ev.event = EvKind.EXIT)
    (hreason : ev.meta.reason = some "out_of_radius") :
    cfg.exit_confirm_polls ≤ outsideStreak cfg id ((planes, now) :: pre.reverse) := by
  obtain ⟨hndN, _, hleN⟩ := run_counter cfg orc id pre s₀ [] hnd (fun _ => hc0)
    (hc0 ▸ Nat.le_refl 0)
  rw [List.append_nil] at hleN
  obtain ⟨d, hobs, hd, hge⟩ := tick_out_of_radius cfg orc (runState cfg orc s₀ pre)
    planes now ev hndN hcp hev hexit hreason
  rw [hid] at hobs hge
  have hstreak : outsideStreak cfg id ((planes, now) :: pre.reverse) =
      outsideStreak cfg id pre.reverse + 1 := by
    simp only [outsideStreak, hobs, if_pos hd]
  rw [hstreak]
  calc cfg.exit_confirm_polls ≤ counterD (runState cfg orc s₀ pre) id + 1 := hge
    _ ≤ outsideStreak cfg id pre.reverse + 1 := Nat.succ_le_succ hleN

theorem c1tick_ne_nil :
    (tick c1cfg c1orc (runState c1cfg c1orc c1s0 c1pre) [c1out] 20).2 ≠ [] := by
  intro hh
  have h1 : (tick c1cfg c1orc (runState c1cfg c1orc c1s0 c1pre) [c1out] 20).2.isEmpty =
      false := by
    with_unfolding_all rfl
  rw [hh] at h1
  cases h1

/-- C1's hypotheses are satisfiable: ENTER at distance 100 m, then two
consecutive observed ticks at 6000 m (beyond the 5750 m exit radius) produce
the `out_of_radius` EXIT on the second of them, with a streak of exactly
`exit_confirm_polls = 2`. -/
theorem C1_out_of_radius_hysteresis_witness :
    keysND c1s0.inside ∧
    counterD c1s0 "ab1234" = 0 ∧
    1 ≤ c1cfg.exit_confirm_polls ∧
    c1ev ∈ (tick c1cfg c1orc (runState c1cfg c1orc c1s0 c1pre) [c1out] 20).2 ∧
    c1ev.id = "ab1234" ∧
    c1ev.event = EvKind.EXIT ∧
    c1ev.meta.reason = some "out_of_radius" ∧
    c1cfg.exit_confirm_polls ≤
      outsideStreak c1cfg "ab1234" (([c1out], 20) :: c1pre.reverse) :=
  ⟨List.nodup_nil, rfl, by decide, headD_mem _ c1dummy c1tick_ne_nil,
   by with_unfolding_all rfl,
   by with_unfolding_all rfl,
   by with_unfolding_all rfl,
   C1_out_of_radius_hysteresis c1cfg c1orc c1s0 "ab1234" List.nodup_nil rfl
     (by decide) c1pre [c1out] 20 c1ev (headD_mem _ c1dummy c1tick_ne_nil)
     (by with_unfolding_all rfl)
     (by with_unfolding_all rfl)
     (by with_unfolding_all rfl)⟩

end SkyMon
